import Mathlib

/-!
# Warehouse-Control: role-gated inventory service

A shallow embedding of the Go packages `internal/domain`, `internal/service`,
`internal/export` and `internal/auth`, followed by theorems about them.

Conventions of the embedding:

* a Go `string` is a Lean `String`; a Go `int`/`int64` is an `Int`
  (64-bit wrap-around is written explicitly where a product can overflow);
* a Go pointer field that may be `nil` is an `Option`;
* a Go result pair `(*T, error)` is `Option T × Option GoError`,
  with `none` for `nil`;
* a slice that may be `nil` is `Option (List α)`;
* a repository interface is a record of state transformers over a store
  state `σ`; the service functions thread a `World` that also keeps the
  trace of every repository and CSV-writer call they make;
* `context.Context` and the logger carry no result and are left out.
-/

set_option autoImplicit false

/-! ## Types of external packages -/

/-- `uuid.UUID`: a 16-byte identifier, held as the number its bytes spell. -/
structure UUID where
  val : Nat
  deriving DecidableEq, Repr

/-- `decimal.Decimal`: `value * 10 ^ exp`. -/
structure Decimal where
  value : Int
  exp : Int
  deriving DecidableEq, Repr

/-- `time.Time` as an instant: nanoseconds since the Unix epoch. -/
abbrev Time := Int

/-- `time.Duration`: a signed count of nanoseconds. -/
abbrev Duration := Int

/-- `json.RawMessage`: the raw text of a JSON document. -/
abbrev RawMessage := String

/-- Conversion of an unbounded integer to a Go 64-bit `int` (two's complement
wrap-around). -/
def wrapInt64 (x : Int) : Int := (x + 2 ^ 63) % 2 ^ 64 - 2 ^ 63

/-! ## package domain -/

namespace domain

/-- The package-level error values of `domain/errors.go` (each `errors.New`
value is identified by its variable). -/
inductive Sentinel where
  | NotFound
  | AlreadyExists
  | InvalidCredentials
  | TokenExpired
  | TokenInvalid
  | Forbidden
  | Validation
  | NoChanges
  | DuplicateSKU
  deriving DecidableEq, Repr

/-- A Go `error` value: one of the package-level values, a value built with
`fmt.Errorf("...: %w", err)` around another error, any error made
elsewhere (driver, I/O, library), identified by its message, a `*pq.Error`
with its SQLSTATE code, or `sql.ErrNoRows`. -/
inductive GoError where
  | sentinel (k : Sentinel)
  | wrap (msg : String) (inner : GoError)
  | foreign (msg : String)
  | pq (code : String) (message : String)
  | sqlNoRows
  deriving DecidableEq, Repr

/-- `errors.Is(err, target)` for a package-level target: walk the `%w` chain
and compare by identity. -/
def GoError.Is : GoError → Sentinel → Bool
  | .sentinel k, t => decide (k = t)
  | .wrap _ e, t => GoError.Is e t
  | .foreign _, _ => false
  | .pq _ _, _ => false
  | .sqlNoRows, _ => false

def ErrNotFound : GoError := .sentinel .NotFound
def ErrAlreadyExists : GoError := .sentinel .AlreadyExists
def ErrInvalidCredentials : GoError := .sentinel .InvalidCredentials
def ErrTokenExpired : GoError := .sentinel .TokenExpired
def ErrTokenInvalid : GoError := .sentinel .TokenInvalid
def ErrForbidden : GoError := .sentinel .Forbidden
def ErrValidation : GoError := .sentinel .Validation
def ErrNoChanges : GoError := .sentinel .NoChanges
def ErrDuplicateSKU : GoError := .sentinel .DuplicateSKU

/-- `type Role string`. -/
abbrev Role := String

def RoleAdmin : Role := "admin"
def RoleManager : Role := "manager"
def RoleViewer : Role := "viewer"

def Role.IsValid (r : Role) : Bool :=
  if r = RoleAdmin ∨ r = RoleManager ∨ r = RoleViewer then true else false

/-- `ParseRole`: the role itself, or the empty role with an error. -/
def ParseRole (s : String) : Role × Option GoError :=
  let r : Role := s
  if !Role.IsValid r then ("", some (.foreign ("unknown role: " ++ s.quote)))
  else (r, none)

def Role.CanCreate (r : Role) : Bool := r == RoleAdmin || r == RoleManager
def Role.CanUpdate (r : Role) : Bool := r == RoleAdmin || r == RoleManager
def Role.CanDelete (r : Role) : Bool := r == RoleAdmin
def Role.CanView (_r : Role) : Bool := true
def Role.CanViewAudit (r : Role) : Bool := r == RoleAdmin || r == RoleManager
def Role.CanExport (r : Role) : Bool := r == RoleAdmin || r == RoleManager

/-! ### domain/item.go -/

structure Item where
  ID : UUID
  Name : String
  SKU : String
  Quantity : Int
  Price : Decimal
  Location : Option String
  CreatedAt : Time
  UpdatedAt : Time
  deriving DecidableEq, Repr

structure CreateItemInput where
  Name : String
  SKU : String
  Quantity : Int
  Price : Decimal
  Location : Option String
  deriving DecidableEq, Repr

structure UpdateItemInput where
  Name : Option String
  SKU : Option String
  Quantity : Option Int
  Price : Option Decimal
  Location : Option String
  deriving DecidableEq, Repr

/-- `HasChanges`: at least one field is set. -/
def UpdateItemInput.HasChanges (u : UpdateItemInput) : Bool :=
  u.Name != none ||
    u.SKU != none ||
    u.Quantity != none ||
    u.Price != none ||
    u.Location != none

structure ItemFilter where
  Search : Option String
  deriving DecidableEq, Repr

structure ItemList where
  Items : Option (List Item)
  Total : Int
  Page : Int
  PageSize : Int
  TotalPages : Int
  deriving DecidableEq, Repr

/-! ### domain/audit.go -/

/-- `type AuditAction string`. -/
abbrev AuditAction := String

def AuditInsert : AuditAction := "INSERT"
def AuditUpdate : AuditAction := "UPDATE"
def AuditDelete : AuditAction := "DELETE"

def AuditAction.IsValid (a : AuditAction) : Bool :=
  if a = AuditInsert ∨ a = AuditUpdate ∨ a = AuditDelete then true else false

structure AuditEntry where
  ID : Int
  ItemID : UUID
  Action : AuditAction
  ChangedBy : UUID
  OldData : RawMessage
  NewData : RawMessage
  Diff : RawMessage
  ChangedAt : Time
  deriving DecidableEq, Repr

structure AuditEntryWithUser extends AuditEntry where
  Username : String
  deriving DecidableEq, Repr

structure AuditFilter where
  ItemID : Option UUID
  UserID : Option UUID
  Action : Option AuditAction
  DateFrom : Option Time
  DateTo : Option Time
  deriving DecidableEq, Repr

structure AuditList where
  Entries : Option (List AuditEntryWithUser)
  Total : Int
  Page : Int
  PageSize : Int
  TotalPages : Int
  deriving DecidableEq, Repr

/-! ### domain/user.go -/

structure User where
  ID : UUID
  Username : String
  PasswordHash : String
  Role : Role
  CreatedAt : Time
  UpdatedAt : Time
  deriving DecidableEq, Repr

structure LoginInput where
  Username : String
  Password : String
  deriving DecidableEq, Repr

structure AuthClaims where
  UserID : UUID
  Username : String
  Role : Role
  deriving DecidableEq, Repr

end domain

/-! ## Effects: the calls a service makes -/

/-- One call made on a collaborator: a repository method with its arguments,
a call on the CSV writer that wraps the caller's output, or a call on the
token manager. -/
inductive Call where
  | itemCreate (userID : UUID) (input : domain.CreateItemInput)
  | itemGetByID (id : UUID)
  | itemList (filter : domain.ItemFilter) (limit offset : Int)
  | itemUpdate (userID id : UUID) (input : domain.UpdateItemInput)
  | itemDelete (userID id : UUID)
  | auditGetByItemID (itemID : UUID)
  | auditList (filter : domain.AuditFilter) (limit offset : Int)
  | csvWrite (record : List String)
  | csvFlush
  | userGetByUsername (username : String)
  | userList
  | tokenGenerateJWT (user : domain.User)
  | tokenValidate (tokenStr : String)
  deriving DecidableEq, Repr

/-- What a service call can touch: the store behind the repository, the
caller's output behind the writer, and the trace of calls made so far. -/
structure World (σ ω : Type) where
  store : σ
  out : ω
  trace : List Call

/-- `encoding/csv.Writer` over the caller's `io.Writer`, whose state is `ω`:
`Write` takes one record, `Flush` empties the buffer, `Error` reports a
failure of an earlier write or flush. -/
structure csvWriter (ω : Type) where
  Write : List String → ω → Option domain.GoError × ω
  Flush : ω → ω
  Error : ω → Option domain.GoError

/-- `encoding/json` and `fmt` on a diff document with values of type `V`:
`Unmarshal` decodes into `map[string]struct{Old, New interface{}}` and lists
the entries in the order `range` visits them; `Sprintv` is the verb `%v`. -/
structure DiffCodec (V : Type) where
  Unmarshal : RawMessage → Except domain.GoError (List (String × V × V))
  Sprintv : V → String

namespace domain

/-- `FieldChange`: one changed field, with values of type `V`. -/
structure FieldChange (V : Type) where
  Field : String
  OldValue : V
  NewValue : V
  deriving DecidableEq, Repr

/-- `ParseDiff`: no changes and no error for an empty or `null` diff, the
decoding error when decoding fails, otherwise one change per decoded field. -/
def AuditEntry.ParseDiff {V : Type} (dc : DiffCodec V) (a : AuditEntry) :
    Option (List (FieldChange V)) × Option GoError :=
  if a.Diff.length = 0 ∨ a.Diff = "null" then (none, none)
  else
    match dc.Unmarshal a.Diff with
    | .error err => (none, some err)
    | .ok raw =>
      (some (raw.map fun fv => { Field := fv.1, OldValue := fv.2.1, NewValue := fv.2.2 }),
        none)

end domain

/-- Rendering of identifiers and instants: `uuid.UUID.String` and
`time.Time.Format(time.RFC3339)`. -/
structure Render where
  uuidString : UUID → String
  formatRFC3339 : Time → String

section calls
variable {σ ω : Type}

/-- `cw.Write(record)`, recorded in the trace. -/
def csvWrite (cw : csvWriter ω) (record : List String) (w : World σ ω) :
    Option domain.GoError × World σ ω :=
  let r := cw.Write record w.out
  (r.1, { w with out := r.2, trace := w.trace ++ [Call.csvWrite record] })

/-- `cw.Flush()`, recorded in the trace. -/
def csvFlush (cw : csvWriter ω) (w : World σ ω) : World σ ω :=
  { w with out := cw.Flush w.out, trace := w.trace ++ [Call.csvFlush] }

end calls

/-! ## package export -/

namespace csvexport

def auditCSVHeader : List String :=
  ["ID", "Item ID", "Action", "Changed By (ID)", "Changed By (Username)",
    "Changed At", "Changes"]

/-- `formatDiff`: the empty text for an empty or `null` diff, the raw text
when decoding fails, otherwise the pairs `field: old -> new` joined by `; `. -/
def formatDiff {V : Type} (dc : DiffCodec V) (raw : RawMessage) : String :=
  if raw.length = 0 ∨ raw = "null" then ""
  else
    match dc.Unmarshal raw with
    | .error _ => raw
    | .ok fields =>
      fields.foldl
        (fun result fv =>
          (if result != "" then result ++ "; " else result) ++
            (fv.1 ++ ": " ++ dc.Sprintv fv.2.1 ++ " -> " ++ dc.Sprintv fv.2.2))
        ""

/-- The record written for one audit entry. -/
def auditRow {V : Type} (rd : Render) (dc : DiffCodec V)
    (e : domain.AuditEntryWithUser) : List String :=
  [toString e.ID,
    rd.uuidString e.ItemID,
    e.Action,
    rd.uuidString e.ChangedBy,
    e.Username,
    rd.formatRFC3339 e.ChangedAt,
    formatDiff dc e.Diff]

/-- The loop of `WriteAuditCSV` over the entries. -/
def writeRows {σ ω V : Type} (rd : Render) (dc : DiffCodec V) (cw : csvWriter ω) :
    List domain.AuditEntryWithUser → World σ ω → Option domain.GoError × World σ ω
  | [], w => (none, w)
  | e :: es, w =>
    let r := csvWrite cw (auditRow rd dc e) w
    match r.1 with
    | some err => (some (.wrap ("write row " ++ toString e.ID) err), r.2)
    | none => writeRows rd dc cw es r.2

def WriteAuditCSV {σ ω V : Type} (rd : Render) (dc : DiffCodec V) (cw : csvWriter ω)
    (entries : Option (List domain.AuditEntryWithUser)) (w : World σ ω) :
    Option domain.GoError × World σ ω :=
  let h := csvWrite cw auditCSVHeader w
  match h.1 with
  | some err => (some (.wrap "write header" err), h.2)
  | none =>
    let r := writeRows rd dc cw (entries.getD []) h.2
    match r.1 with
    | some err => (some err, r.2)
    | none =>
      let w3 := csvFlush cw r.2
      (cw.Error w3.out, w3)

end csvexport

/-! ## package service -/

namespace service

open domain

def defaultPage : Int := 1
def defaultPageSize : Int := 20
def maxPageSize : Int := 100
def maxExportRows : Int := 10000

def normalizePagination (page pageSize : Int) : Int × Int :=
  let page := if page < 1 then defaultPage else page
  let pageSize := if pageSize < 1 ∨ pageSize > maxPageSize then defaultPageSize else pageSize
  (page, pageSize)

/-- `calcTotalPages`; Go's `/` and `%` on integers truncate toward zero. -/
def calcTotalPages (total : Int) (pageSize : Int) : Int :=
  if pageSize ≤ 0 then 0
  else
    let pages := Int.tdiv total pageSize
    if Int.tmod total pageSize ≠ 0 then pages + 1 else pages

/-- The interface `itemRepository` over a store state `σ`. -/
structure itemRepository (σ : Type) where
  Create : UUID → CreateItemInput → σ → (Option Item × Option GoError) × σ
  GetByID : UUID → σ → (Option Item × Option GoError) × σ
  List : ItemFilter → Int → Int → σ → (Option (List Item) × Int × Option GoError) × σ
  Update : UUID → UUID → UpdateItemInput → σ → (Option Item × Option GoError) × σ
  Delete : UUID → UUID → σ → Option GoError × σ

/-- The interface `auditRepository` over a store state `σ`. -/
structure auditRepository (σ : Type) where
  GetByItemID : UUID → σ → (Option (List AuditEntryWithUser) × Option GoError) × σ
  List : AuditFilter → Int → Int → σ →
    (Option (List AuditEntryWithUser) × Int × Option GoError) × σ

structure ItemService (σ : Type) where
  itemRepo : itemRepository σ

structure AuditService (σ : Type) where
  auditRepo : auditRepository σ

section ops
variable {σ ω : Type}

/-- A repository call: run it on the store and record it in the trace. -/
def invoke {α : Type} (c : Call) (f : σ → α × σ) (w : World σ ω) : α × World σ ω :=
  let r := f w.store
  (r.1, { w with store := r.2, trace := w.trace ++ [c] })

def ItemService.CreateItem (s : ItemService σ) (claims : AuthClaims)
    (input : CreateItemInput) (w : World σ ω) :
    (Option Item × Option GoError) × World σ ω :=
  if !claims.Role.CanCreate then ((none, some ErrForbidden), w)
  else
    let r := invoke (.itemCreate claims.UserID input) (s.itemRepo.Create claims.UserID input) w
    match r.1.2 with
    | some err =>
      if err.Is .DuplicateSKU then ((none, some ErrDuplicateSKU), r.2)
      else ((none, some (.wrap "ItemService.Create" err)), r.2)
    | none => ((r.1.1, none), r.2)

def ItemService.GetByID (s : ItemService σ) (claims : AuthClaims) (id : UUID)
    (w : World σ ω) : (Option Item × Option GoError) × World σ ω :=
  if !claims.Role.CanView then ((none, some ErrForbidden), w)
  else
    let r := invoke (.itemGetByID id) (s.itemRepo.GetByID id) w
    match r.1.2 with
    | some err =>
      if err.Is .NotFound then ((none, some err), r.2)
      else ((none, some (.wrap "ItemService.GetByID" err)), r.2)
    | none => ((r.1.1, none), r.2)

def ItemService.ListItems (s : ItemService σ) (claims : AuthClaims)
    (filter : ItemFilter) (page pageSize : Int) (w : World σ ω) :
    (Option ItemList × Option GoError) × World σ ω :=
  if !claims.Role.CanView then ((none, some ErrForbidden), w)
  else
    let p := normalizePagination page pageSize
    let offset := wrapInt64 ((p.1 - 1) * p.2)
    let r := invoke (.itemList filter p.2 offset) (s.itemRepo.List filter p.2 offset) w
    match r.1.2.2 with
    | some err => ((none, some (.wrap "ItemService.ListItems" err)), r.2)
    | none =>
      ((some { Items := r.1.1, Total := r.1.2.1, Page := p.1, PageSize := p.2,
               TotalPages := calcTotalPages r.1.2.1 p.2 }, none), r.2)

def ItemService.Update (s : ItemService σ) (claims : AuthClaims) (id : UUID)
    (input : UpdateItemInput) (w : World σ ω) :
    (Option Item × Option GoError) × World σ ω :=
  if !claims.Role.CanUpdate then ((none, some ErrForbidden), w)
  else if !input.HasChanges then ((none, some ErrNoChanges), w)
  else
    let r := invoke (.itemUpdate claims.UserID id input)
      (s.itemRepo.Update claims.UserID id input) w
    match r.1.2 with
    | some err =>
      if err.Is .NotFound then ((none, some ErrNotFound), r.2)
      else if err.Is .DuplicateSKU then ((none, some ErrDuplicateSKU), r.2)
      else ((none, some (.wrap "ItemService.Update" err)), r.2)
    | none => ((r.1.1, none), r.2)

def ItemService.Delete (s : ItemService σ) (claims : AuthClaims) (id : UUID)
    (w : World σ ω) : Option GoError × World σ ω :=
  if !claims.Role.CanDelete then (some ErrForbidden, w)
  else
    let r := invoke (.itemDelete claims.UserID id) (s.itemRepo.Delete claims.UserID id) w
    match r.1 with
    | some err =>
      if err.Is .NotFound then (some ErrNotFound, r.2)
      else (some (.wrap "ItemService.Delete" err), r.2)
    | none => (none, r.2)

def AuditService.GetByItemID (s : AuditService σ) (claims : AuthClaims) (itemID : UUID)
    (w : World σ ω) : (Option (List AuditEntryWithUser) × Option GoError) × World σ ω :=
  if !claims.Role.CanViewAudit then ((none, some ErrForbidden), w)
  else
    let r := invoke (.auditGetByItemID itemID) (s.auditRepo.GetByItemID itemID) w
    match r.1.2 with
    | some err => ((none, some (.wrap "AuditService.GetByItemID" err)), r.2)
    | none =>
      let audit := if r.1.1 = none then some [] else r.1.1
      ((audit, none), r.2)

def AuditService.List (s : AuditService σ) (claims : AuthClaims) (filter : AuditFilter)
    (page pageSize : Int) (w : World σ ω) :
    (Option AuditList × Option GoError) × World σ ω :=
  if !claims.Role.CanViewAudit then ((none, some ErrForbidden), w)
  else if filter.Action.any (fun a => !AuditAction.IsValid a) then
    ((none, some ErrValidation), w)
  else
    let p := normalizePagination page pageSize
    let offset := wrapInt64 ((p.1 - 1) * p.2)
    let r := invoke (.auditList filter p.2 offset) (s.auditRepo.List filter p.2 offset) w
    match r.1.2.2 with
    | some err => ((none, some (.wrap "AuditService.List" err)), r.2)
    | none =>
      let audit := if r.1.1 = none then some [] else r.1.1
      ((some { Entries := audit, Total := r.1.2.1, Page := p.1, PageSize := p.2,
               TotalPages := calcTotalPages r.1.2.1 p.2 }, none), r.2)

def AuditService.ExportCSV {V : Type} (s : AuditService σ) (rd : Render) (dc : DiffCodec V)
    (claims : AuthClaims) (filter : AuditFilter) (cw : csvWriter ω) (w : World σ ω) :
    Option GoError × World σ ω :=
  if !claims.Role.CanExport then (some ErrForbidden, w)
  else
    let r := invoke (.auditList filter maxExportRows 0)
      (s.auditRepo.List filter maxExportRows 0) w
    match r.1.2.2 with
    | some err => (some (.wrap "AuditService.ExportCSV" err), r.2)
    | none => csvexport.WriteAuditCSV rd dc cw r.1.1 r.2

end ops

end service

/-! ## package jwt (github.com/golang-jwt/jwt/v5), as far as `auth` uses it -/

namespace jwt

/-- `jwt.TimePrecision`, by default `time.Second`, in nanoseconds. -/
def TimePrecision : Duration := 1000000000

/-- `jwt.NewNumericDate(t)`: the instant truncated (rounded down) to a
multiple of `TimePrecision`. -/
def NewNumericDate (t : Time) : Time := t - t % TimePrecision

/-- `jwt.RegisteredClaims`, the fields the library validates by default or
the program sets (issuer, audience and token id are neither). -/
structure RegisteredClaims where
  Subject : String
  ExpiresAt : Option Time
  NotBefore : Option Time
  IssuedAt : Option Time
  deriving DecidableEq, Repr

/-- A decoded token: the `alg` of the header, the claims and the signature. -/
structure Token (C : Type) where
  Method : String
  Claims : C
  Signature : String
  Valid : Bool

/-- What the library computes outside this model: the compact serialisation
of a token and its inverse (`none` for a malformed string), and the HMAC of a
header and claims under a key, for an `alg` name. -/
structure Codec (C : Type) where
  encode : String → C → String → String
  decode : String → Option (String × C × String)
  mac : String → String → C → String

/-- The `alg` names of the HMAC family (`*jwt.SigningMethodHMAC`). -/
def isHMAC (alg : String) : Bool :=
  alg == "HS256" || alg == "HS384" || alg == "HS512"

/-- The `alg` names with a registered signing method. -/
def isRegistered (alg : String) : Bool :=
  isHMAC alg ||
    [ "RS256", "RS384", "RS512", "ES256", "ES384", "ES512", "PS256", "PS384", "PS512",
      "EdDSA", "none" ].contains alg

def ErrTokenMalformed : domain.GoError := .foreign "token is malformed"
def ErrTokenUnverifiable : domain.GoError := .foreign "token is unverifiable"
def ErrTokenSignatureInvalid : domain.GoError := .foreign "token signature is invalid"
def ErrTokenExpired : domain.GoError := .foreign "token is expired"
def ErrTokenNotValidYet : domain.GoError := .foreign "token is not valid yet"

/-- The default claims validator at the instant `now`: an expiry, when
present, must lie after `now`; a not-before, when present, must not. -/
def validate (now : Time) (rc : RegisteredClaims) : Option domain.GoError :=
  if rc.ExpiresAt.any (fun exp => !decide (now < exp)) then some ErrTokenExpired
  else if rc.NotBefore.any (fun nbf => decide (now < nbf)) then some ErrTokenNotValidYet
  else none

/-- `jwt.NewWithClaims(method, claims)` followed by `SignedString(key)` for a
method of the HMAC family. -/
def SignedString {C : Type} (lib : Codec C) (alg : String) (claims : C) (key : String) :
    String × Option domain.GoError :=
  (lib.encode alg claims (lib.mac alg key claims), none)

/-- `jwt.ParseWithClaims(tokenStr, claims, keyFunc)` at the instant `now`:
decode, look the method up, ask `keyFunc` for the key, verify the signature
(a key function that accepts only HMAC methods is what `auth` passes, so only
the HMAC verification is modelled), validate the registered claims. -/
def ParseWithClaims {C : Type} (lib : Codec C) (reg : C → RegisteredClaims) (now : Time)
    (tokenStr : String) (keyFunc : Token C → Option String × Option domain.GoError) :
    Option (Token C) × Option domain.GoError :=
  match lib.decode tokenStr with
  | none => (none, some ErrTokenMalformed)
  | some (alg, claims, sig) =>
    let token : Token C := { Method := alg, Claims := claims, Signature := sig, Valid := false }
    if !isRegistered alg then (some token, some ErrTokenUnverifiable)
    else
      match keyFunc token with
      | (_, some err) => (some token, some (.wrap "token is unverifiable" err))
      | (none, none) => (some token, some ErrTokenUnverifiable)
      | (some key, none) =>
        if !isHMAC alg then (some token, some ErrTokenSignatureInvalid)
        else if lib.mac alg key claims != sig then (some token, some ErrTokenSignatureInvalid)
        else
          match validate now (reg claims) with
          | some err => (some token, some err)
          | none => (some { token with Valid := true }, none)

end jwt

/-! ## package auth -/

namespace auth

open domain

structure Manager where
  secret : String
  tokenTTL : Duration
  deriving DecidableEq, Repr

def NewManager (secret : String) (tokenTTL : Duration) : Manager :=
  { secret := secret, tokenTTL := tokenTTL }

structure jwtClaims extends jwt.RegisteredClaims where
  UserID : String
  Username : String
  Role : String
  deriving DecidableEq, Repr

/-- The external functions `auth` relies on: the token codec of package jwt
and `uuid.UUID.String` / `uuid.Parse`. -/
structure Lib where
  jwt : jwt.Codec jwtClaims
  uuidString : UUID → String
  uuidParse : String → Option UUID

/-- `GenerateJWT` when `time.Now()` returns `now`. -/
def Manager.GenerateJWT (lib : Lib) (m : Manager) (now : Time) (user : User) :
    String × Option GoError :=
  let claims : jwtClaims :=
    { Subject := lib.uuidString user.ID
      ExpiresAt := some (jwt.NewNumericDate (now + m.tokenTTL))
      NotBefore := none
      IssuedAt := some (jwt.NewNumericDate now)
      UserID := lib.uuidString user.ID
      Username := user.Username
      Role := user.Role }
  jwt.SignedString lib.jwt "HS256" claims m.secret

/-- The key function `Validate` hands to the parser. -/
def Manager.keyFunc (m : Manager) (token : jwt.Token jwtClaims) :
    Option String × Option GoError :=
  if !jwt.isHMAC token.Method then
    (none, some (.foreign ("unexpected signing method: " ++ token.Method)))
  else (some m.secret, none)

/-- `Validate` when `time.Now()` returns `now`. -/
def Manager.Validate (lib : Lib) (m : Manager) (now : Time) (tokenStr : String) :
    Option AuthClaims × Option GoError :=
  match jwt.ParseWithClaims lib.jwt (fun c => c.toRegisteredClaims) now tokenStr m.keyFunc with
  | (_, some _) => (none, some ErrTokenInvalid)
  | (none, none) => (none, some ErrTokenInvalid)
  | (some token, none) =>
    if !token.Valid then (none, some ErrTokenInvalid)
    else
      match ParseRole token.Claims.Role with
      | (_, some _) => (none, some ErrTokenInvalid)
      | (role, none) =>
        match lib.uuidParse token.Claims.UserID with
        | none => (none, some ErrTokenInvalid)
        | some userID =>
          (some { UserID := userID, Username := token.Claims.Username, Role := role }, none)

end auth

/-! ## Concrete collaborators for evaluating the definitions -/

namespace testdata

open domain service

def adminClaims : AuthClaims := { UserID := ⟨1⟩, Username := "admin", Role := RoleAdmin }
def managerClaims : AuthClaims := { UserID := ⟨2⟩, Username := "manager", Role := RoleManager }
def viewerClaims : AuthClaims := { UserID := ⟨3⟩, Username := "viewer", Role := RoleViewer }

def laptop : Item :=
  { ID := ⟨10⟩, Name := "Laptop", SKU := "LAP-001", Quantity := 5, Price := ⟨99900, -2⟩,
    Location := none, CreatedAt := 0, UpdatedAt := 0 }

def insertEntry : AuditEntryWithUser :=
  { ID := 1, ItemID := ⟨10⟩, Action := AuditInsert, ChangedBy := ⟨1⟩, OldData := "",
    NewData := "", Diff := "", ChangedAt := 0, Username := "admin" }

/-- An item repository in the manner of the mocks of the service tests: every
method succeeds with fixed data; the store state counts the calls. -/
def itemRepo : itemRepository Nat :=
  { Create := fun _ _ n => ((some laptop, none), n + 1)
    GetByID := fun _ n => ((some laptop, none), n + 1)
    List := fun _ _ _ n => ((some [laptop], 1, none), n + 1)
    Update := fun _ _ _ n => ((some laptop, none), n + 1)
    Delete := fun _ _ n => (none, n + 1) }

/-- An audit repository that succeeds with one fixed entry. -/
def auditRepo : auditRepository Nat :=
  { GetByItemID := fun _ n => ((some [insertEntry], none), n + 1)
    List := fun _ _ _ n => ((some [insertEntry], 1, none), n + 1) }

def itemSvc : ItemService Nat := { itemRepo := itemRepo }
def auditSvc : AuditService Nat := { auditRepo := auditRepo }

/-- A CSV writer over an in-memory buffer: keeps the records, never fails. -/
def bufferWriter : csvWriter (List (List String)) :=
  { Write := fun record o => (none, o ++ [record])
    Flush := fun o => o
    Error := fun _ => none }

def render : Render :=
  { uuidString := fun u => toString u.val
    formatRFC3339 := fun t => toString t }

/-- A diff decoder that knows the empty object only. -/
def diffCodec : DiffCodec String :=
  { Unmarshal := fun raw =>
      if raw = "{}" then .ok [] else .error (.foreign "invalid character")
    Sprintv := fun v => v }

def world0 : World Nat (List (List String)) := { store := 0, out := [], trace := [] }

def emptyFilter : AuditFilter :=
  { ItemID := none, UserID := none, Action := none, DateFrom := none, DateTo := none }

def badActionFilter : AuditFilter := { emptyFilter with Action := some "INVALID" }

def noChanges : UpdateItemInput :=
  { Name := none, SKU := none, Quantity := none, Price := none, Location := none }

def rename : UpdateItemInput := { noChanges with Name := some "Updated Laptop" }

end testdata

/-! ### A small token library for evaluating `auth`

A wire format in which a token is a sequence of text fields, each character
of a field preceded by `1` and each field closed by `0`. -/

namespace testdata

def putField : List Char → List Char
  | [] => ['0']
  | c :: cs => '1' :: c :: putField cs

def putFields : List (List Char) → List Char
  | [] => []
  | f :: fs => putField f ++ putFields fs

/-- Read fields back; `data` says the next character is field text, `cur`
holds the current field, last character first. -/
def getFields : List Char → Bool → List Char → List (List Char)
  | [], _, _ => []
  | x :: rest, true, cur => getFields rest false (x :: cur)
  | x :: rest, false, cur =>
    if x = '0' then cur.reverse :: getFields rest false []
    else getFields rest true cur

def putInt (z : Int) : List Char :=
  (if z < 0 then '-' else '+') :: List.replicate z.natAbs 'i'

def getInt : List Char → Int
  | [] => 0
  | x :: r => if x = '-' then -(r.length : Int) else (r.length : Int)

def putTime : Option Time → List Char
  | none => []
  | some z => putInt z

def getTime : List Char → Option Time
  | [] => none
  | x :: r => some (getInt (x :: r))

def encodeToken (alg : String) (c : auth.jwtClaims) (sig : String) : String :=
  String.mk (putFields [alg.data, sig.data, c.Subject.data, putTime c.ExpiresAt,
    putTime c.NotBefore, putTime c.IssuedAt, c.UserID.data, c.Username.data, c.Role.data])

def decodeToken (s : String) : Option (String × auth.jwtClaims × String) :=
  match getFields s.data false [] with
  | [alg, sig, sub, exp, nbf, iat, uid, name, role] =>
    some (String.mk alg,
      { Subject := String.mk sub, ExpiresAt := getTime exp, NotBefore := getTime nbf,
        IssuedAt := getTime iat, UserID := String.mk uid, Username := String.mk name,
        Role := String.mk role },
      String.mk sig)
  | _ => none

/-- A keyed tag standing in for the HMAC. -/
def tag (alg key : String) (c : auth.jwtClaims) : String :=
  alg ++ "/" ++ key ++ "/" ++ c.UserID ++ "/" ++ c.Username ++ "/" ++ c.Role

def lib : auth.Lib :=
  { jwt := { encode := encodeToken, decode := decodeToken, mac := tag }
    uuidString := fun u => String.mk (List.replicate u.val 'u')
    uuidParse := fun s => some ⟨s.length⟩ }

def admin : domain.User :=
  { ID := ⟨1⟩, Username := "admin", PasswordHash := "", Role := domain.RoleAdmin,
    CreatedAt := 0, UpdatedAt := 0 }

/-- The manager of the auth tests with a token lifetime of one second. -/
def manager1s : auth.Manager := auth.NewManager "test-secret" 1000000000

/-- A second manager with another secret, as in the wrong-secret test. -/
def manager2 : auth.Manager := auth.NewManager "secret-2" 1000000000

end testdata

/-! ## package service, continued: service/auth.go -/

/-- How a Go call ends: it returns, or it panics on a nil dereference. -/
inductive Outcome (α : Type) where
  | returned (a : α)
  | panicked
  deriving DecidableEq, Repr

namespace service

open domain

/-- The interface `userRepository` over a store state `σ`. -/
structure userRepository (σ : Type) where
  GetByUsername : String → σ → (Option User × Option GoError) × σ
  List : σ → (Option (List User) × Option GoError) × σ

/-- The interface `TokenManager` over a state `σ`. -/
structure TokenManager (σ : Type) where
  GenerateJWT : User → σ → (String × Option GoError) × σ
  Validate : String → σ → (Option AuthClaims × Option GoError) × σ

structure AuthService (σ : Type) where
  userRepo : userRepository σ
  manager : TokenManager σ

section authops
variable {σ ω : Type}

/-- `Login`; `CompareHashAndPassword` is the function of package bcrypt, which
returns nil when the password matches the hash. A lookup that returns neither
a user nor an error makes `user.PasswordHash` a nil dereference. -/
def AuthService.Login (s : AuthService σ)
    (CompareHashAndPassword : String → String → Option GoError) (input : LoginInput)
    (w : World σ ω) : Outcome (String × Option User × Option GoError) × World σ ω :=
  let r := invoke (.userGetByUsername input.Username)
    (s.userRepo.GetByUsername input.Username) w
  match r.1.2 with
  | some err =>
    if err.Is .NotFound then (.returned ("", none, some ErrInvalidCredentials), r.2)
    else (.returned ("", none, some (.wrap "AuthService.Login" err)), r.2)
  | none =>
    match r.1.1 with
    | none => (.panicked, r.2)
    | some user =>
      match CompareHashAndPassword user.PasswordHash input.Password with
      | some _ => (.returned ("", none, some ErrInvalidCredentials), r.2)
      | none =>
        let g := invoke (.tokenGenerateJWT user) (s.manager.GenerateJWT user) r.2
        match g.1.2 with
        | some err =>
          (.returned ("", none, some (.wrap "AuthService.Login - generate token" err)), g.2)
        | none => (.returned (g.1.1, some user, none), g.2)

def AuthService.ListUsers (s : AuthService σ) (w : World σ ω) :
    (Option (List User) × Option GoError) × World σ ω :=
  let r := invoke .userList s.userRepo.List w
  match r.1.2 with
  | some err => ((none, some (.wrap "AuthService.ListUsers" err)), r.2)
  | none => ((r.1.1, none), r.2)

end authops

end service

/-! ## package dto: handler/dto/auth.go -/

namespace dto

structure UserResponse where
  ID : UUID
  Username : String
  Role : String
  deriving DecidableEq, Repr

def NewUserResponse (u : domain.User) : UserResponse :=
  { ID := u.ID, Username := u.Username, Role := u.Role }

structure LoginResponse where
  Token : String
  User : UserResponse
  deriving DecidableEq, Repr

def NewLoginResponse (token : String) (user : domain.User) : LoginResponse :=
  { Token := token, User := NewUserResponse user }

end dto

/-! ### Collaborators of the login tests -/

namespace testdata

/-- A password check standing in for bcrypt: the hash of `p` is `hash:p`. -/
def compareHash (hash password : String) : Option domain.GoError :=
  if hash = "hash:" ++ password then none
  else some (.foreign "hashedPassword is not the hash of the given password")

/-- The user of the login tests, whose password is `password`. -/
def adminUser : domain.User :=
  { ID := ⟨1⟩, Username := "admin", PasswordHash := "hash:password",
    Role := domain.RoleAdmin, CreatedAt := 0, UpdatedAt := 0 }

/-- A user repository that knows `admin`, fails with a database error for
`broken` and reports every other name as not found, as the real repository
does, wrapped with its operation name. -/
def userRepo : service.userRepository Nat :=
  { GetByUsername := fun name n =>
      if name = "admin" then ((some adminUser, none), n + 1)
      else if name = "broken" then ((none, some (.foreign "db error")), n + 1)
      else ((none, some (.wrap "UserRepository.GetByUsername" domain.ErrNotFound)), n + 1)
    List := fun n => ((some [adminUser], none), n + 1) }

/-- A token manager that issues the fixed token of the login tests. -/
def tokenMgr : service.TokenManager Nat :=
  { GenerateJWT := fun _ n => (("jwt-token", none), n + 1)
    Validate := fun _ n => ((none, some domain.ErrTokenInvalid), n + 1) }

def authSvc : service.AuthService Nat := { userRepo := userRepo, manager := tokenMgr }

end testdata

/-! ### A diff decoder for the documents of the tests -/

namespace testdata

/-- A decoded value: a string, a number or nil. -/
inductive Value where
  | str (s : String)
  | num (n : Int)
  | null
  deriving DecidableEq, Repr

/-- The verb `%v` on a decoded value. -/
def Value.sprint : Value → String
  | .str s => s
  | .num n => toString n
  | .null => "<nil>"

/-- The diff of the `ParseDiff` test: name Laptop to Gaming Laptop, price 999
to 1299. -/
def laptopDiff : RawMessage :=
  "\x7b\"name\":\x7b\"old\":\"Laptop\",\"new\":\"Gaming Laptop\"\x7d," ++
    "\"price\":\x7b\"old\":999,\"new\":1299\x7d\x7d"

/-- The diff of the `formatDiff` test: name A to B. -/
def renameDiff : RawMessage := "\x7b\"name\":\x7b\"old\":\"A\",\"new\":\"B\"\x7d\x7d"

/-- A decoder that knows the documents above and the empty object, and
rejects every other text. -/
def jsonCodec : DiffCodec Value :=
  { Unmarshal := fun raw =>
      if raw = laptopDiff then
        .ok [("name", .str "Laptop", .str "Gaming Laptop"), ("price", .num 999, .num 1299)]
      else if raw = renameDiff then .ok [("name", .str "A", .str "B")]
      else if raw = "\x7b\x7d" then .ok []
      else .error (.foreign "invalid character")
    Sprintv := Value.sprint }

def entryWithDiff (id : Int) (diff : RawMessage) : domain.AuditEntryWithUser :=
  { ID := id, ItemID := ⟨10⟩, Action := domain.AuditUpdate, ChangedBy := ⟨1⟩, OldData := "",
    NewData := "", Diff := diff, ChangedAt := 0, Username := "admin" }

end testdata

/-! ## package handler -/

namespace handler

open domain

def StatusBadRequest : Int := 400
def StatusUnauthorized : Int := 401
def StatusForbidden : Int := 403
def StatusNotFound : Int := 404
def StatusConflict : Int := 409
def StatusInternalServerError : Int := 500

/-- The `switch` of `mapError`, first match wins, over the answers `is k` that
`errors.Is(err, k)` gives for the nine kinds. -/
def mapErrorBy (is : Sentinel → Bool) : Int × String :=
  if is .NotFound then (StatusNotFound, "not found")
  else if is .Forbidden then (StatusForbidden, "insufficient permissions")
  else if is .InvalidCredentials then (StatusUnauthorized, "invalid credentials")
  else if is .TokenInvalid then (StatusUnauthorized, "invalid token")
  else if is .TokenExpired then (StatusUnauthorized, "token expired")
  else if is .DuplicateSKU then (StatusConflict, "item with this SKU already exists")
  else if is .AlreadyExists then (StatusConflict, "already exists")
  else if is .NoChanges then (StatusBadRequest, "no changes provided")
  else if is .Validation then (StatusBadRequest, "validation error")
  else (StatusInternalServerError, "internal server error")

def mapError (err : GoError) : Int × String :=
  mapErrorBy (fun k => err.Is k)

/-- The order in which the error kinds are tried, as the mapping is described. -/
def kindOrder : List Sentinel :=
  [.NotFound, .Forbidden, .InvalidCredentials, .TokenInvalid, .TokenExpired, .DuplicateSKU,
    .AlreadyExists, .NoChanges, .Validation]

/-- The status and message of each error kind, as the mapping is described. -/
def kindResponse : Sentinel → Int × String
  | .NotFound => (404, "not found")
  | .Forbidden => (403, "insufficient permissions")
  | .InvalidCredentials => (401, "invalid credentials")
  | .TokenInvalid => (401, "invalid token")
  | .TokenExpired => (401, "token expired")
  | .DuplicateSKU => (409, "item with this SKU already exists")
  | .AlreadyExists => (409, "already exists")
  | .NoChanges => (400, "no changes provided")
  | .Validation => (400, "validation error")

/-- The ten messages a response can carry. -/
def messages : List String :=
  ["not found", "insufficient permissions", "invalid credentials", "invalid token",
    "token expired", "item with this SKU already exists", "already exists",
    "no changes provided", "validation error", "internal server error"]

end handler

/-! ## package repository -/

namespace repository

open domain

/-- A value bound to a placeholder of a statement. -/
inductive Arg where
  | text (s : String)
  | int (n : Int)
  | uuid (u : UUID)
  | time (t : Time)
  | optText (s : Option String)
  deriving DecidableEq, Repr

/-- A statement as handed to the database: its text and its bound values. -/
structure Stmt where
  text : String
  args : List Arg
  deriving DecidableEq, Repr

/-- The result set of a query (`*sql.Rows`): the rows, each scanning to a
value or to an error, and the error `rows.Err()` reports at the end. -/
structure Rows (R : Type) where
  rows : List (Except GoError R)
  err : Option GoError

/-- The database engine on a table state `S` (items and audit log together),
one attempt per statement: `begin` and `commit` may fail; `exec` is
`ExecContext` followed by `RowsAffected`; `queryRow` is
`QueryRowContext(...).Scan` inside a transaction; `selectRow` is
`QueryRowWithRetry` followed by `Scan`; the `select` functions are
`QueryWithRetry` for the three row shapes. -/
structure Engine (S : Type) where
  begin : S → Option GoError
  commit : S → Option GoError
  exec : Stmt → S → Except GoError Int × S
  queryRow : Stmt → S → Except GoError Item × S
  selectRow : Stmt → S → Except GoError (Except GoError Item)
  selectItems : Stmt → S → Except GoError (Rows (Item × Int))
  selectAudit : Stmt → S → Except GoError (Rows (AuditEntryWithUser × Int))
  selectAuditPlain : Stmt → S → Except GoError (Rows AuditEntryWithUser)

/-- Rendering of bound values: `uuid.UUID.String` and
`decimal.Decimal.StringFixed(2)`. -/
structure Conv where
  uuidString : UUID → String
  StringFixed2 : Decimal → String

/-- The database as the repository sees it: the committed table state and the
statements sent so far. -/
structure DB (S : Type) where
  committed : S
  log : List Stmt

/-- An open transaction (`*sql.Tx`): its working copy of the table state and
the statements sent so far. -/
structure Tx (S : Type) where
  working : S
  log : List Stmt

/-- The zero value `var i domain.Item`. -/
def zeroItem : Item :=
  { ID := ⟨0⟩, Name := "", SKU := "", Quantity := 0, Price := ⟨0, 0⟩, Location := none,
    CreatedAt := 0, UpdatedAt := 0 }

section db
variable {S : Type}

def Tx.exec (eng : Engine S) (stmt : Stmt) (tx : Tx S) : Except GoError Int × Tx S :=
  let r := eng.exec stmt tx.working
  (r.1, { working := r.2, log := tx.log ++ [stmt] })

def Tx.queryRow (eng : Engine S) (stmt : Stmt) (tx : Tx S) : Except GoError Item × Tx S :=
  let r := eng.queryRow stmt tx.working
  (r.1, { working := r.2, log := tx.log ++ [stmt] })

/-- `dbpg.DB.WithTx`, the transaction helper of the library `wbf`, which is
not among the sources, by its contract (the specification describes the
persistence collaborator as "transactional execution (run unit of work
atomically, abort on error)"): begin, run `fn` on the transaction, commit
when `fn` returns nil, roll back (keep the committed state) when `fn` or the
commit fails; the error is returned. The value `fn` leaves in the variables it
captures is passed along as `α`. -/
def WithTx {α : Type} (eng : Engine S) (fn : Tx S → (Option GoError × α) × Tx S)
    (init : α) (db : DB S) : (Option GoError × α) × DB S :=
  match eng.begin db.committed with
  | some err => ((some err, init), db)
  | none =>
    let r := fn { working := db.committed, log := db.log }
    match r.1.1 with
    | some err => ((some err, r.1.2), { committed := db.committed, log := r.2.log })
    | none =>
      match eng.commit r.2.working with
      | some err => ((some err, r.1.2), { committed := db.committed, log := r.2.log })
      | none => ((none, r.1.2), { committed := r.2.working, log := r.2.log })

/-- The statement that records the acting user on the transaction. -/
def auditContextStmt (conv : Conv) (userID : UUID) : Stmt :=
  { text := "SELECT set_config('app.current_user_id', $1, true)"
    args := [.text (conv.uuidString userID)] }

/-- `withAuditContext`: inside one transaction, record the acting user id,
then run `fn`. -/
def withAuditContext {α : Type} (eng : Engine S) (conv : Conv) (userID : UUID)
    (fn : Tx S → (Option GoError × α) × Tx S) (init : α) (db : DB S) :
    (Option GoError × α) × DB S :=
  WithTx eng
    (fun tx =>
      let r := tx.exec eng (auditContextStmt conv userID)
      match r.1 with
      | .error err => ((some (.wrap "set audit context" err), init), r.2)
      | .ok _ => fn r.2)
    init db

end db

/-- `isDuplicateKey`: `errors.As` finds a `*pq.Error` in the chain and its code
is 23505. -/
def isDuplicateKey : GoError → Bool
  | .pq code _ => code == "23505"
  | .wrap _ e => isDuplicateKey e
  | .sentinel _ => false
  | .foreign _ => false
  | .sqlNoRows => false

/-- `errors.Is(err, sql.ErrNoRows)`. -/
def isErrNoRows : GoError → Bool
  | .sqlNoRows => true
  | .wrap _ e => isErrNoRows e
  | .sentinel _ => false
  | .foreign _ => false
  | .pq _ _ => false

/-- The three variables a dynamic statement is built in: the clauses, the
bound values, and the number of the next placeholder. -/
structure Builder where
  clauses : List String
  args : List Arg
  argIdx : Nat
  deriving DecidableEq, Repr

def Builder.init : Builder := { clauses := [], args := [], argIdx := 1 }

/-- One `if field != nil` block: append the clause `fmt` with the placeholder
number, append the value, advance the number. -/
def Builder.add (b : Builder) (fmt : String) (v : Option Arg) : Builder :=
  match v with
  | none => b
  | some a =>
    { clauses := b.clauses ++ [fmt ++ toString b.argIdx]
      args := b.args ++ [a]
      argIdx := b.argIdx + 1 }

/-- `where := ""; if len(conditions) > 0 { where = "WHERE " + strings.Join(...) }`. -/
def whereText (conditions : List String) : String :=
  if conditions.length > 0 then "WHERE " ++ " AND ".intercalate conditions else ""

end repository

/-! ### repository/item.go -/

namespace repository

open domain

structure ItemRepository (S : Type) where
  eng : Engine S
  conv : Conv

def createStmt (conv : Conv) (input : CreateItemInput) : Stmt :=
  { text := "INSERT INTO items (name, sku, quantity, price, location)\n\t\t\t  " ++
      "VALUES ($1, $2, $3, $4, $5)\n\t\t\t  " ++
      "RETURNING id, name, sku, quantity, price, location, created_at, updated_at"
    args := [.text input.Name, .text input.SKU, .int input.Quantity,
      .text (conv.StringFixed2 input.Price), .optText input.Location] }

def getByIDStmt (id : UUID) : Stmt :=
  { text := "SELECT id, name, sku, quantity, price, location, created_at, updated_at" ++
      "\n\t\t\t  FROM items\n\t\t\t  WHERE id=$1"
    args := [.uuid id] }

def deleteStmt (id : UUID) : Stmt :=
  { text := "DELETE FROM items WHERE id=$1", args := [.uuid id] }

/-- The variables of `ItemRepository.List` after the search block. -/
def itemListBuilder (filter : ItemFilter) : Builder :=
  match filter.Search with
  | none => Builder.init
  | some search =>
    if search ≠ "" then
      { clauses := ["(name ILIKE $" ++ toString 1 ++ " OR sku ILIKE $" ++ toString 1 ++ ")"]
        args := [.text ("%" ++ search ++ "%")]
        argIdx := 2 }
    else Builder.init

/-- The statement `ItemRepository.List` sends. -/
def itemListStmt (filter : ItemFilter) (limit offset : Int) : Stmt :=
  let b := itemListBuilder filter
  { text := "\n\t\tSELECT \n\t\t    id, name, sku, quantity, price, location, created_at, " ++
      "updated_at,\n\t\t\tCOUNT(*) OVER() AS total_count\n\t\tFROM items " ++
      whereText b.clauses ++ "\n\t\tORDER BY created_at DESC\n\t\tLIMIT $" ++
      toString b.argIdx ++ " OFFSET $" ++ toString (b.argIdx + 1) ++ "\n\t"
    args := b.args ++ [.int limit, .int offset] }

/-- The variables of `ItemRepository.Update` after the five field blocks. -/
def updateBuilder (conv : Conv) (input : UpdateItemInput) : Builder :=
  ((((Builder.init.add "name = $" (input.Name.map Arg.text)).add "sku = $"
      (input.SKU.map Arg.text)).add "quantity = $" (input.Quantity.map Arg.int)).add
      "price = $" (input.Price.map fun p => Arg.text (conv.StringFixed2 p))).add
      "location = $" (input.Location.map Arg.text)

/-- The statement `ItemRepository.Update` sends, or `none` when no field is
set (the `len(setClauses) == 0` rejection). -/
def updateStmt (conv : Conv) (id : UUID) (input : UpdateItemInput) : Option Stmt :=
  let b := updateBuilder conv input
  if b.clauses.length = 0 then none
  else
    some
      { text := "\n\t\tUPDATE items\n\t\tSET " ++ ", ".intercalate b.clauses ++
          "\n\t\tWHERE id=$" ++ toString b.argIdx ++
          "\n\t\tRETURNING id, name, sku, quantity, price, location, created_at, " ++
          "updated_at\n\t\t"
        args := b.args ++ [.uuid id] }

/-- The loop `for rows.Next()` of `ItemRepository.List`: stop at the first
scan error, otherwise append the item and overwrite the total. -/
def scanItems : List (Except GoError (Item × Int)) → Option (List Item) → Int →
    Except GoError (Option (List Item) × Int)
  | [], res, total => .ok (res, total)
  | .error err :: _, _, _ => .error err
  | .ok (i, tc) :: rest, res, _ => scanItems rest (some (res.getD [] ++ [i])) tc

section itemrepo
variable {S : Type}

/-- The callback of a mutation that scans one returned item. -/
def scanOne (eng : Engine S) (stmt : Stmt) (tx : Tx S) : (Option GoError × Item) × Tx S :=
  let q := tx.queryRow eng stmt
  match q.1 with
  | .error err => ((some err, zeroItem), q.2)
  | .ok i => ((none, i), q.2)

def ItemRepository.Create (r : ItemRepository S) (userID : UUID) (input : CreateItemInput)
    (db : DB S) : (Option Item × Option GoError) × DB S :=
  let t := withAuditContext r.eng r.conv userID (scanOne r.eng (createStmt r.conv input))
    zeroItem db
  match t.1.1 with
  | some err =>
    if isDuplicateKey err then
      ((none, some (.wrap "ItemRepository.Create" ErrDuplicateSKU)), t.2)
    else ((none, some (.wrap "ItemRepository.Create" err)), t.2)
  | none => ((some t.1.2, none), t.2)

def ItemRepository.GetByID (r : ItemRepository S) (id : UUID) (db : DB S) :
    (Option Item × Option GoError) × DB S :=
  let db1 : DB S := { db with log := db.log ++ [getByIDStmt id] }
  match r.eng.selectRow (getByIDStmt id) db.committed with
  | .error err => ((none, some (.wrap "ItemRepository.GetByID" err)), db1)
  | .ok (.error err) =>
    if isErrNoRows err then ((none, some (.wrap "ItemRepository.GetByID" ErrNotFound)), db1)
    else ((none, some (.wrap "ItemRepository.GetByID - scan item" err)), db1)
  | .ok (.ok i) => ((some i, none), db1)

def ItemRepository.List (r : ItemRepository S) (filter : ItemFilter) (limit offset : Int)
    (db : DB S) : (Option (List Item) × Int × Option GoError) × DB S :=
  let stmt := itemListStmt filter limit offset
  let db1 : DB S := { db with log := db.log ++ [stmt] }
  match r.eng.selectItems stmt db.committed with
  | .error err => ((none, 0, some (.wrap "ItemRepository.List" err)), db1)
  | .ok rows =>
    match scanItems rows.rows none 0 with
    | .error err => ((none, 0, some (.wrap "ItemRepository.List - scan item" err)), db1)
    | .ok (res, totalCount) =>
      match rows.err with
      | some err => ((none, 0, some (.wrap "ItemRepository.List" err)), db1)
      | none => ((if res = none then some [] else res, totalCount, none), db1)

def ItemRepository.Update (r : ItemRepository S) (userID id : UUID) (input : UpdateItemInput)
    (db : DB S) : (Option Item × Option GoError) × DB S :=
  match updateStmt r.conv id input with
  | none => ((none, some (.wrap "ItemRepository.Update" ErrNoChanges)), db)
  | some stmt =>
    let t := withAuditContext r.eng r.conv userID (scanOne r.eng stmt) zeroItem db
    match t.1.1 with
    | some err =>
      if isDuplicateKey err then
        ((none, some (.wrap "ItemRepository.Update" ErrDuplicateSKU)), t.2)
      else if isErrNoRows err then
        ((none, some (.wrap "ItemRepository.Update" ErrNotFound)), t.2)
      else ((none, some (.wrap "ItemRepository.Update" err)), t.2)
    | none => ((some t.1.2, none), t.2)

/-- The callback of `Delete`. -/
def deleteOne (eng : Engine S) (id : UUID) (tx : Tx S) : (Option GoError × Unit) × Tx S :=
  let q := tx.exec eng (deleteStmt id)
  match q.1 with
  | .error err => ((some err, ()), q.2)
  | .ok rows => if rows = 0 then ((some ErrNotFound, ()), q.2) else ((none, ()), q.2)

def ItemRepository.Delete (r : ItemRepository S) (userID id : UUID) (db : DB S) :
    Option GoError × DB S :=
  let t := withAuditContext r.eng r.conv userID (deleteOne r.eng id) () db
  match t.1.1 with
  | some err => (some (.wrap "ItemRepository.Delete" err), t.2)
  | none => (none, t.2)

/-- The repository as the collaborator of `ItemService`. -/
def ItemRepository.toService (r : ItemRepository S) : service.itemRepository (DB S) :=
  { Create := r.Create
    GetByID := r.GetByID
    List := r.List
    Update := r.Update
    Delete := r.Delete }

end itemrepo

end repository

/-! ### repository/audit.go -/

namespace repository

open domain

structure AuditRepository (S : Type) where
  eng : Engine S
  conv : Conv

def auditByItemStmt (itemID : UUID) : Stmt :=
  { text := "\n\t\tSELECT\n\t\t\ta.id, a.item_id, a.action, a.changed_by,\n\t\t\t" ++
      "a.old_data, a.new_data, a.diff, a.changed_at,\n\t\t\t" ++
      "COALESCE(u.username, 'unknown') AS username\n\t\tFROM item_audit_log a\n\t\t" ++
      "LEFT JOIN users u ON u.id = a.changed_by\n\t\tWHERE item_id=$1\n\t\t" ++
      "ORDER BY a.changed_at DESC"
    args := [.uuid itemID] }

/-- The variables of `AuditRepository.List` after the five filter blocks. -/
def auditListBuilder (filter : AuditFilter) : Builder :=
  ((((Builder.init.add "a.item_id = $" (filter.ItemID.map Arg.uuid)).add "a.changed_by = $"
      (filter.UserID.map Arg.uuid)).add "a.action = $" (filter.Action.map Arg.text)).add
      "a.changed_at >= $" (filter.DateFrom.map Arg.time)).add
      "a.changed_at <= $" (filter.DateTo.map Arg.time)

/-- The statement `AuditRepository.List` sends. -/
def auditListStmt (filter : AuditFilter) (limit offset : Int) : Stmt :=
  let b := auditListBuilder filter
  { text := "\n\t\tSELECT \n\t\t\ta.id, a.item_id, a.action, a.changed_by,\n\t\t\t" ++
      "a.old_data, a.new_data, a.diff, a.changed_at,\n\t\t\t" ++
      "COALESCE(u.username, 'unknown') AS username,\n\t\t\t" ++
      "COUNT(*) OVER() AS total_count\n\t\tFROM item_audit_log a\n\t\t" ++
      "LEFT JOIN users u ON u.id = a.changed_by\n\t\t" ++ whereText b.clauses ++
      "\n\t\tORDER BY a.changed_at DESC\n\t\tLIMIT $" ++ toString b.argIdx ++ " OFFSET $" ++
      toString (b.argIdx + 1)
    args := b.args ++ [.int limit, .int offset] }

/-- The loop of `AuditRepository.List` (`scanAuditRowWithTotal` per row). -/
def scanAudit : List (Except GoError (AuditEntryWithUser × Int)) →
    Option (List AuditEntryWithUser) → Int →
    Except GoError (Option (List AuditEntryWithUser) × Int)
  | [], res, total => .ok (res, total)
  | .error err :: _, _, _ => .error err
  | .ok (e, tc) :: rest, res, _ => scanAudit rest (some (res.getD [] ++ [e])) tc

/-- The loop of `AuditRepository.GetByItemID` (`scanAuditRow` per row). -/
def scanAuditPlain : List (Except GoError AuditEntryWithUser) →
    Option (List AuditEntryWithUser) → Except GoError (Option (List AuditEntryWithUser))
  | [], res => .ok res
  | .error err :: _, _ => .error err
  | .ok e :: rest, res => scanAuditPlain rest (some (res.getD [] ++ [e]))

section auditrepo
variable {S : Type}

def AuditRepository.GetByItemID (r : AuditRepository S) (itemID : UUID) (db : DB S) :
    (Option (List AuditEntryWithUser) × Option GoError) × DB S :=
  let db1 : DB S := { db with log := db.log ++ [auditByItemStmt itemID] }
  match r.eng.selectAuditPlain (auditByItemStmt itemID) db.committed with
  | .error err => ((none, some (.wrap "AuditRepository.GetByItemID" err)), db1)
  | .ok rows =>
    match scanAuditPlain rows.rows none with
    | .error err =>
      ((none, some (.wrap "AuditRepository.GetByItemID - scan audit" err)), db1)
    | .ok res =>
      match rows.err with
      | some err => ((none, some (.wrap "AuditRepository.GetByItemID" err)), db1)
      | none => ((res, none), db1)

def AuditRepository.List (r : AuditRepository S) (filter : AuditFilter) (limit offset : Int)
    (db : DB S) : (Option (List AuditEntryWithUser) × Int × Option GoError) × DB S :=
  let stmt := auditListStmt filter limit offset
  let db1 : DB S := { db with log := db.log ++ [stmt] }
  match r.eng.selectAudit stmt db.committed with
  | .error err => ((none, 0, some (.wrap "AuditRepository.List" err)), db1)
  | .ok rows =>
    match scanAudit rows.rows none 0 with
    | .error err => ((none, 0, some (.wrap "AuditRepository.List - scan audit" err)), db1)
    | .ok (res, totalCount) =>
      match rows.err with
      | some err => ((none, 0, some (.wrap "AuditRepository.List" err)), db1)
      | none => ((res, totalCount, none), db1)

/-- The repository as the collaborator of `AuditService`. -/
def AuditRepository.toService (r : AuditRepository S) : service.auditRepository (DB S) :=
  { GetByItemID := r.GetByItemID
    List := r.List }

end auditrepo

end repository

/-! ### The fields of the dynamic statements, as they are described -/

namespace repository

open domain

/-- The fields that are present, in order, each with its clause text and its
value. -/
def presentFields (fields : List (String × Option Arg)) : List (String × Arg) :=
  fields.filterMap fun p => p.2.map fun a => (p.1, a)

/-- Clauses with their placeholders numbered consecutively from `k`. -/
def numbered (k : Nat) (ps : List (String × Arg)) : List String :=
  (ps.enumFrom k).map fun ip => ip.2.1 ++ toString ip.1

/-- The field blocks of a statement applied one after the other. -/
def Builder.addAll (b : Builder) (fields : List (String × Option Arg)) : Builder :=
  fields.foldl (fun b p => b.add p.1 p.2) b

/-- The five fields of an audit filter: item id, user id, action, date-from,
date-to, with the clause each contributes. -/
def auditFilterFields (filter : AuditFilter) : List (String × Option Arg) :=
  [("a.item_id = $", filter.ItemID.map Arg.uuid),
    ("a.changed_by = $", filter.UserID.map Arg.uuid),
    ("a.action = $", filter.Action.map Arg.text),
    ("a.changed_at >= $", filter.DateFrom.map Arg.time),
    ("a.changed_at <= $", filter.DateTo.map Arg.time)]

/-- The five fields of an update: name, sku, quantity, price, location, with
the assignment each contributes. -/
def updateFields (conv : Conv) (input : UpdateItemInput) : List (String × Option Arg) :=
  [("name = $", input.Name.map Arg.text),
    ("sku = $", input.SKU.map Arg.text),
    ("quantity = $", input.Quantity.map Arg.int),
    ("price = $", input.Price.map fun p => Arg.text (conv.StringFixed2 p)),
    ("location = $", input.Location.map Arg.text)]

end repository

namespace testdata

/-- An audit filter with every field set. -/
def fullFilter : domain.AuditFilter :=
  { ItemID := some ⟨10⟩, UserID := some ⟨1⟩, Action := some "UPDATE", DateFrom := some 5,
    DateTo := some 9 }

/-- An audit filter with the action and the upper date only. -/
def actionUntilFilter : domain.AuditFilter :=
  { ItemID := none, UserID := none, Action := some "DELETE", DateFrom := none,
    DateTo := some 9 }

def conv : repository.Conv :=
  { uuidString := fun u => toString u.val
    StringFixed2 := fun d => toString d.value ++ "e" ++ toString d.exp }

end testdata

namespace testdata

/-- An update of the name and the quantity. -/
def renameRestock : domain.UpdateItemInput :=
  { Name := some "Gaming Laptop", SKU := none, Quantity := some 7, Price := none,
    Location := none }

end testdata

/-! ### Database engines for evaluating the repository -/

namespace testdata

/-- An engine on which every statement succeeds: mutations return the sample
item and one affected row, queries return no rows; the state counts the
statements applied. -/
def okEngine : repository.Engine Nat :=
  { begin := fun _ => none
    commit := fun _ => none
    exec := fun _ n => (.ok 1, n + 1)
    queryRow := fun _ n => (.ok laptop, n + 1)
    selectRow := fun _ _ => .ok (.ok laptop)
    selectItems := fun _ _ => .ok { rows := [], err := none }
    selectAudit := fun _ _ => .ok { rows := [], err := none }
    selectAuditPlain := fun _ _ => .ok { rows := [], err := none } }

/-- The unique-constraint violation PostgreSQL reports for a second SKU. -/
def uniqueViolation : domain.GoError :=
  .pq "23505" "duplicate key value violates unique constraint \"items_sku_key\""

/-- An engine whose row-returning mutations hit the unique constraint. -/
def duplicateEngine : repository.Engine Nat :=
  { okEngine with queryRow := fun _ n => (.error uniqueViolation, n + 1) }

/-- An engine whose mutations match no row. -/
def missingEngine : repository.Engine Nat :=
  { okEngine with
    exec := fun st n =>
      if st.text = "DELETE FROM items WHERE id=$1" then (.ok 0, n + 1) else (.ok 1, n + 1)
    queryRow := fun _ n => (.error .sqlNoRows, n + 1)
    selectRow := fun _ _ => .ok (.error .sqlNoRows) }

/-- An engine on which recording the acting user fails. -/
def noContextEngine : repository.Engine Nat :=
  { okEngine with exec := fun _ n => (.error (.foreign "connection reset"), n + 1) }

def db0 : repository.DB Nat := { committed := 0, log := [] }

def itemInput : domain.CreateItemInput :=
  { Name := "Laptop", SKU := "LAP-001", Quantity := 5, Price := ⟨99900, -2⟩, Location := none }

end testdata

namespace testdata

/-- An engine whose row-returning mutations lose the connection. -/
def brokenEngine : repository.Engine Nat :=
  { okEngine with queryRow := fun _ n => (.error (.foreign "connection reset"), n + 1) }

def dbWorld : World (repository.DB Nat) Unit := { store := db0, out := (), trace := [] }

/-- The statement of the update `rename` of item 10. -/
def renameStmt : repository.Stmt :=
  { text := "\n\t\tUPDATE items\n\t\tSET name = $1\n\t\tWHERE id=$2" ++
      "\n\t\tRETURNING id, name, sku, quantity, price, location, created_at, updated_at\n\t\t"
    args := [.text "Updated Laptop", .uuid ⟨10⟩] }

end testdata

/-! ### PostgreSQL, as far as the list statements rely on it -/

namespace postgres

/-- The operator `LIKE` with the default escape character: `%` in the pattern
matches any sequence of characters, `_` matches any single character, a
backslash makes the next pattern character literal, any other character
matches itself; the whole text must be matched. -/
def likeMatch : List Char → List Char → Bool
  | [], t => t.isEmpty
  | c :: p, t =>
    if c = '%' then t.tails.any fun u => likeMatch p u
    else if c = '_' then
      match t with
      | [] => false
      | _ :: u => likeMatch p u
    else if c = '\\' then
      match p with
      | [] => false
      | x :: q =>
        match t with
        | [] => false
        | d :: u => d == x && likeMatch q u
    else
      match t with
      | [] => false
      | d :: u => d == c && likeMatch p u

/-- The operator `ILIKE`: `LIKE` without regard to case. -/
def ilike (pattern text : String) : Bool :=
  likeMatch (pattern.data.map Char.toLower) (text.data.map Char.toLower)

/-- Whether `s` occurs in `text` as a substring, without regard to case. -/
def containsFold (s text : String) : Bool :=
  decide (s.data.map Char.toLower <:+: text.data.map Char.toLower)

/-- The rows of `SELECT ..., COUNT(*) OVER() ... LIMIT limit OFFSET offset`
over the rows that match, in order: the window count is taken over all
matching rows and attached to each, then offset and limit cut the page. -/
def windowPage {R : Type} (matching : List R) (limit offset : Int) : List (R × Int) :=
  ((matching.map fun r => (r, (matching.length : Int))).drop offset.toNat).take limit.toNat

end postgres

namespace testdata

open domain

def mouse : Item :=
  { ID := ⟨11⟩, Name := "Mouse", SKU := "MOU-001", Quantity := 40, Price := ⟨1990, -2⟩,
    Location := none, CreatedAt := 0, UpdatedAt := 0 }

def desk : Item :=
  { ID := ⟨12⟩, Name := "Desk", SKU := "DSK-001", Quantity := 3, Price := ⟨15000, -2⟩,
    Location := none, CreatedAt := 0, UpdatedAt := 0 }

/-- The two tables, rows in the order the list statements sort them. -/
structure Tables where
  items : List Item
  audit : List AuditEntryWithUser

/-- What the statement of `ItemRepository.List` selects: with a search
pattern bound, the items whose name or SKU is `ILIKE` the pattern, otherwise
all items; then the page with the window count. -/
def selectItemRows (st : repository.Stmt) (t : Tables) :
    Except GoError (List (Item × Int)) :=
  match st.args with
  | [.text p, .int limit, .int offset] =>
    .ok (postgres.windowPage
      (t.items.filter fun i => postgres.ilike p i.Name || postgres.ilike p i.SKU) limit offset)
  | [.int limit, .int offset] => .ok (postgres.windowPage t.items limit offset)
  | _ => .error (.foreign "unsupported statement")

/-- What the statement of `AuditRepository.List` selects when no filter is
bound. -/
def selectAuditRows (st : repository.Stmt) (t : Tables) :
    Except GoError (List (AuditEntryWithUser × Int)) :=
  match st.args with
  | [.int limit, .int offset] => .ok (postgres.windowPage t.audit limit offset)
  | _ => .error (.foreign "unsupported statement")

/-- An engine over the two tables that answers the two list statements. -/
def tableEngine : repository.Engine Tables :=
  { begin := fun _ => none
    commit := fun _ => none
    exec := fun _ t => (.error (.foreign "unsupported statement"), t)
    queryRow := fun _ t => (.error (.foreign "unsupported statement"), t)
    selectRow := fun _ _ => .error (.foreign "unsupported statement")
    selectItems := fun st t =>
      (selectItemRows st t).map fun rows => { rows := rows.map .ok, err := none }
    selectAudit := fun st t =>
      (selectAuditRows st t).map fun rows => { rows := rows.map .ok, err := none }
    selectAuditPlain := fun _ _ => .error (.foreign "unsupported statement") }

def updateEntry : AuditEntryWithUser :=
  { insertEntry with ID := 2, Action := AuditUpdate }

/-- Three items and two audit entries. -/
def tables : Tables := { items := [laptop, mouse, desk], audit := [updateEntry, insertEntry] }

def tableWorld : World (repository.DB Tables) Unit :=
  { store := { committed := tables, log := [] }, out := (), trace := [] }

def tableItems : service.ItemService (repository.DB Tables) :=
  { itemRepo := (repository.ItemRepository.mk tableEngine conv).toService }

def tableAudit : service.AuditService (repository.DB Tables) :=
  { auditRepo := (repository.AuditRepository.mk tableEngine conv).toService }

end testdata

/-! ### handler/audit.go: the export endpoint -/

namespace domain

/-- The message of each package-level error value. -/
def Sentinel.message : Sentinel → String
  | .NotFound => "not found"
  | .AlreadyExists => "already exists"
  | .InvalidCredentials => "invalid credentials"
  | .TokenExpired => "token expired"
  | .TokenInvalid => "invalid token"
  | .Forbidden => "forbidden: insufficient permissions"
  | .Validation => "validation error"
  | .NoChanges => "no changes provided"
  | .DuplicateSKU => "item with this SKU already exists"

/-- `err.Error()`: a wrapped error prints its context, a colon and its cause
(`fmt.Errorf("%s: %w", ...)`); a `*pq.Error` prints `pq: ` and its message. -/
def GoError.Error : GoError → String
  | .sentinel k => k.message
  | .wrap msg inner => msg ++ ": " ++ GoError.Error inner
  | .foreign msg => msg
  | .pq _ message => "pq: " ++ message
  | .sqlNoRows => "sql: no rows in result set"

end domain

namespace handler

open domain

/-- The query parameters an audit request carries, as `c.Query` returns them:
the empty string for a parameter that is absent. -/
structure AuditQuery where
  item_id : String
  user_id : String
  action : String
  date_from : String
  date_to : String
  deriving DecidableEq, Repr

/-- The parsers of the libraries: `uuid.Parse` and
`time.Parse(time.RFC3339, ·)`, `none` for an error. -/
structure Parsers where
  uuidParse : String → Option UUID
  parseRFC3339 : String → Option Time

/-- `parseAuditFilter`: each parameter that is present is parsed in turn, the
first failure ends the parse with its error (the filter is then nil). -/
def parseAuditFilter (ps : Parsers) (q : AuditQuery) : Except GoError AuditFilter :=
  match (if q.item_id ≠ "" then (ps.uuidParse q.item_id).map some else some none) with
  | none => .error (.foreign ("invalid item_id: " ++ q.item_id))
  | some itemID =>
    match (if q.user_id ≠ "" then (ps.uuidParse q.user_id).map some else some none) with
    | none => .error (.foreign ("invalid user_id: " ++ q.user_id))
    | some userID =>
      if q.action ≠ "" ∧ AuditAction.IsValid q.action = false then
        .error (.foreign
          ("invalid action: " ++ q.action ++ " (allowed: INSERT, UPDATE, DELETE)"))
      else
        match (if q.date_from ≠ "" then (ps.parseRFC3339 q.date_from).map some
               else some none) with
        | none => .error (.foreign "invalid date_from: use RFC3339 format")
        | some dateFrom =>
          match (if q.date_to ≠ "" then (ps.parseRFC3339 q.date_to).map some
                 else some none) with
          | none => .error (.foreign "invalid date_to: use RFC3339 format")
          | some dateTo =>
            .ok { ItemID := itemID, UserID := userID,
                  Action := if q.action ≠ "" then some q.action else none,
                  DateFrom := dateFrom, DateTo := dateTo }

/-- What the request context holds under `middleware.ClaimsKey`: nothing, a
value of another type, or the claims the auth middleware stored. -/
inductive CtxValue where
  | absent
  | other
  | claims (c : AuthClaims)

/-- The body of a response: a JSON object with an `error` message, or data
with its content type. -/
inductive Body (ω : Type) where
  | error (msg : String)
  | data (contentType : String) (bytes : ω)

/-- A response: status, headers set by the handler, body. -/
structure Response (ω : Type) where
  status : Int
  headers : List (String × String)
  body : Body ω

/-- `getClaims`: the claims, or the response it aborts with. -/
def getClaims {ω : Type} (ctx : CtxValue) : Except (Response ω) AuthClaims :=
  match ctx with
  | .absent => .error { status := StatusUnauthorized, headers := [], body := .error "unauthorized" }
  | .other =>
    .error { status := StatusInternalServerError, headers := [],
             body := .error "internal server error" }
  | .claims c => .ok c

/-- `writeError`. -/
def writeError {ω : Type} (err : GoError) : Response ω :=
  { status := (mapError err).1, headers := [], body := .error (mapError err).2 }

/-- `AuditHandler.ExportCSV` when `time.Now()` returns `now`: `empty` is the
fresh `bytes.Buffer`, over which `cw` is the CSV writer the service creates;
`formatDate` is `Format("2006-01-02")`. -/
def ExportCSV {σ ω V : Type} (svc : service.AuditService σ) (rd : Render) (dc : DiffCodec V)
    (ps : Parsers) (cw : csvWriter ω) (empty : ω) (formatDate : Time → String) (now : Time)
    (ctx : CtxValue) (q : AuditQuery) (w : World σ ω) : Response ω × World σ ω :=
  match getClaims ctx with
  | .error resp => (resp, w)
  | .ok claims =>
    match parseAuditFilter ps q with
    | .error err =>
      ({ status := StatusBadRequest, headers := [], body := .error err.Error }, w)
    | .ok filter =>
      let r := svc.ExportCSV rd dc claims filter cw { w with out := empty }
      match r.1 with
      | some err => (writeError err, r.2)
      | none =>
        ({ status := 200,
           headers := [("Content-Disposition",
             "attachment; filename=\"audit_" ++ formatDate now ++ ".csv\"")],
           body := .data "text/csv; charset=utf-8" r.2.out }, r.2)

end handler

namespace testdata

def parsers : handler.Parsers :=
  { uuidParse := fun s => if s.length = 0 then none else some ⟨s.length⟩
    parseRFC3339 := fun s => if s.length = 0 then none else some s.length }

/-- The query `?action=INVALID`. -/
def badActionQuery : handler.AuditQuery :=
  { item_id := "", user_id := "", action := "INVALID", date_from := "", date_to := "" }

end testdata

/-! ### Tokens issued under another secret -/

namespace auth

open domain

/-- The claims `GenerateJWT` builds when `time.Now()` returns `now`. -/
def Manager.claimsFor (lib : Lib) (m : Manager) (now : Time) (user : User) : jwtClaims :=
  { Subject := lib.uuidString user.ID
    ExpiresAt := some (jwt.NewNumericDate (now + m.tokenTTL))
    NotBefore := none
    IssuedAt := some (jwt.NewNumericDate now)
    UserID := lib.uuidString user.ID
    Username := user.Username
    Role := user.Role }

end auth

namespace testdata

/-- The key as HMAC uses it (RFC 2104): a key shorter than the block of 64
bytes is padded with zero bytes up to the block. -/
def padKey (key : List Char) : List Char :=
  key ++ List.replicate (64 - key.length) (Char.ofNat 0)

/-- A keyed tag that, like HMAC, depends on the key through its padded form. -/
def paddedTag (alg key : String) (c : auth.jwtClaims) : String :=
  alg ++ "/" ++ String.mk (padKey key.data) ++ "/" ++ c.UserID ++ "/" ++ c.Username ++ "/" ++
    c.Role

/-- The small token library with the padded key in its tag. -/
def hmacLib : auth.Lib :=
  { jwt := { encode := encodeToken, decode := decodeToken, mac := paddedTag }
    uuidString := fun u => String.mk (List.replicate u.val 'u')
    uuidParse := fun s => some ⟨s.length⟩ }

/-- A manager whose secret is that of the test manager followed by a zero
byte. -/
def managerNul : auth.Manager := auth.NewManager "test-secret\x00" 1000000000

end testdata

/-! ### The store with its change capture

The migration that defines the audit log and the mechanism that fills it is
not among the sources; the definitions of this section follow the
specification. -/

namespace changecapture

open domain repository

/-- Modelled from the spec: a record of the audit log as far as a mutation
decides it, that is the referenced item id, the action kind and the acting
user id (an AuditEntry is "generated automatically and atomically whenever
ItemStore performs a mutation under a known acting-user context"); the
migration that creates the audit log is missing from the sources. -/
structure AuditRow where
  ItemID : UUID
  Action : AuditAction
  ChangedBy : String
  deriving DecidableEq, Repr

/-- Modelled from the spec: the state of the store, that is the items, the
append-only audit log, and the acting-user identity the current transaction
is tagged with ("a way to tag the current transaction with an acting-user
identity for downstream change capture"); the schema is missing from the
sources. -/
structure Tables where
  items : List Item
  audit : List AuditRow
  actingUser : Option String

/-- Modelled from the spec: what the specification leaves to the store: which
transaction starts, commits and statements fail on their own (a lost
connection, a violated constraint), the row an insert produces and the row an
update turns a row into. -/
structure Store where
  beginErr : Tables → Option GoError
  commitErr : Tables → Option GoError
  stmtErr : Stmt → Tables → Option GoError
  inserted : Stmt → Tables → Item
  updated : Stmt → Item → Item

def setUserText : String := "SELECT set_config('app.current_user_id', $1, true)"

def deleteText : String := "DELETE FROM items WHERE id=$1"

def insertText : String :=
  "INSERT INTO items (name, sku, quantity, price, location)\n\t\t\t  " ++
    "VALUES ($1, $2, $3, $4, $5)\n\t\t\t  " ++
    "RETURNING id, name, sku, quantity, price, location, created_at, updated_at"

/-- Modelled from the spec: the change capture, which is missing from the
sources. For every item row a mutation changes it appends one audit record
with the action and the acting user the transaction is tagged with, as part
of the mutation; a mutation that changes a row while no acting user is known
cannot be recorded and fails. -/
def capture (action : AuditAction) (rows : List Item) (t : Tables) : Except GoError Tables :=
  match rows, t.actingUser with
  | [], _ => .ok t
  | _ :: _, none => .error (.foreign "acting user is not known")
  | _ :: _, some u =>
    .ok { t with audit := t.audit ++ rows.map fun i => ⟨i.ID, action, u⟩ }

/-- Modelled from the spec: a statement without result rows on the store: the
tagging of the transaction sets the acting user; the delete removes the rows
with the id, captured as DELETE, and reports their number; a statement that
fails changes nothing. -/
def exec (st : Store) (stmt : Stmt) (t : Tables) : Except GoError Int × Tables :=
  match st.stmtErr stmt t with
  | some e => (.error e, t)
  | none =>
    if stmt.text = setUserText then
      match stmt.args with
      | [.text u] => (.ok 1, { t with actingUser := some u })
      | _ => (.error (.foreign "wrong arguments"), t)
    else if stmt.text = deleteText then
      match stmt.args with
      | [.uuid id] =>
        match capture AuditDelete (t.items.filter fun i => i.ID = id)
            { t with items := t.items.filter fun i => i.ID ≠ id } with
        | .error e => (.error e, t)
        | .ok t2 => (.ok (t.items.filter fun i => i.ID = id).length, t2)
      | _ => (.error (.foreign "wrong arguments"), t)
    else (.error (.foreign "unsupported statement"), t)

/-- Modelled from the spec: a statement returning one row on the store: the
insert adds the new row, captured as INSERT; the update (any other statement,
its last value the item id) rewrites the rows with the id, captured as UPDATE,
and finds no row when there is none; a statement that fails changes nothing. -/
def queryRow (st : Store) (stmt : Stmt) (t : Tables) : Except GoError Item × Tables :=
  match st.stmtErr stmt t with
  | some e => (.error e, t)
  | none =>
    if stmt.text = insertText then
      match capture AuditInsert [st.inserted stmt t]
          { t with items := t.items ++ [st.inserted stmt t] } with
      | .error e => (.error e, t)
      | .ok t2 => (.ok (st.inserted stmt t), t2)
    else
      match stmt.args.getLast? with
      | some (.uuid id) =>
        match t.items.filter fun i => i.ID = id with
        | [] => (.error .sqlNoRows, t)
        | old :: more =>
          match capture AuditUpdate (old :: more)
              { t with items := t.items.map fun i =>
                  if i.ID = id then st.updated stmt i else i } with
          | .error e => (.error e, t)
          | .ok t2 => (.ok (st.updated stmt old), t2)
      | _ => (.error (.foreign "wrong arguments"), t)

/-- Modelled from the spec: the store as the engine the repository talks to;
the reads of the lists are not part of this model. -/
def engine (st : Store) : Engine Tables :=
  { begin := st.beginErr
    commit := st.commitErr
    exec := exec st
    queryRow := queryRow st
    selectRow := fun stmt t =>
      match stmt.args with
      | [.uuid id] =>
        .ok (match t.items.find? fun i => i.ID = id with
          | some i => .ok i
          | none => .error .sqlNoRows)
      | _ => .error (.foreign "wrong arguments")
    selectItems := fun _ _ => .error (.foreign "unsupported statement")
    selectAudit := fun _ _ => .error (.foreign "unsupported statement")
    selectAuditPlain := fun _ _ => .error (.foreign "unsupported statement") }

end changecapture

namespace testdata

/-- A store on which nothing fails by itself; an insert produces the sample
item, an update renames the row. -/
def calmStore : changecapture.Store :=
  { beginErr := fun _ => none
    commitErr := fun _ => none
    stmtErr := fun _ _ => none
    inserted := fun _ _ => laptop
    updated := fun _ i => { i with Name := "Updated Laptop" } }

/-- A store on which the tagging of the transaction fails. -/
def untaggedStore : changecapture.Store :=
  { calmStore with
    stmtErr := fun stmt _ =>
      if stmt.text = changecapture.setUserText then some (.foreign "connection reset")
      else none }

/-- A store on which the commit fails. -/
def noCommitStore : changecapture.Store :=
  { calmStore with commitErr := fun _ => some (.foreign "connection reset") }

def emptyTables : changecapture.Tables := { items := [], audit := [], actingUser := none }

def tablesDB : repository.DB changecapture.Tables := { committed := emptyTables, log := [] }

end testdata

/-! ## Classifying calls -/

/-- Whether a call goes to a repository (a read or write of the store). -/
def Call.isStore : Call → Bool
  | .itemCreate _ _ => true
  | .itemGetByID _ => true
  | .itemList _ _ _ => true
  | .itemUpdate _ _ _ => true
  | .itemDelete _ _ => true
  | .auditGetByItemID _ => true
  | .auditList _ _ _ => true
  | .userGetByUsername _ => true
  | .userList => true
  | .csvWrite _ => false
  | .csvFlush => false
  | .tokenGenerateJWT _ => false
  | .tokenValidate _ => false

/-- The bounds of a Go `int` on a 64-bit platform. -/
def minInt64 : Int := -9223372036854775808
def maxInt64 : Int := 9223372036854775807

/-! ## Theorems -/

/-- C1: for every role value (any string), create, update, view-audit and
export are permitted exactly for admin and manager, delete exactly for admin,
and view always; the three named rows of the table follow. -/
theorem C1_role_capabilities (r : domain.Role) :
    (domain.Role.CanCreate r = true ↔ (r = domain.RoleAdmin ∨ r = domain.RoleManager)) ∧
    (domain.Role.CanUpdate r = true ↔ (r = domain.RoleAdmin ∨ r = domain.RoleManager)) ∧
    (domain.Role.CanViewAudit r = true ↔ (r = domain.RoleAdmin ∨ r = domain.RoleManager)) ∧
    (domain.Role.CanExport r = true ↔ (r = domain.RoleAdmin ∨ r = domain.RoleManager)) ∧
    (domain.Role.CanDelete r = true ↔ r = domain.RoleAdmin) ∧
    domain.Role.CanView r = true ∧
    ([domain.Role.CanCreate, domain.Role.CanUpdate, domain.Role.CanDelete,
        domain.Role.CanView, domain.Role.CanViewAudit, domain.Role.CanExport].map
        (fun f => f "admin") = [true, true, true, true, true, true]) ∧
    ([domain.Role.CanCreate, domain.Role.CanUpdate, domain.Role.CanDelete,
        domain.Role.CanView, domain.Role.CanViewAudit, domain.Role.CanExport].map
        (fun f => f "manager") = [true, true, false, true, true, true]) ∧
    ([domain.Role.CanCreate, domain.Role.CanUpdate, domain.Role.CanDelete,
        domain.Role.CanView, domain.Role.CanViewAudit, domain.Role.CanExport].map
        (fun f => f "viewer") = [false, false, false, true, false, false]) := by
  refine ⟨?_, ?_, ?_, ?_, ?_, rfl, by decide, by decide, by decide⟩ <;>
    simp [domain.Role.CanCreate, domain.Role.CanUpdate, domain.Role.CanViewAudit,
      domain.Role.CanExport, domain.Role.CanDelete]

/-! ### Pagination -/

/-- The result of `normalizePagination`, for every page and page size. -/
theorem normalizePagination_eq (page pageSize : Int) :
    service.normalizePagination page pageSize =
      (if page < 1 then 1 else page,
        if pageSize < 1 ∨ pageSize > 100 then 20 else pageSize) := by
  simp [service.normalizePagination, service.defaultPage, service.defaultPageSize,
    service.maxPageSize]

/-- C6 (as stated, refuted): page size 1 lies outside the interval (1, 100],
yet `normalizePagination` returns it unchanged instead of the default 20. -/
theorem C6_counterexample :
    ((1 : Int) ≤ 1 ∨ (1 : Int) > 100) ∧
      service.normalizePagination 1 1 = (1, 1) ∧
      (service.normalizePagination 1 1).2 ≠ 20 := by
  decide

/-- C6 (amended): for every page and page size, the page becomes 1 when it is
below 1 and is kept otherwise, and the page size becomes the default 20 when
it lies outside the closed interval [1, 100] (below 1 or above 100) and is
kept otherwise. -/
theorem C6_normalizePagination_amended (page pageSize : Int) :
    (service.normalizePagination page pageSize).1 = (if page < 1 then 1 else page) ∧
    (service.normalizePagination page pageSize).2 =
      (if pageSize < 1 ∨ pageSize > 100 then service.defaultPageSize else pageSize) ∧
    service.defaultPageSize = 20 := by
  rw [normalizePagination_eq]
  exact ⟨rfl, rfl, rfl⟩

/-- C7: `normalizePagination` resets and never clamps: a page size above 100
or below 1 becomes 20, a page size from 1 to 100 is kept, a page of at least 1
is kept and a page below 1 becomes 1; the six tabulated cases hold; and
`ListItems` with page size 200 queries the store with limit 20. -/
theorem C7_reset_not_clamp (page pageSize : Int) :
    (pageSize > 100 → (service.normalizePagination page pageSize).2 = 20) ∧
    (pageSize < 1 → (service.normalizePagination page pageSize).2 = 20) ∧
    (1 ≤ pageSize → pageSize ≤ 100 →
      (service.normalizePagination page pageSize).2 = pageSize) ∧
    (1 ≤ page → (service.normalizePagination page pageSize).1 = page) ∧
    (page < 1 → (service.normalizePagination page pageSize).1 = 1) ∧
    service.normalizePagination 0 0 = (1, 20) ∧
    service.normalizePagination (-1) 10 = (1, 10) ∧
    service.normalizePagination 1 (-1) = (1, 20) ∧
    service.normalizePagination 1 200 = (1, 20) ∧
    service.normalizePagination 3 50 = (3, 50) ∧
    service.normalizePagination 1 100 = (1, 100) ∧
    (∀ (σ ω : Type) (s : service.ItemService σ) (claims : domain.AuthClaims)
        (filter : domain.ItemFilter) (p : Int) (w : World σ ω),
      ∃ offset : Int,
        (service.ItemService.ListItems s claims filter p 200 w).2.trace =
          w.trace ++ [Call.itemList filter 20 offset]) := by
  rw [normalizePagination_eq]
  refine ⟨?_, ?_, ?_, ?_, ?_, by decide, by decide, by decide, by decide, by decide,
    by decide, ?_⟩
  · intro h; simp [h]
  · intro h; simp [h]
  · intro h1 h2
    have : ¬ (pageSize < 1 ∨ pageSize > 100) := by omega
    simp [this]
  · intro h
    have : ¬ page < 1 := by omega
    simp [this]
  · intro h; simp [h]
  · intro σ ω s claims filter p w
    refine ⟨wrapInt64 (((service.normalizePagination p 200).1 - 1) * 20), ?_⟩
    have h200 : (service.normalizePagination p 200).2 = 20 := by
      rw [normalizePagination_eq]; simp
    simp only [service.ItemService.ListItems, domain.Role.CanView, h200]
    simp only [Bool.not_true, Bool.false_eq_true, if_false]
    split <;> simp [service.invoke]

/-- C7, evaluated: the viewer of the service tests lists page 1 with page size
200 and the repository sees limit 20, offset 0. -/
theorem C7_reset_not_clamp_witness :
    (service.ItemService.ListItems testdata.itemSvc testdata.viewerClaims ⟨none⟩ 1 200
        testdata.world0).2.trace = [Call.itemList ⟨none⟩ 20 0] ∧
    (service.normalizePagination 1 200).2 = 20 :=
  ⟨by decide, (C7_reset_not_clamp 1 200).1 (by decide)⟩

/-- On non-negative totals and positive page sizes the truncating division
of `calcTotalPages` is the floor division. -/
theorem calcTotalPages_pos (total pageSize : Int) (ht : 0 ≤ total) (hp : 1 ≤ pageSize) :
    service.calcTotalPages total pageSize =
      total / pageSize + (if total % pageSize = 0 then 0 else 1) := by
  have h0 : ¬ pageSize ≤ 0 := by omega
  have hd : Int.tdiv total pageSize = total / pageSize :=
    Int.tdiv_eq_ediv ht (by omega)
  have hm : Int.tmod total pageSize = total % pageSize :=
    Int.tmod_eq_emod ht (by omega)
  simp only [service.calcTotalPages, h0, if_false, hd, hm]
  by_cases h : total % pageSize = 0 <;> simp [h]

/-- C8: for total >= 0 and pageSize >= 1, `calcTotalPages` is the ceiling of
total / pageSize, that is the least n >= 0 with n * pageSize >= total; it is 0
when total is 0; for pageSize <= 0 it is 0; and the five tabulated cases hold. -/
theorem C8_calcTotalPages (total pageSize : Int) :
    (0 ≤ total → 1 ≤ pageSize →
      service.calcTotalPages total pageSize = ⌈(total : ℚ) / (pageSize : ℚ)⌉ ∧
      0 ≤ service.calcTotalPages total pageSize ∧
      total ≤ service.calcTotalPages total pageSize * pageSize ∧
      ∀ n : Int, 0 ≤ n → total ≤ n * pageSize → service.calcTotalPages total pageSize ≤ n) ∧
    service.calcTotalPages 0 pageSize = 0 ∧
    (pageSize ≤ 0 → service.calcTotalPages total pageSize = 0) ∧
    service.calcTotalPages 21 20 = 2 ∧
    service.calcTotalPages 20 20 = 1 ∧
    service.calcTotalPages 100 30 = 4 ∧
    service.calcTotalPages 0 20 = 0 ∧
    service.calcTotalPages 10 0 = 0 := by
  refine ⟨?_, ?_, ?_, by decide, by decide, by decide, by decide, by decide⟩
  · intro ht hp
    have hps : (0 : Int) < pageSize := by omega
    have hdm := Int.emod_add_ediv total pageSize
    have hr0 := Int.emod_nonneg total (show pageSize ≠ 0 by omega)
    have hr1 := Int.emod_lt_of_pos total hps
    have hq0 : 0 ≤ total / pageSize := Int.ediv_nonneg ht (by omega)
    have hlow : (service.calcTotalPages total pageSize - 1) * pageSize < total := by
      rw [calcTotalPages_pos total pageSize ht hp]
      by_cases h : total % pageSize = 0
      · simp only [h, if_true]; nlinarith
      · have hr2 : 0 < total % pageSize := by omega
        simp only [h, if_false]; nlinarith
    have hup : total ≤ service.calcTotalPages total pageSize * pageSize := by
      rw [calcTotalPages_pos total pageSize ht hp]
      by_cases h : total % pageSize = 0
      · simp only [h, if_true]; nlinarith
      · simp only [h, if_false]; nlinarith
    refine ⟨?_, ?_, hup, ?_⟩
    · symm
      rw [Int.ceil_eq_iff]
      have hpq : (0 : ℚ) < (pageSize : ℚ) := by exact_mod_cast hps
      constructor
      · rw [lt_div_iff₀ hpq]
        exact_mod_cast hlow
      · rw [div_le_iff₀ hpq]
        exact_mod_cast hup
    · rw [calcTotalPages_pos total pageSize ht hp]
      split <;> omega
    · intro n hn hle
      by_contra hlt
      push_neg at hlt
      nlinarith
  · unfold service.calcTotalPages
    split <;> simp
  · intro h
    simp [service.calcTotalPages, h]

/-- C8 at total 21, page size 20: two pages, the ceiling of 21/20. -/
theorem C8_calcTotalPages_witness :
    service.calcTotalPages 21 20 = ⌈((21 : Int) : ℚ) / ((20 : Int) : ℚ)⌉ ∧
    service.calcTotalPages 21 20 = 2 :=
  ⟨((C8_calcTotalPages 21 20).1 (by decide) (by decide)).1, by decide⟩

/-! ### Input invariants checked by the services -/

/-- A repository call extends the trace by exactly that call. -/
theorem invoke_trace {σ ω α : Type} (c : Call) (f : σ → α × σ) (w : World σ ω) :
    (service.invoke c f w).2.trace = w.trace ++ [c] := rfl

/-- A repository call leaves the store in the state the method returns. -/
theorem invoke_store {σ ω α : Type} (c : Call) (f : σ → α × σ) (w : World σ ω) :
    (service.invoke c f w).2.store = (f w.store).2 := rfl

/-- The value a repository call returns. -/
theorem invoke_fst {σ ω α : Type} (c : Call) (f : σ → α × σ) (w : World σ ω) :
    (service.invoke c f w).1 = (f w.store).1 := rfl

/-- `HasChanges` is false exactly when none of the five fields is set. -/
theorem hasChanges_false_iff (u : domain.UpdateItemInput) :
    u.HasChanges = false ↔
      (u.Name = none ∧ u.SKU = none ∧ u.Quantity = none ∧ u.Price = none ∧
        u.Location = none) := by
  simp [domain.UpdateItemInput.HasChanges, and_assoc]

/-- The trace and store after `Update` once the role and the change set pass. -/
theorem update_calls_repo {σ ω : Type} (s : service.ItemService σ)
    (claims : domain.AuthClaims) (id : UUID) (input : domain.UpdateItemInput)
    (w : World σ ω) (hrole : claims.Role.CanUpdate = true)
    (hch : input.HasChanges = true) :
    (service.ItemService.Update s claims id input w).2.trace =
        w.trace ++ [Call.itemUpdate claims.UserID id input] ∧
      (service.ItemService.Update s claims id input w).2.store =
        (s.itemRepo.Update claims.UserID id input w.store).2 ∧
      (service.ItemService.Update s claims id input w).1.2 ≠ some domain.ErrNoChanges := by
  simp only [service.ItemService.Update, hrole, hch, Bool.not_true, Bool.false_eq_true,
    if_false]
  split
  · split
    · exact ⟨rfl, rfl, by simp [domain.ErrNoChanges, domain.ErrNotFound]⟩
    · split
      · exact ⟨rfl, rfl, by simp [domain.ErrNoChanges, domain.ErrDuplicateSKU]⟩
      · exact ⟨rfl, rfl, by simp [domain.ErrNoChanges]⟩
  · exact ⟨rfl, rfl, by simp⟩

/-- C3: for a role permitted to update and every item id, `Update` returns
exactly ErrNoChanges without calling the repository iff none of name, SKU,
quantity, price, location is set (HasChanges is false); if one of the five is
set, HasChanges is true and the repository Update is called, once, with the
acting user id, the id and the input. -/
theorem C3_update_no_changes {σ ω : Type} (s : service.ItemService σ)
    (claims : domain.AuthClaims) (id : UUID) (input : domain.UpdateItemInput)
    (w : World σ ω) (hrole : claims.Role.CanUpdate = true) :
    (input.HasChanges = false ↔
      (input.Name = none ∧ input.SKU = none ∧ input.Quantity = none ∧
        input.Price = none ∧ input.Location = none)) ∧
    (((service.ItemService.Update s claims id input w).1.2 = some domain.ErrNoChanges ∧
        (service.ItemService.Update s claims id input w).2.trace = w.trace) ↔
      input.HasChanges = false) ∧
    (input.HasChanges = false →
      service.ItemService.Update s claims id input w =
        ((none, some domain.ErrNoChanges), w)) ∧
    (¬ (input.Name = none ∧ input.SKU = none ∧ input.Quantity = none ∧
          input.Price = none ∧ input.Location = none) →
      input.HasChanges = true ∧
      (service.ItemService.Update s claims id input w).2.trace =
        w.trace ++ [Call.itemUpdate claims.UserID id input] ∧
      (service.ItemService.Update s claims id input w).2.store =
        (s.itemRepo.Update claims.UserID id input w.store).2) := by
  have hno : input.HasChanges = false →
      service.ItemService.Update s claims id input w =
        ((none, some domain.ErrNoChanges), w) := by
    intro h
    simp [service.ItemService.Update, hrole, h]
  refine ⟨hasChanges_false_iff input, ⟨?_, ?_⟩, hno, ?_⟩
  · rintro ⟨herr, _⟩
    cases hch : input.HasChanges with
    | false => rfl
    | true => exact absurd herr (update_calls_repo s claims id input w hrole hch).2.2
  · intro h
    rw [hno h]
    exact ⟨rfl, rfl⟩
  · intro hset
    have hch : input.HasChanges = true := by
      cases h : input.HasChanges with
      | true => rfl
      | false => exact absurd ((hasChanges_false_iff input).1 h) hset
    exact ⟨hch, (update_calls_repo s claims id input w hrole hch).1,
      (update_calls_repo s claims id input w hrole hch).2.1⟩

/-- C3 for the admin of the service tests with an empty change set: the world
is returned untouched with ErrNoChanges. -/
theorem C3_update_no_changes_witness :
    testdata.adminClaims.Role.CanUpdate = true ∧
    service.ItemService.Update testdata.itemSvc testdata.adminClaims ⟨10⟩ testdata.noChanges
        testdata.world0 = ((none, some domain.ErrNoChanges), testdata.world0) :=
  ⟨by decide,
    (C3_update_no_changes testdata.itemSvc testdata.adminClaims ⟨10⟩ testdata.noChanges
      testdata.world0 (by decide)).2.2.1 (by decide)⟩

/-- `AuditAction.IsValid` holds exactly for the three action names. -/
theorem auditAction_isValid_iff (a : domain.AuditAction) :
    domain.AuditAction.IsValid a = true ↔ (a = "INSERT" ∨ a = "UPDATE" ∨ a = "DELETE") := by
  simp [domain.AuditAction.IsValid, domain.AuditInsert, domain.AuditUpdate,
    domain.AuditDelete]

/-- C4: for a role permitted to view audit and every page and page size,
`AuditService.List` with a filter whose action is set to a value outside
INSERT, UPDATE, DELETE returns exactly ErrValidation and makes no repository
call; a filter with no action or a valid one passes this check and the
repository is queried; `IsValid` is true exactly for the three names,
case-sensitively. -/
theorem C4_list_invalid_action {σ ω : Type} (s : service.AuditService σ)
    (claims : domain.AuthClaims) (filter : domain.AuditFilter) (page pageSize : Int)
    (w : World σ ω) (hrole : claims.Role.CanViewAudit = true) :
    (∀ a : domain.AuditAction, filter.Action = some a →
      ¬ (a = "INSERT" ∨ a = "UPDATE" ∨ a = "DELETE") →
      service.AuditService.List s claims filter page pageSize w =
        ((none, some domain.ErrValidation), w)) ∧
    ((filter.Action = none ∨
        ∃ a : domain.AuditAction, filter.Action = some a ∧
          (a = "INSERT" ∨ a = "UPDATE" ∨ a = "DELETE")) →
      (service.AuditService.List s claims filter page pageSize w).1.2 ≠
          some domain.ErrValidation ∧
        ∃ limit offset : Int,
          (service.AuditService.List s claims filter page pageSize w).2.trace =
            w.trace ++ [Call.auditList filter limit offset]) ∧
    (∀ a : domain.AuditAction,
      domain.AuditAction.IsValid a = true ↔ (a = "INSERT" ∨ a = "UPDATE" ∨ a = "DELETE")) ∧
    domain.AuditAction.IsValid "insert" = false ∧
    domain.AuditAction.IsValid "Insert" = false ∧
    domain.AuditAction.IsValid "" = false := by
  refine ⟨?_, ?_, auditAction_isValid_iff, by decide, by decide, by decide⟩
  · intro a ha hbad
    have hv : domain.AuditAction.IsValid a = false := by
      cases h : domain.AuditAction.IsValid a with
      | false => rfl
      | true => exact absurd ((auditAction_isValid_iff a).1 h) hbad
    simp [service.AuditService.List, hrole, ha, hv]
  · intro hok
    have hpass : filter.Action.any (fun a => !domain.AuditAction.IsValid a) = false := by
      rcases hok with h | ⟨a, ha, hval⟩
      · simp [h]
      · simp [ha, (auditAction_isValid_iff a).2 hval]
    simp only [service.AuditService.List, hrole, hpass, Bool.not_true, Bool.false_eq_true,
      if_false]
    split
    · exact ⟨by simp [domain.ErrValidation], _, _, rfl⟩
    · exact ⟨by simp, _, _, rfl⟩

/-- C4 for the admin of the service tests and the action `INVALID`: rejected
with ErrValidation, the world untouched. -/
theorem C4_list_invalid_action_witness :
    testdata.adminClaims.Role.CanViewAudit = true ∧
    service.AuditService.List testdata.auditSvc testdata.adminClaims
        testdata.badActionFilter 1 20 testdata.world0 =
      ((none, some domain.ErrValidation), testdata.world0) :=
  ⟨by decide,
    (C4_list_invalid_action testdata.auditSvc testdata.adminClaims testdata.badActionFilter
      1 20 testdata.world0 (by decide)).1 "INVALID" rfl (by decide)⟩

/-! ### The role gate of every service operation -/

/-- A trace that grew by at least one call differs from the trace before. -/
theorem trace_grew_ne {α : Type} (l t : List α) (c : α) : l ++ c :: t ≠ l := by
  intro h
  have hlen := congrArg List.length h
  simp at hlen

/-- Writing rows only appends to the trace. -/
theorem writeRows_trace {σ ω V : Type} (rd : Render) (dc : DiffCodec V) (cw : csvWriter ω)
    (es : List domain.AuditEntryWithUser) (w : World σ ω) :
    ∃ t, (csvexport.writeRows rd dc cw es w).2.trace = w.trace ++ t := by
  induction es generalizing w with
  | nil => exact ⟨[], by simp [csvexport.writeRows]⟩
  | cons e es ih =>
    simp only [csvexport.writeRows]
    split
    · exact ⟨[Call.csvWrite (csvexport.auditRow rd dc e)], rfl⟩
    · obtain ⟨t, ht⟩ := ih (csvWrite cw (csvexport.auditRow rd dc e) w).2
      exact ⟨Call.csvWrite (csvexport.auditRow rd dc e) :: t, by rw [ht]; simp [csvWrite]⟩

/-- Writing rows leaves the store alone. -/
theorem writeRows_store {σ ω V : Type} (rd : Render) (dc : DiffCodec V) (cw : csvWriter ω)
    (es : List domain.AuditEntryWithUser) (w : World σ ω) :
    (csvexport.writeRows rd dc cw es w).2.store = w.store := by
  induction es generalizing w with
  | nil => rfl
  | cons e es ih =>
    simp only [csvexport.writeRows]
    split
    · rfl
    · rw [ih]; rfl

/-- With a writer that accepts every record, the row loop reports no error. -/
theorem writeRows_ok {σ ω V : Type} (rd : Render) (dc : DiffCodec V) (cw : csvWriter ω)
    (hw : ∀ record o, (cw.Write record o).1 = none)
    (es : List domain.AuditEntryWithUser) (w : World σ ω) :
    (csvexport.writeRows rd dc cw es w).1 = none := by
  induction es generalizing w with
  | nil => rfl
  | cons e es ih =>
    have h1 : (csvWrite cw (csvexport.auditRow rd dc e) w).1 = none := hw _ _
    simp only [csvexport.writeRows, h1]
    exact ih _

/-- `WriteAuditCSV` always makes at least the header call. -/
theorem writeAuditCSV_trace {σ ω V : Type} (rd : Render) (dc : DiffCodec V)
    (cw : csvWriter ω) (entries : Option (List domain.AuditEntryWithUser)) (w : World σ ω) :
    ∃ t, (csvexport.WriteAuditCSV rd dc cw entries w).2.trace =
      w.trace ++ Call.csvWrite csvexport.auditCSVHeader :: t := by
  simp only [csvexport.WriteAuditCSV]
  split
  · exact ⟨[], rfl⟩
  · obtain ⟨t, ht⟩ := writeRows_trace rd dc cw (entries.getD [])
      (csvWrite cw csvexport.auditCSVHeader w).2
    split
    · exact ⟨t, by rw [ht]; simp [csvWrite]⟩
    · refine ⟨t ++ [Call.csvFlush], ?_⟩
      show (csvexport.writeRows rd dc cw (entries.getD [])
          (csvWrite cw csvexport.auditCSVHeader w).2).2.trace ++ [Call.csvFlush] = _
      rw [ht]; simp [csvWrite]

/-- With a writer that never fails, `WriteAuditCSV` succeeds. -/
theorem writeAuditCSV_ok {σ ω V : Type} (rd : Render) (dc : DiffCodec V) (cw : csvWriter ω)
    (hw : ∀ record o, (cw.Write record o).1 = none) (he : ∀ o, cw.Error o = none)
    (entries : Option (List domain.AuditEntryWithUser)) (w : World σ ω) :
    (csvexport.WriteAuditCSV rd dc cw entries w).1 = none := by
  have h1 : (csvWrite cw csvexport.auditCSVHeader w).1 = none := hw _ _
  simp only [csvexport.WriteAuditCSV, h1, writeRows_ok rd dc cw hw]
  exact he _

section gate
variable {σ ω V : Type}

/-- The gate of `CreateItem`. -/
theorem createItem_gate (s : service.ItemService σ) (claims : domain.AuthClaims)
    (input : domain.CreateItemInput) (w : World σ ω) :
    (((service.ItemService.CreateItem s claims input w).1.2 = some domain.ErrForbidden ∧
        (service.ItemService.CreateItem s claims input w).2.trace = w.trace) ↔
      claims.Role.CanCreate = false) ∧
    (claims.Role.CanCreate = false →
      service.ItemService.CreateItem s claims input w =
        ((none, some domain.ErrForbidden), w)) ∧
    (claims.Role.CanCreate = true →
      (s.itemRepo.Create claims.UserID input w.store).1.2 = none →
      (service.ItemService.CreateItem s claims input w).1 =
        ((s.itemRepo.Create claims.UserID input w.store).1.1, none)) := by
  cases hc : claims.Role.CanCreate with
  | false => simp [service.ItemService.CreateItem, hc]
  | true =>
    refine ⟨⟨?_, by simp⟩, by simp, ?_⟩
    · rintro ⟨_, htr⟩
      exfalso
      revert htr
      simp only [service.ItemService.CreateItem, hc, Bool.not_true, Bool.false_eq_true,
        if_false]
      split
      · split <;> exact trace_grew_ne _ [] _
      · exact trace_grew_ne _ [] _
    · intro _ hok
      simp only [service.ItemService.CreateItem, hc, Bool.not_true, Bool.false_eq_true,
        if_false, invoke_fst, hok]

/-- `GetByID` is never refused, and succeeds when the repository does. -/
theorem getByID_gate (s : service.ItemService σ) (claims : domain.AuthClaims) (id : UUID)
    (w : World σ ω) :
    (service.ItemService.GetByID s claims id w).1.2 ≠ some domain.ErrForbidden ∧
    (service.ItemService.GetByID s claims id w).2.trace = w.trace ++ [Call.itemGetByID id] ∧
    ((s.itemRepo.GetByID id w.store).1.2 = none →
      (service.ItemService.GetByID s claims id w).1 =
        ((s.itemRepo.GetByID id w.store).1.1, none)) := by
  simp only [service.ItemService.GetByID, domain.Role.CanView, Bool.not_true,
    Bool.false_eq_true, if_false]
  refine ⟨?_, ?_, ?_⟩
  · split
    · rename_i err _
      split
      · rename_i hnf
        intro h
        simp only [Option.some.injEq, Prod.mk.injEq] at h
        rw [h] at hnf
        simp [domain.ErrForbidden, domain.GoError.Is] at hnf
      · simp [domain.ErrForbidden]
    · simp
  · split
    · split <;> rfl
    · rfl
  · intro hok
    simp only [invoke_fst, hok]

/-- `ListItems` is never refused, queries the store once with the normalized
page size and the offset computed from it, and succeeds when the repository
does. -/
theorem listItems_gate (s : service.ItemService σ) (claims : domain.AuthClaims)
    (filter : domain.ItemFilter) (page pageSize : Int) (w : World σ ω) :
    (service.ItemService.ListItems s claims filter page pageSize w).1.2 ≠
      some domain.ErrForbidden ∧
    (service.ItemService.ListItems s claims filter page pageSize w).2.trace =
      w.trace ++ [Call.itemList filter (service.normalizePagination page pageSize).2
        (wrapInt64 (((service.normalizePagination page pageSize).1 - 1) *
          (service.normalizePagination page pageSize).2))] ∧
    ((s.itemRepo.List filter (service.normalizePagination page pageSize).2
        (wrapInt64 (((service.normalizePagination page pageSize).1 - 1) *
          (service.normalizePagination page pageSize).2)) w.store).1.2.2 = none →
      (service.ItemService.ListItems s claims filter page pageSize w).1.2 = none ∧
      (service.ItemService.ListItems s claims filter page pageSize w).1.1 ≠ none) := by
  simp only [service.ItemService.ListItems, domain.Role.CanView, Bool.not_true,
    Bool.false_eq_true, if_false]
  refine ⟨?_, ?_, ?_⟩
  · split <;> simp [domain.ErrForbidden]
  · split <;> rfl
  · intro hok
    simp [invoke_fst, hok]

/-- The gate of `Update`. -/
theorem update_gate (s : service.ItemService σ) (claims : domain.AuthClaims) (id : UUID)
    (input : domain.UpdateItemInput) (w : World σ ω) :
    (((service.ItemService.Update s claims id input w).1.2 = some domain.ErrForbidden ∧
        (service.ItemService.Update s claims id input w).2.trace = w.trace) ↔
      claims.Role.CanUpdate = false) ∧
    (claims.Role.CanUpdate = false →
      service.ItemService.Update s claims id input w =
        ((none, some domain.ErrForbidden), w)) ∧
    (claims.Role.CanUpdate = true → input.HasChanges = true →
      (s.itemRepo.Update claims.UserID id input w.store).1.2 = none →
      (service.ItemService.Update s claims id input w).1 =
        ((s.itemRepo.Update claims.UserID id input w.store).1.1, none)) := by
  cases hc : claims.Role.CanUpdate with
  | false => simp [service.ItemService.Update, hc]
  | true =>
    refine ⟨⟨?_, by simp⟩, by simp, ?_⟩
    · rintro ⟨herr, htr⟩
      exfalso
      cases hch : input.HasChanges with
      | false =>
        simp [service.ItemService.Update, hc, hch, domain.ErrNoChanges,
          domain.ErrForbidden] at herr
      | true =>
        rw [(update_calls_repo s claims id input w hc hch).1] at htr
        exact trace_grew_ne _ [] _ htr
    · intro _ hch hok
      simp only [service.ItemService.Update, hc, hch, Bool.not_true, Bool.false_eq_true,
        if_false, invoke_fst, hok]

/-- The gate of `Delete`. -/
theorem delete_gate (s : service.ItemService σ) (claims : domain.AuthClaims) (id : UUID)
    (w : World σ ω) :
    (((service.ItemService.Delete s claims id w).1 = some domain.ErrForbidden ∧
        (service.ItemService.Delete s claims id w).2.trace = w.trace) ↔
      claims.Role.CanDelete = false) ∧
    (claims.Role.CanDelete = false →
      service.ItemService.Delete s claims id w = (some domain.ErrForbidden, w)) ∧
    (claims.Role.CanDelete = true →
      (s.itemRepo.Delete claims.UserID id w.store).1 = none →
      (service.ItemService.Delete s claims id w).1 = none) := by
  cases hc : claims.Role.CanDelete with
  | false => simp [service.ItemService.Delete, hc]
  | true =>
    refine ⟨⟨?_, by simp⟩, by simp, ?_⟩
    · rintro ⟨_, htr⟩
      exfalso
      revert htr
      simp only [service.ItemService.Delete, hc, Bool.not_true, Bool.false_eq_true,
        if_false]
      split
      · split <;> exact trace_grew_ne _ [] _
      · exact trace_grew_ne _ [] _
    · intro _ hok
      simp only [service.ItemService.Delete, hc, Bool.not_true, Bool.false_eq_true,
        if_false, invoke_fst, hok]

/-- The gate of `AuditService.GetByItemID`. -/
theorem auditGetByItemID_gate (s : service.AuditService σ) (claims : domain.AuthClaims)
    (itemID : UUID) (w : World σ ω) :
    (((service.AuditService.GetByItemID s claims itemID w).1.2 = some domain.ErrForbidden ∧
        (service.AuditService.GetByItemID s claims itemID w).2.trace = w.trace) ↔
      claims.Role.CanViewAudit = false) ∧
    (claims.Role.CanViewAudit = false →
      service.AuditService.GetByItemID s claims itemID w =
        ((none, some domain.ErrForbidden), w)) ∧
    (claims.Role.CanViewAudit = true →
      (s.auditRepo.GetByItemID itemID w.store).1.2 = none →
      (service.AuditService.GetByItemID s claims itemID w).1 =
        (some (((s.auditRepo.GetByItemID itemID w.store).1.1).getD []), none)) := by
  cases hc : claims.Role.CanViewAudit with
  | false => simp [service.AuditService.GetByItemID, hc]
  | true =>
    refine ⟨⟨?_, by simp⟩, by simp, ?_⟩
    · rintro ⟨_, htr⟩
      exfalso
      revert htr
      simp only [service.AuditService.GetByItemID, hc, Bool.not_true, Bool.false_eq_true,
        if_false]
      split <;> exact trace_grew_ne _ [] _
    · intro _ hok
      simp only [service.AuditService.GetByItemID, hc, Bool.not_true, Bool.false_eq_true,
        if_false, invoke_fst, hok]
      cases (s.auditRepo.GetByItemID itemID w.store).1.1 <;> simp

/-- The gate of `AuditService.List`. -/
theorem auditList_gate (s : service.AuditService σ) (claims : domain.AuthClaims)
    (filter : domain.AuditFilter) (page pageSize : Int) (w : World σ ω) :
    (((service.AuditService.List s claims filter page pageSize w).1.2 =
          some domain.ErrForbidden ∧
        (service.AuditService.List s claims filter page pageSize w).2.trace = w.trace) ↔
      claims.Role.CanViewAudit = false) ∧
    (claims.Role.CanViewAudit = false →
      service.AuditService.List s claims filter page pageSize w =
        ((none, some domain.ErrForbidden), w)) ∧
    (claims.Role.CanViewAudit = true →
      (∀ a, filter.Action = some a → domain.AuditAction.IsValid a = true) →
      (s.auditRepo.List filter (service.normalizePagination page pageSize).2
        (wrapInt64 (((service.normalizePagination page pageSize).1 - 1) *
          (service.normalizePagination page pageSize).2)) w.store).1.2.2 = none →
      (service.AuditService.List s claims filter page pageSize w).1.2 = none ∧
      (service.AuditService.List s claims filter page pageSize w).1.1 ≠ none) := by
  cases hc : claims.Role.CanViewAudit with
  | false => simp [service.AuditService.List, hc]
  | true =>
    refine ⟨⟨?_, by simp⟩, by simp, ?_⟩
    · rintro ⟨herr, htr⟩
      exfalso
      revert herr htr
      simp only [service.AuditService.List, hc, Bool.not_true, Bool.false_eq_true,
        if_false]
      split
      · simp [domain.ErrValidation, domain.ErrForbidden]
      · split <;> exact fun _ htr => trace_grew_ne _ [] _ htr
    · intro _ hval hok
      have hpass : filter.Action.any (fun a => !domain.AuditAction.IsValid a) = false := by
        cases ha : filter.Action with
        | none => rfl
        | some a => simp [hval a ha]
      simp [service.AuditService.List, hc, hpass, invoke_fst, hok]

/-- The gate of `AuditService.ExportCSV`. -/
theorem exportCSV_gate (s : service.AuditService σ) (rd : Render) (dc : DiffCodec V)
    (claims : domain.AuthClaims) (filter : domain.AuditFilter) (cw : csvWriter ω)
    (w : World σ ω) :
    (((service.AuditService.ExportCSV s rd dc claims filter cw w).1 =
          some domain.ErrForbidden ∧
        (service.AuditService.ExportCSV s rd dc claims filter cw w).2.trace = w.trace) ↔
      claims.Role.CanExport = false) ∧
    (claims.Role.CanExport = false →
      service.AuditService.ExportCSV s rd dc claims filter cw w =
        (some domain.ErrForbidden, w)) ∧
    (claims.Role.CanExport = true →
      (s.auditRepo.List filter 10000 0 w.store).1.2.2 = none →
      (∀ record o, (cw.Write record o).1 = none) → (∀ o, cw.Error o = none) →
      (service.AuditService.ExportCSV s rd dc claims filter cw w).1 = none) := by
  cases hc : claims.Role.CanExport with
  | false => simp [service.AuditService.ExportCSV, hc]
  | true =>
    refine ⟨⟨?_, by simp⟩, by simp, ?_⟩
    · rintro ⟨_, htr⟩
      exfalso
      revert htr
      simp only [service.AuditService.ExportCSV, hc, Bool.not_true, Bool.false_eq_true,
        if_false]
      split
      · exact trace_grew_ne _ [] _
      · obtain ⟨t, ht⟩ := writeAuditCSV_trace rd dc cw
          (service.invoke (Call.auditList filter service.maxExportRows 0)
            (s.auditRepo.List filter service.maxExportRows 0) w).1.1
          (service.invoke (Call.auditList filter service.maxExportRows 0)
            (s.auditRepo.List filter service.maxExportRows 0) w).2
        rw [ht, invoke_trace, List.append_assoc]
        exact trace_grew_ne _ _ _
    · intro _ hok hw he
      have hok2 : (service.invoke (Call.auditList filter service.maxExportRows 0)
          (s.auditRepo.List filter service.maxExportRows 0) w).1.2.2 = none := hok
      simp only [service.AuditService.ExportCSV, hc, Bool.not_true, Bool.false_eq_true,
        if_false, hok2]
      exact writeAuditCSV_ok rd dc cw hw he _ _

end gate

/-- C2: for every claims value and every input, each gated operation returns
exactly ErrForbidden with the trace of repository and writer calls unchanged
iff the role lacks the capability (create for CreateItem, update for Update,
delete for Delete, view-audit for GetByItemID and List, export for ExportCSV),
and on denial the whole world is returned untouched; the role gate comes before
the checks of the change set and of the filter action; GetByID and ListItems
never return ErrForbidden. When the role has the capability, the input is valid
(a non-empty change set for Update, a filter action that is absent or valid for
List, an output writer that accepts what is written for ExportCSV) and the
repository call reports no error, the operation reports no error. -/
theorem C2_forbidden_gate {σ ω V : Type} (si : service.ItemService σ)
    (sa : service.AuditService σ) (rd : Render) (dc : DiffCodec V) (cw : csvWriter ω)
    (claims : domain.AuthClaims) (ci : domain.CreateItemInput) (id : UUID)
    (ui : domain.UpdateItemInput) (f : domain.ItemFilter) (af : domain.AuditFilter)
    (page pageSize : Int) (w : World σ ω) :
    ((((service.ItemService.CreateItem si claims ci w).1.2 = some domain.ErrForbidden ∧
          (service.ItemService.CreateItem si claims ci w).2.trace = w.trace) ↔
        claims.Role.CanCreate = false) ∧
      (claims.Role.CanCreate = false →
        service.ItemService.CreateItem si claims ci w =
          ((none, some domain.ErrForbidden), w)) ∧
      (claims.Role.CanCreate = true →
        (si.itemRepo.Create claims.UserID ci w.store).1.2 = none →
        (service.ItemService.CreateItem si claims ci w).1 =
          ((si.itemRepo.Create claims.UserID ci w.store).1.1, none))) ∧
    ((((service.ItemService.Update si claims id ui w).1.2 = some domain.ErrForbidden ∧
          (service.ItemService.Update si claims id ui w).2.trace = w.trace) ↔
        claims.Role.CanUpdate = false) ∧
      (claims.Role.CanUpdate = false →
        service.ItemService.Update si claims id ui w =
          ((none, some domain.ErrForbidden), w)) ∧
      (claims.Role.CanUpdate = true → ui.HasChanges = true →
        (si.itemRepo.Update claims.UserID id ui w.store).1.2 = none →
        (service.ItemService.Update si claims id ui w).1 =
          ((si.itemRepo.Update claims.UserID id ui w.store).1.1, none))) ∧
    ((((service.ItemService.Delete si claims id w).1 = some domain.ErrForbidden ∧
          (service.ItemService.Delete si claims id w).2.trace = w.trace) ↔
        claims.Role.CanDelete = false) ∧
      (claims.Role.CanDelete = false →
        service.ItemService.Delete si claims id w = (some domain.ErrForbidden, w)) ∧
      (claims.Role.CanDelete = true →
        (si.itemRepo.Delete claims.UserID id w.store).1 = none →
        (service.ItemService.Delete si claims id w).1 = none)) ∧
    ((service.ItemService.GetByID si claims id w).1.2 ≠ some domain.ErrForbidden ∧
      (service.ItemService.GetByID si claims id w).2.trace = w.trace ++ [Call.itemGetByID id] ∧
      ((si.itemRepo.GetByID id w.store).1.2 = none →
        (service.ItemService.GetByID si claims id w).1 =
          ((si.itemRepo.GetByID id w.store).1.1, none))) ∧
    ((service.ItemService.ListItems si claims f page pageSize w).1.2 ≠
        some domain.ErrForbidden ∧
      (service.ItemService.ListItems si claims f page pageSize w).2.trace =
        w.trace ++ [Call.itemList f (service.normalizePagination page pageSize).2
          (wrapInt64 (((service.normalizePagination page pageSize).1 - 1) *
            (service.normalizePagination page pageSize).2))] ∧
      ((si.itemRepo.List f (service.normalizePagination page pageSize).2
          (wrapInt64 (((service.normalizePagination page pageSize).1 - 1) *
            (service.normalizePagination page pageSize).2)) w.store).1.2.2 = none →
        (service.ItemService.ListItems si claims f page pageSize w).1.2 = none ∧
        (service.ItemService.ListItems si claims f page pageSize w).1.1 ≠ none)) ∧
    ((((service.AuditService.GetByItemID sa claims id w).1.2 = some domain.ErrForbidden ∧
          (service.AuditService.GetByItemID sa claims id w).2.trace = w.trace) ↔
        claims.Role.CanViewAudit = false) ∧
      (claims.Role.CanViewAudit = false →
        service.AuditService.GetByItemID sa claims id w =
          ((none, some domain.ErrForbidden), w)) ∧
      (claims.Role.CanViewAudit = true →
        (sa.auditRepo.GetByItemID id w.store).1.2 = none →
        (service.AuditService.GetByItemID sa claims id w).1 =
          (some (((sa.auditRepo.GetByItemID id w.store).1.1).getD []), none))) ∧
    ((((service.AuditService.List sa claims af page pageSize w).1.2 =
            some domain.ErrForbidden ∧
          (service.AuditService.List sa claims af page pageSize w).2.trace = w.trace) ↔
        claims.Role.CanViewAudit = false) ∧
      (claims.Role.CanViewAudit = false →
        service.AuditService.List sa claims af page pageSize w =
          ((none, some domain.ErrForbidden), w)) ∧
      (claims.Role.CanViewAudit = true →
        (∀ a, af.Action = some a → domain.AuditAction.IsValid a = true) →
        (sa.auditRepo.List af (service.normalizePagination page pageSize).2
          (wrapInt64 (((service.normalizePagination page pageSize).1 - 1) *
            (service.normalizePagination page pageSize).2)) w.store).1.2.2 = none →
        (service.AuditService.List sa claims af page pageSize w).1.2 = none ∧
        (service.AuditService.List sa claims af page pageSize w).1.1 ≠ none)) ∧
    ((((service.AuditService.ExportCSV sa rd dc claims af cw w).1 =
            some domain.ErrForbidden ∧
          (service.AuditService.ExportCSV sa rd dc claims af cw w).2.trace = w.trace) ↔
        claims.Role.CanExport = false) ∧
      (claims.Role.CanExport = false →
        service.AuditService.ExportCSV sa rd dc claims af cw w =
          (some domain.ErrForbidden, w)) ∧
      (claims.Role.CanExport = true →
        (sa.auditRepo.List af 10000 0 w.store).1.2.2 = none →
        (∀ record o, (cw.Write record o).1 = none) → (∀ o, cw.Error o = none) →
        (service.AuditService.ExportCSV sa rd dc claims af cw w).1 = none)) :=
  ⟨createItem_gate si claims ci w, update_gate si claims id ui w, delete_gate si claims id w,
    getByID_gate si claims id w, listItems_gate si claims f page pageSize w,
    auditGetByItemID_gate sa claims id w, auditList_gate sa claims af page pageSize w,
    exportCSV_gate sa rd dc claims af cw w⟩

/-- C2 for the collaborators of the service tests: the viewer is refused an
update with an empty change set and an export, both leaving the world
untouched, and the admin's export succeeds. -/
theorem C2_forbidden_gate_witness :
    service.ItemService.Update testdata.itemSvc testdata.viewerClaims ⟨10⟩ testdata.noChanges
        testdata.world0 = ((none, some domain.ErrForbidden), testdata.world0) ∧
    service.AuditService.ExportCSV testdata.auditSvc testdata.render testdata.diffCodec
        testdata.viewerClaims testdata.badActionFilter testdata.bufferWriter
        testdata.world0 = (some domain.ErrForbidden, testdata.world0) ∧
    (service.AuditService.ExportCSV testdata.auditSvc testdata.render testdata.diffCodec
        testdata.adminClaims testdata.emptyFilter testdata.bufferWriter
        testdata.world0).1 = none :=
  ⟨(C2_forbidden_gate testdata.itemSvc testdata.auditSvc testdata.render testdata.diffCodec
      testdata.bufferWriter testdata.viewerClaims ⟨"", "", 0, ⟨0, 0⟩, none⟩ ⟨10⟩
      testdata.noChanges ⟨none⟩ testdata.badActionFilter 1 20 testdata.world0).2.1.2.1
      (by decide),
    (C2_forbidden_gate testdata.itemSvc testdata.auditSvc testdata.render testdata.diffCodec
      testdata.bufferWriter testdata.viewerClaims ⟨"", "", 0, ⟨0, 0⟩, none⟩ ⟨10⟩
      testdata.noChanges ⟨none⟩ testdata.badActionFilter 1 20
      testdata.world0).2.2.2.2.2.2.2.2.1 (by decide),
    (C2_forbidden_gate testdata.itemSvc testdata.auditSvc testdata.render testdata.diffCodec
      testdata.bufferWriter testdata.adminClaims ⟨"", "", 0, ⟨0, 0⟩, none⟩ ⟨10⟩
      testdata.noChanges ⟨none⟩ testdata.emptyFilter 1 20
      testdata.world0).2.2.2.2.2.2.2.2.2 (by decide) rfl (fun _ _ => rfl) (fun _ => rfl)⟩

/-! ### Tokens -/

/-- Reading one written field, whatever follows it. -/
theorem getFields_putField (f rest cur : List Char) :
    testdata.getFields (testdata.putField f ++ rest) false cur =
      (cur.reverse ++ f) :: testdata.getFields rest false [] := by
  induction f generalizing cur with
  | nil => simp [testdata.putField, testdata.getFields]
  | cons c cs ih =>
    have h10 : ('1' : Char) ≠ '0' := by decide
    simp [testdata.putField, testdata.getFields, h10, ih]

/-- Reading written fields gives them back. -/
theorem getFields_putFields (fs : List (List Char)) :
    testdata.getFields (testdata.putFields fs) false [] = fs := by
  induction fs with
  | nil => rfl
  | cons f fs ih => simp [testdata.putFields, getFields_putField, ih]

/-- A signed number survives the wire. -/
theorem getInt_putInt (z : Int) : testdata.getInt (testdata.putInt z) = z := by
  have hpm : ('+' : Char) ≠ '-' := by decide
  by_cases hz : z < 0
  · simp only [testdata.putInt, hz, if_true, testdata.getInt, List.length_replicate]
    omega
  · simp only [testdata.putInt, hz, if_false, testdata.getInt, hpm, List.length_replicate]
    omega

/-- An optional instant survives the wire. -/
theorem getTime_putTime (t : Option Time) :
    testdata.getTime (testdata.putTime t) = t := by
  cases t with
  | none => rfl
  | some z =>
    have h := getInt_putInt z
    simp only [testdata.putInt] at h
    simp only [testdata.putTime, testdata.putInt, testdata.getTime, h]

/-- The small library decodes what it encodes. -/
theorem testlib_decode_encode (alg : String) (c : auth.jwtClaims) (sig : String) :
    testdata.lib.jwt.decode (testdata.lib.jwt.encode alg c sig) = some (alg, c, sig) := by
  show testdata.decodeToken (testdata.encodeToken alg c sig) = _
  simp only [testdata.decodeToken, testdata.encodeToken, getFields_putFields,
    getTime_putTime]

/-- The small library parses the identifiers it prints. -/
theorem testlib_uuid (u : UUID) :
    testdata.lib.uuidParse (testdata.lib.uuidString u) = some u := by
  show some (UUID.mk (List.replicate u.val 'u').length) = some u
  rw [List.length_replicate]

/-- `ParseRole` accepts a role of the enumeration and returns it. -/
theorem parseRole_valid (r : domain.Role) (h : domain.Role.IsValid r = true) :
    domain.ParseRole r = (r, none) := by
  simp [domain.ParseRole, h]

/-- The outcome of validating, at the instant `t`, a token that the same
manager issued at the instant `now`, over a library that decodes what it
encodes and parses the identifiers it prints: success with the user's identity
exactly while `t` lies before the recorded expiry. -/
theorem validate_generated (lib : auth.Lib) (m : auth.Manager) (user : domain.User)
    (now t : Time)
    (hcodec : ∀ alg c sig, lib.jwt.decode (lib.jwt.encode alg c sig) = some (alg, c, sig))
    (huuid : ∀ u, lib.uuidParse (lib.uuidString u) = some u)
    (hrole : domain.Role.IsValid user.Role = true) :
    auth.Manager.Validate lib m t (auth.Manager.GenerateJWT lib m now user).1 =
      if t < jwt.NewNumericDate (now + m.tokenTTL) then
        (some { UserID := user.ID, Username := user.Username, Role := user.Role }, none)
      else (none, some domain.ErrTokenInvalid) := by
  have hreg : jwt.isRegistered "HS256" = true := by decide
  have hhmac : jwt.isHMAC "HS256" = true := by decide
  by_cases ht : t < jwt.NewNumericDate (now + m.tokenTTL)
  · simp [auth.Manager.Validate, auth.Manager.GenerateJWT, jwt.SignedString,
      jwt.ParseWithClaims, hcodec, hreg, hhmac, auth.Manager.keyFunc, jwt.validate, ht,
      parseRole_valid _ hrole, huuid]
  · simp [auth.Manager.Validate, auth.Manager.GenerateJWT, jwt.SignedString,
      jwt.ParseWithClaims, hcodec, hreg, hhmac, auth.Manager.keyFunc, jwt.validate, ht]

/-- C10: for every manager, instant and input string, `Validate` returns
either claims with no error or no claims with exactly ErrTokenInvalid; so its
error is never ErrTokenExpired, never a wrapped cause and never an error of
the token library. -/
theorem C10_validate_single_error (lib : auth.Lib) (m : auth.Manager) (now : Time)
    (tokenStr : String) :
    ((∃ c : domain.AuthClaims,
        auth.Manager.Validate lib m now tokenStr = (some c, none)) ∨
      auth.Manager.Validate lib m now tokenStr = (none, some domain.ErrTokenInvalid)) ∧
    (auth.Manager.Validate lib m now tokenStr).2 ≠ some domain.ErrTokenExpired ∧
    (∀ msg e, (auth.Manager.Validate lib m now tokenStr).2 ≠ some (.wrap msg e)) ∧
    (∀ msg, (auth.Manager.Validate lib m now tokenStr).2 ≠ some (.foreign msg)) := by
  have key : (∃ c : domain.AuthClaims,
        auth.Manager.Validate lib m now tokenStr = (some c, none)) ∨
      auth.Manager.Validate lib m now tokenStr = (none, some domain.ErrTokenInvalid) := by
    unfold auth.Manager.Validate
    split
    · exact Or.inr rfl
    · exact Or.inr rfl
    · split
      · exact Or.inr rfl
      · split
        · exact Or.inr rfl
        · split
          · exact Or.inr rfl
          · exact Or.inl ⟨_, rfl⟩
  refine ⟨key, ?_, ?_, ?_⟩
  · rcases key with ⟨c, h⟩ | h <;> rw [h] <;> simp [domain.ErrTokenInvalid, domain.ErrTokenExpired]
  · intro msg e
    rcases key with ⟨c, h⟩ | h <;> rw [h] <;> simp [domain.ErrTokenInvalid]
  · intro msg
    rcases key with ⟨c, h⟩ | h <;> rw [h] <;> simp [domain.ErrTokenInvalid]

/-- C9 (as stated, refuted): with a token lifetime of one second, a token
issued half a second after a whole second records the expiry one second
later rounded down, that is half a second after issuance; validated 0.7 s
after issuance, within the lifetime, it is rejected. -/
theorem C9_counterexample :
    domain.Role.IsValid testdata.admin.Role = true ∧
    testdata.manager1s.tokenTTL = 1000000000 ∧
    (500000000 : Time) ≤ 1200000000 ∧
    (1200000000 : Time) < 500000000 + testdata.manager1s.tokenTTL ∧
    auth.Manager.Validate testdata.lib testdata.manager1s 1200000000
        (auth.Manager.GenerateJWT testdata.lib testdata.manager1s 500000000
          testdata.admin).1 = (none, some domain.ErrTokenInvalid) := by
  refine ⟨by decide, rfl, by decide, by decide, ?_⟩
  rw [validate_generated testdata.lib testdata.manager1s testdata.admin 500000000 1200000000
    testlib_decode_encode testlib_uuid (by decide)]
  decide

/-- C9 (amended): for every secret, every TTL and every user whose role is
in the enumeration, over a token library that decodes what it encodes and
parses the identifiers it prints, issuing succeeds and validating the token
with the same manager at any instant before the recorded expiry (issuance
plus TTL, rounded down to a whole second) succeeds and returns the user's id,
username and role; every instant at least one second short of issuance plus
TTL is such an instant. -/
theorem C9_roundtrip_amended (lib : auth.Lib) (m : auth.Manager) (user : domain.User)
    (now t : Time)
    (hcodec : ∀ alg c sig, lib.jwt.decode (lib.jwt.encode alg c sig) = some (alg, c, sig))
    (huuid : ∀ u, lib.uuidParse (lib.uuidString u) = some u)
    (hrole : domain.Role.IsValid user.Role = true)
    (ht : t < jwt.NewNumericDate (now + m.tokenTTL)) :
    (auth.Manager.GenerateJWT lib m now user).2 = none ∧
    auth.Manager.Validate lib m t (auth.Manager.GenerateJWT lib m now user).1 =
      (some { UserID := user.ID, Username := user.Username, Role := user.Role }, none) ∧
    (∀ t2 : Time, t2 + jwt.TimePrecision ≤ now + m.tokenTTL →
      auth.Manager.Validate lib m t2 (auth.Manager.GenerateJWT lib m now user).1 =
        (some { UserID := user.ID, Username := user.Username, Role := user.Role }, none)) := by
  refine ⟨rfl, ?_, ?_⟩
  · rw [validate_generated lib m user now t hcodec huuid hrole, if_pos ht]
  · intro t2 h2
    have hlt : t2 < jwt.NewNumericDate (now + m.tokenTTL) := by
      have aux : ∀ a b : Int, a + 1000000000 ≤ b → a < b - b % 1000000000 := by
        intro a b h
        omega
      exact aux t2 (now + m.tokenTTL) h2
    rw [validate_generated lib m user now t2 hcodec huuid hrole, if_pos hlt]

/-- C9 (amended) for the admin of the auth tests and a lifetime of one second:
issued at 0.5 s and validated at 0.9 s, before the recorded expiry at 1 s. -/
theorem C9_roundtrip_amended_witness :
    domain.Role.IsValid testdata.admin.Role = true ∧
    (900000000 : Time) < jwt.NewNumericDate (500000000 + testdata.manager1s.tokenTTL) ∧
    auth.Manager.Validate testdata.lib testdata.manager1s 900000000
        (auth.Manager.GenerateJWT testdata.lib testdata.manager1s 500000000
          testdata.admin).1 =
      (some { UserID := ⟨1⟩, Username := "admin", Role := "admin" }, none) :=
  ⟨by decide, by decide,
    (C9_roundtrip_amended testdata.lib testdata.manager1s testdata.admin 500000000 900000000
      testlib_decode_encode testlib_uuid (by decide) (by decide)).2.1⟩

/-! ### What `Validate` rejects -/

/-- `ParseRole` succeeds exactly on the three role names. -/
theorem parseRole_ok_iff (s : String) :
    (domain.ParseRole s).2 = none ↔ (s = "admin" ∨ s = "manager" ∨ s = "viewer") := by
  by_cases h : s = "admin" ∨ s = "manager" ∨ s = "viewer"
  · simp [domain.ParseRole, domain.Role.IsValid, domain.RoleAdmin, domain.RoleManager,
      domain.RoleViewer, h]
  · simp [domain.ParseRole, domain.Role.IsValid, domain.RoleAdmin, domain.RoleManager,
      domain.RoleViewer, h]

/-- When `Validate` succeeds, the token decoded, its method is of the HMAC
family, its signature is the HMAC under the manager's secret, its expiry (if
any) lies ahead, and the returned role is the role of the claims, parsed. -/
theorem validate_ok_inv (lib : auth.Lib) (m : auth.Manager) (now : Time) (tokenStr : String)
    (c : domain.AuthClaims)
    (h : auth.Manager.Validate lib m now tokenStr = (some c, none)) :
    ∃ alg cl sig, lib.jwt.decode tokenStr = some (alg, cl, sig) ∧
      jwt.isHMAC alg = true ∧ sig = lib.jwt.mac alg m.secret cl ∧
      (∀ exp, cl.ExpiresAt = some exp → now < exp) ∧
      domain.ParseRole cl.Role = (c.Role, none) := by
  unfold auth.Manager.Validate jwt.ParseWithClaims at h
  cases hd : lib.jwt.decode tokenStr with
  | none => simp [hd] at h
  | some v =>
    obtain ⟨alg, cl, sig⟩ := v
    refine ⟨alg, cl, sig, rfl, ?_⟩
    simp only [hd] at h
    cases hreg : jwt.isRegistered alg with
    | false => simp [hreg] at h
    | true =>
      cases hh : jwt.isHMAC alg with
      | false => simp [hreg, hh, auth.Manager.keyFunc] at h
      | true =>
        by_cases hsig : lib.jwt.mac alg m.secret cl = sig
        · cases hv : jwt.validate now cl.toRegisteredClaims with
          | some e => simp [hreg, hh, auth.Manager.keyFunc, hsig, hv] at h
          | none =>
            refine ⟨rfl, hsig.symm, ?_, ?_⟩
            · intro exp hexp
              by_contra hlt
              simp [jwt.validate, hexp, hlt] at hv
            · simp only [hreg, hh, auth.Manager.keyFunc, hsig, hv, Bool.not_true,
                Bool.false_eq_true, if_false, bne_self_eq_false] at h
              cases hp : domain.ParseRole cl.Role with
              | mk role err =>
                cases err with
                | some e => simp [hp] at h
                | none =>
                  cases hu : lib.uuidParse cl.UserID with
                  | none => simp [hp, hu] at h
                  | some uid =>
                    simp [hp, hu] at h
                    rw [← h]
        · simp [hreg, hh, auth.Manager.keyFunc, hsig] at h

/-- A string that does not decode is rejected. -/
theorem validate_malformed (lib : auth.Lib) (m : auth.Manager) (now : Time)
    (tokenStr : String) (h : lib.jwt.decode tokenStr = none) :
    auth.Manager.Validate lib m now tokenStr = (none, some domain.ErrTokenInvalid) := by
  simp [auth.Manager.Validate, jwt.ParseWithClaims, h]

/-- A token whose header names a method outside the HMAC family is rejected. -/
theorem validate_non_hmac (lib : auth.Lib) (m : auth.Manager) (now : Time)
    (tokenStr alg sig : String) (cl : auth.jwtClaims)
    (hd : lib.jwt.decode tokenStr = some (alg, cl, sig)) (hh : jwt.isHMAC alg = false) :
    auth.Manager.Validate lib m now tokenStr = (none, some domain.ErrTokenInvalid) := by
  cases hreg : jwt.isRegistered alg <;>
    simp [auth.Manager.Validate, jwt.ParseWithClaims, hd, hreg, hh, auth.Manager.keyFunc]

/-- A token issued under a secret whose HMAC differs is rejected, at any time. -/
theorem validate_other_secret (lib : auth.Lib) (m1 m2 : auth.Manager) (user : domain.User)
    (now t : Time)
    (hcodec : ∀ alg c sig, lib.jwt.decode (lib.jwt.encode alg c sig) = some (alg, c, sig))
    (hsep : ∀ c, lib.jwt.mac "HS256" m2.secret c ≠ lib.jwt.mac "HS256" m1.secret c) :
    auth.Manager.Validate lib m2 t (auth.Manager.GenerateJWT lib m1 now user).1 =
      (none, some domain.ErrTokenInvalid) := by
  have hreg : jwt.isRegistered "HS256" = true := by decide
  have hhmac : jwt.isHMAC "HS256" = true := by decide
  simp [auth.Manager.Validate, auth.Manager.GenerateJWT, jwt.SignedString,
    jwt.ParseWithClaims, hcodec, hreg, hhmac, auth.Manager.keyFunc, hsep]

/-- A token issued by the manager is rejected from its recorded expiry on,
whatever the role of the user. -/
theorem validate_expired (lib : auth.Lib) (m : auth.Manager) (user : domain.User)
    (now t : Time)
    (hcodec : ∀ alg c sig, lib.jwt.decode (lib.jwt.encode alg c sig) = some (alg, c, sig))
    (ht : jwt.NewNumericDate (now + m.tokenTTL) ≤ t) :
    auth.Manager.Validate lib m t (auth.Manager.GenerateJWT lib m now user).1 =
      (none, some domain.ErrTokenInvalid) := by
  have hreg : jwt.isRegistered "HS256" = true := by decide
  have hhmac : jwt.isHMAC "HS256" = true := by decide
  have hnot : ¬ t < jwt.NewNumericDate (now + m.tokenTTL) := not_lt.mpr ht
  simp [auth.Manager.Validate, auth.Manager.GenerateJWT, jwt.SignedString,
    jwt.ParseWithClaims, hcodec, hreg, hhmac, auth.Manager.keyFunc, jwt.validate, hnot]

/-- The recorded expiry never lies after issuance plus TTL. -/
theorem newNumericDate_le (x : Time) : jwt.NewNumericDate x ≤ x := by
  have aux : ∀ a : Int, a - a % 1000000000 ≤ a := by
    intro a
    omega
  exact aux x

/-- The tag of the small library tells secrets apart. -/
theorem testlib_tag_separates (alg k1 k2 : String) (c : auth.jwtClaims) (h : k1 ≠ k2) :
    testdata.lib.jwt.mac alg k1 c ≠ testdata.lib.jwt.mac alg k2 c := by
  intro heq
  apply h
  have hd := congrArg String.data heq
  simp only [testdata.lib, testdata.tag, String.data_append, List.append_assoc] at hd
  have h1 := List.append_cancel_left hd
  have h2 : k1.data ++ ("/".data ++ (c.UserID.data ++ ("/".data ++ (c.Username.data ++
      ("/".data ++ c.Role.data))))) = k2.data ++ ("/".data ++ (c.UserID.data ++ ("/".data ++
      (c.Username.data ++ ("/".data ++ c.Role.data))))) := List.append_cancel_left h1
  exact String.ext (List.append_cancel_right h2)

/-- C12: `ParseRole` returns its argument with no error iff the argument is
exactly admin, manager or viewer (case-sensitively: Admin and the empty string
are rejected); for every other string it returns the empty role and an error;
so `Validate` never returns claims with a role outside the enumeration, and
each of the three roles parses to itself. -/
theorem C12_parseRole (s : String) :
    (domain.ParseRole s = (s, none) ↔ (s = "admin" ∨ s = "manager" ∨ s = "viewer")) ∧
    ((domain.ParseRole s).2 = none ↔ (s = "admin" ∨ s = "manager" ∨ s = "viewer")) ∧
    (¬ (s = "admin" ∨ s = "manager" ∨ s = "viewer") →
      (domain.ParseRole s).1 = "" ∧ (domain.ParseRole s).2 ≠ none) ∧
    ((domain.ParseRole "Admin").1 = "" ∧ (domain.ParseRole "Admin").2 ≠ none) ∧
    ((domain.ParseRole "").1 = "" ∧ (domain.ParseRole "").2 ≠ none) ∧
    (∀ (lib : auth.Lib) (m : auth.Manager) (now : Time) (tokenStr : String)
        (c : domain.AuthClaims),
      auth.Manager.Validate lib m now tokenStr = (some c, none) →
        (c.Role = domain.RoleAdmin ∨ c.Role = domain.RoleManager ∨
          c.Role = domain.RoleViewer)) ∧
    domain.ParseRole domain.RoleAdmin = (domain.RoleAdmin, none) ∧
    domain.ParseRole domain.RoleManager = (domain.RoleManager, none) ∧
    domain.ParseRole domain.RoleViewer = (domain.RoleViewer, none) := by
  have hbad : ∀ x : String, ¬ (x = "admin" ∨ x = "manager" ∨ x = "viewer") →
      (domain.ParseRole x).1 = "" ∧ (domain.ParseRole x).2 ≠ none := by
    intro x hx
    simp [domain.ParseRole, domain.Role.IsValid, domain.RoleAdmin, domain.RoleManager,
      domain.RoleViewer, hx]
  have hgood : ∀ x : String, (x = "admin" ∨ x = "manager" ∨ x = "viewer") →
      domain.ParseRole x = (x, none) := by
    intro x hx
    simp [domain.ParseRole, domain.Role.IsValid, domain.RoleAdmin, domain.RoleManager,
      domain.RoleViewer, hx]
  refine ⟨⟨?_, hgood s⟩, parseRole_ok_iff s, hbad s, hbad "Admin" (by decide),
    hbad "" (by decide), ?_, hgood _ (Or.inl rfl), hgood _ (Or.inr (Or.inl rfl)),
    hgood _ (Or.inr (Or.inr rfl))⟩
  · intro h
    exact (parseRole_ok_iff s).1 (by rw [h])
  · intro lib m now tokenStr c hc
    obtain ⟨alg, cl, sig, _, _, _, _, hrole⟩ := validate_ok_inv lib m now tokenStr c hc
    have hok : (domain.ParseRole cl.Role).2 = none := by rw [hrole]
    have hval := (parseRole_ok_iff cl.Role).1 hok
    have hsame : domain.ParseRole cl.Role = (cl.Role, none) := hgood _ hval
    have hc2 : c.Role = cl.Role := by
      rw [hrole] at hsame
      exact (Prod.mk.inj hsame).1
    rw [hc2]
    exact hval

/-! ### Errors to statuses -/

/-- The kind at the base of an error's `%w` chain, if it has one. -/
theorem goError_is_unique (e : domain.GoError) (k1 k2 : domain.Sentinel)
    (h1 : e.Is k1 = true) (h2 : e.Is k2 = true) : k1 = k2 := by
  induction e with
  | sentinel k =>
    simp only [domain.GoError.Is, decide_eq_true_eq] at h1 h2
    rw [← h1, ← h2]
  | wrap msg inner ih => exact ih h1 h2
  | foreign msg => simp [domain.GoError.Is] at h1
  | pq code message => simp [domain.GoError.Is] at h1
  | sqlNoRows => simp [domain.GoError.Is] at h1

/-- The switch picks the first kind of the order that answers yes, whatever
the answers are (also for an error that wraps several kinds). -/
theorem mapErrorBy_first (is : domain.Sentinel → Bool) :
    handler.mapErrorBy is =
      (match handler.kindOrder.find? is with
        | some k => handler.kindResponse k
        | none => (500, "internal server error")) := by
  unfold handler.mapErrorBy handler.kindOrder
  simp only [List.find?]
  cases is .NotFound <;> cases is .Forbidden <;> cases is .InvalidCredentials <;>
    cases is .TokenInvalid <;> cases is .TokenExpired <;> cases is .DuplicateSKU <;>
    cases is .AlreadyExists <;> cases is .NoChanges <;> cases is .Validation <;> rfl

/-- `mapError` on an error that is or wraps the kind `k`. -/
theorem mapError_of_is (e : domain.GoError) (k : domain.Sentinel) (h : e.Is k = true) :
    handler.mapError e = handler.kindResponse k := by
  have hother : ∀ k2, k2 ≠ k → e.Is k2 = false := by
    intro k2 hne
    cases h2 : e.Is k2 with
    | false => rfl
    | true => exact absurd (goError_is_unique e k2 k h2 h) hne
  cases k <;>
    simp [handler.mapError, handler.mapErrorBy, handler.kindResponse, h, hother,
      handler.StatusNotFound, handler.StatusForbidden, handler.StatusUnauthorized,
      handler.StatusConflict, handler.StatusBadRequest]

/-- C15: for every error, `mapError` returns the status and fixed message of
the first kind, in the order NotFound, Forbidden, InvalidCredentials,
TokenInvalid, TokenExpired, DuplicateSKU, AlreadyExists, NoChanges,
Validation, that the error is or wraps, and (500, internal server error) when
it is or wraps none; the message is one of ten constants fixed by the kind;
wrapping a kind with context does not change the result. The first conjunct
holds for any answers of `errors.Is`, the rest for every error value. -/
theorem C15_mapError (is : domain.Sentinel → Bool) (e : domain.GoError) :
    handler.mapErrorBy is =
      (match handler.kindOrder.find? is with
        | some k => handler.kindResponse k
        | none => (500, "internal server error")) ∧
    handler.mapError e =
      (match handler.kindOrder.find? (fun k => e.Is k) with
        | some k => handler.kindResponse k
        | none => (500, "internal server error")) ∧
    ((∀ k, e.Is k = false) → handler.mapError e = (500, "internal server error")) ∧
    (handler.mapError e).2 ∈ handler.messages ∧
    (∀ k, e.Is k = true → handler.mapError e = handler.kindResponse k) ∧
    (∀ k, handler.mapError (.sentinel k) = handler.kindResponse k) ∧
    (∀ op, handler.mapError (.wrap op e) = handler.mapError e) ∧
    (∀ msg, handler.mapError (.foreign msg) = (500, "internal server error")) ∧
    handler.kindOrder.map handler.kindResponse =
      [(404, "not found"), (403, "insufficient permissions"), (401, "invalid credentials"),
        (401, "invalid token"), (401, "token expired"),
        (409, "item with this SKU already exists"), (409, "already exists"),
        (400, "no changes provided"), (400, "validation error")] := by
  have hfirst := mapErrorBy_first (fun k => e.Is k)
  have hnone : (∀ k, e.Is k = false) → handler.mapError e = (500, "internal server error") := by
    intro h
    simp [handler.mapError, handler.mapErrorBy, h, handler.StatusInternalServerError]
  refine ⟨mapErrorBy_first is, hfirst, hnone, ?_, mapError_of_is e, ?_, fun _ => rfl,
    fun _ => rfl, rfl⟩
  · by_cases hk : ∃ k, e.Is k = true
    · obtain ⟨k, hk⟩ := hk
      rw [mapError_of_is e k hk]
      cases k <;> simp [handler.kindResponse, handler.messages]
    · have hall : ∀ k, e.Is k = false := by
        intro k
        cases h : e.Is k with
        | false => rfl
        | true => exact absurd ⟨k, h⟩ hk
      rw [hnone hall]
      simp [handler.messages]
  · intro k
    exact mapError_of_is (.sentinel k) k (by simp [domain.GoError.Is])

/-! ### Diffs -/

/-- C16: `ParseDiff` returns an error iff the diff is non-empty, is not the
literal null, and does not decode; for a zero-length diff and for the literal
null it returns no changes and no error; the text `not json` is an error for
the decoder of the tests. -/
theorem C16_parseDiff_error_iff {V : Type} (dc : DiffCodec V) (a : domain.AuditEntry) :
    ((domain.AuditEntry.ParseDiff dc a).2 ≠ none ↔
      (a.Diff.length ≠ 0 ∧ a.Diff ≠ "null" ∧ ∃ err, dc.Unmarshal a.Diff = .error err)) ∧
    (∀ err, dc.Unmarshal a.Diff = .error err → a.Diff.length ≠ 0 → a.Diff ≠ "null" →
      domain.AuditEntry.ParseDiff dc a = (none, some err)) ∧
    (a.Diff.length = 0 → domain.AuditEntry.ParseDiff dc a = (none, none)) ∧
    (a.Diff = "null" → domain.AuditEntry.ParseDiff dc a = (none, none)) ∧
    (domain.AuditEntry.ParseDiff testdata.jsonCodec
        (testdata.entryWithDiff 1 "not json").toAuditEntry).2 ≠ none ∧
    domain.AuditEntry.ParseDiff testdata.jsonCodec
        (testdata.entryWithDiff 1 "").toAuditEntry = (none, none) ∧
    domain.AuditEntry.ParseDiff testdata.jsonCodec
        (testdata.entryWithDiff 1 "null").toAuditEntry = (none, none) := by
  refine ⟨?_, ?_, ?_, ?_, by decide, by decide, by decide⟩
  · by_cases h0 : a.Diff.length = 0
    · simp [domain.AuditEntry.ParseDiff, h0]
    · by_cases hn : a.Diff = "null"
      · simp [domain.AuditEntry.ParseDiff, hn]
      · cases hd : dc.Unmarshal a.Diff with
        | error err => simp [domain.AuditEntry.ParseDiff, h0, hn, hd]
        | ok fields => simp [domain.AuditEntry.ParseDiff, h0, hn, hd]
  · intro err hd h0 hn
    simp [domain.AuditEntry.ParseDiff, h0, hn, hd]
  · intro h0
    simp [domain.AuditEntry.ParseDiff, h0]
  · intro hn
    simp [domain.AuditEntry.ParseDiff, hn]

/-- C17: for a diff that decodes to an object with n distinct field names,
each with an old and a new value, `ParseDiff` succeeds and returns exactly n
changes, one per field name, each carrying that field's old value as OldValue
and its new value as NewValue. -/
theorem C17_parseDiff_fields {V : Type} (dc : DiffCodec V) (a : domain.AuditEntry)
    (fields : List (String × V × V))
    (hne : a.Diff.length ≠ 0) (hnull : a.Diff ≠ "null")
    (hdec : dc.Unmarshal a.Diff = .ok fields)
    (hdistinct : (fields.map (fun fv => fv.1)).Nodup) :
    ∃ changes : List (domain.FieldChange V),
      domain.AuditEntry.ParseDiff dc a = (some changes, none) ∧
      changes.length = fields.length ∧
      changes.map (fun c => c.Field) = fields.map (fun fv => fv.1) ∧
      (changes.map (fun c => c.Field)).Nodup ∧
      (∀ name, name ∈ fields.map (fun fv => fv.1) →
        (changes.filter (fun c => c.Field = name)).length = 1) ∧
      (∀ name old new, (name, old, new) ∈ fields ↔
        ({ Field := name, OldValue := old, NewValue := new } : domain.FieldChange V) ∈
          changes) := by
  refine ⟨fields.map fun fv => { Field := fv.1, OldValue := fv.2.1, NewValue := fv.2.2 },
    ?_, ?_, ?_, ?_, ?_, ?_⟩
  · simp [domain.AuditEntry.ParseDiff, hne, hnull, hdec]
  · simp
  · simp [List.map_map, Function.comp_def]
  · simpa [List.map_map, Function.comp_def] using hdistinct
  · intro name hname
    have hcount : (fields.map (fun fv => fv.1)).count name = 1 :=
      List.count_eq_one_of_mem hdistinct hname
    rw [List.filter_map, List.length_map]
    rw [List.count, List.countP_map, List.countP_eq_length_filter] at hcount
    rw [← hcount]
    congr 1
  · intro name old new
    constructor
    · intro h
      exact List.mem_map.2 ⟨(name, old, new), h, rfl⟩
    · intro h
      obtain ⟨⟨n2, o2, w2⟩, hm, heq⟩ := List.mem_map.1 h
      simp only [domain.FieldChange.mk.injEq] at heq
      obtain ⟨h1, h2, h3⟩ := heq
      subst h1 h2 h3
      exact hm

/-- C17 on the diff of the test: exactly two changes, the one for name
reporting Laptop and Gaming Laptop, the one for price 999 and 1299. -/
theorem C17_parseDiff_fields_witness :
    testdata.laptopDiff.length ≠ 0 ∧ testdata.laptopDiff ≠ "null" ∧
    ∃ changes : List (domain.FieldChange testdata.Value),
      domain.AuditEntry.ParseDiff testdata.jsonCodec
          (testdata.entryWithDiff 1 testdata.laptopDiff).toAuditEntry = (some changes, none) ∧
      changes.length = 2 ∧
      ({ Field := "name", OldValue := .str "Laptop", NewValue := .str "Gaming Laptop" } :
          domain.FieldChange testdata.Value) ∈ changes ∧
      ({ Field := "price", OldValue := .num 999, NewValue := .num 1299 } :
          domain.FieldChange testdata.Value) ∈ changes := by
  refine ⟨by decide, by decide, ?_⟩
  obtain ⟨changes, h1, h2, _, _, _, h6⟩ :=
    C17_parseDiff_fields testdata.jsonCodec
      (testdata.entryWithDiff 1 testdata.laptopDiff).toAuditEntry
      [("name", .str "Laptop", .str "Gaming Laptop"), ("price", .num 999, .num 1299)]
      (by decide) (by decide) rfl (by decide)
  exact ⟨changes, h1, h2, (h6 _ _ _).1 (by decide), (h6 _ _ _).1 (by decide)⟩

/-- Appending to a non-empty text leaves it non-empty. -/
theorem append_ne_empty_left (a b : String) (h : a ≠ "") : a ++ b ≠ "" := by
  intro hab
  apply h
  have hl := congrArg String.length hab
  rw [String.length_append] at hl
  have h0 : a.length = 0 := by
    have : ("" : String).length = 0 := rfl
    omega
  exact String.ext (by
    have := List.length_eq_zero.1 (show a.data.length = 0 from h0)
    rw [this])

/-- Appending a non-empty text gives a non-empty text. -/
theorem append_ne_empty_right (a b : String) (h : b ≠ "") : a ++ b ≠ "" := by
  intro hab
  apply h
  have hl := congrArg String.length hab
  rw [String.length_append] at hl
  have h0 : b.length = 0 := by
    have : ("" : String).length = 0 := rfl
    omega
  exact String.ext (by
    have := List.length_eq_zero.1 (show b.data.length = 0 from h0)
    rw [this])

/-- The loop of `formatDiff`, started on a non-empty text, joins like
`String.intercalate`. -/
theorem joinLoop_go (acc : String) (hacc : acc ≠ "") (l : List String) :
    l.foldl (fun result p => (if result != "" then result ++ "; " else result) ++ p) acc =
      String.intercalate.go acc "; " l := by
  induction l generalizing acc with
  | nil => rfl
  | cons p ps ih =>
    simp only [List.foldl_cons, String.intercalate.go]
    have h1 : (acc != "") = true := by simpa using hacc
    simp only [h1, if_true]
    exact ih _ (append_ne_empty_left _ _ (append_ne_empty_left _ _ hacc))

/-- The loop of `formatDiff` over non-empty pairs is the pairs joined by `; `. -/
theorem joinLoop_eq_intercalate (l : List String) (hne : ∀ p ∈ l, p ≠ "") :
    l.foldl (fun result p => (if result != "" then result ++ "; " else result) ++ p) "" =
      "; ".intercalate l := by
  cases l with
  | nil => rfl
  | cons p ps =>
    simp only [List.foldl_cons, String.intercalate]
    have h1 : (("" : String) != "") = false := by decide
    simp only [h1, Bool.false_eq_true, if_false, String.empty_append]
    exact joinLoop_go p (hne p (List.mem_cons_self _ _)) ps

/-- The text of `formatDiff` on a diff that decodes to `fields`. -/
theorem formatDiff_decoded {V : Type} (dc : DiffCodec V) (raw : RawMessage)
    (fields : List (String × V × V)) (hne : raw.length ≠ 0) (hnull : raw ≠ "null")
    (hdec : dc.Unmarshal raw = .ok fields) :
    csvexport.formatDiff dc raw =
      "; ".intercalate (fields.map fun fv =>
        fv.1 ++ ": " ++ dc.Sprintv fv.2.1 ++ " -> " ++ dc.Sprintv fv.2.2) := by
  have hpair : ∀ p ∈ fields.map (fun fv : String × V × V =>
      fv.1 ++ ": " ++ dc.Sprintv fv.2.1 ++ " -> " ++ dc.Sprintv fv.2.2), p ≠ "" := by
    intro p hp
    obtain ⟨fv, _, rfl⟩ := List.mem_map.1 hp
    exact append_ne_empty_left _ _ (append_ne_empty_left _ _ (append_ne_empty_left _ _
      (append_ne_empty_right _ _ (by decide))))
  rw [← joinLoop_eq_intercalate _ hpair, List.foldl_map]
  simp [csvexport.formatDiff, hne, hnull, hdec]

/-- C18: for a diff that decodes to n fields, `formatDiff` renders exactly n
pairs `field: old -> new`, one per field, joined by `; ` (no leading or
trailing separator); for a zero-length diff, the literal null and a diff with
zero fields it returns the empty text; the diff name A to B renders as
`name: A -> B`. -/
theorem C18_formatDiff {V : Type} (dc : DiffCodec V) (raw : RawMessage)
    (fields : List (String × V × V)) :
    (raw.length ≠ 0 → raw ≠ "null" → dc.Unmarshal raw = .ok fields →
      csvexport.formatDiff dc raw =
          "; ".intercalate (fields.map fun fv =>
            fv.1 ++ ": " ++ dc.Sprintv fv.2.1 ++ " -> " ++ dc.Sprintv fv.2.2) ∧
        (fields.map fun fv =>
            fv.1 ++ ": " ++ dc.Sprintv fv.2.1 ++ " -> " ++ dc.Sprintv fv.2.2).length =
          fields.length) ∧
    (raw.length = 0 → csvexport.formatDiff dc raw = "") ∧
    csvexport.formatDiff dc "null" = "" ∧
    csvexport.formatDiff dc "" = "" ∧
    (dc.Unmarshal raw = .ok [] → csvexport.formatDiff dc raw = "") ∧
    csvexport.formatDiff testdata.jsonCodec testdata.renameDiff = "name: A -> B" ∧
    csvexport.formatDiff testdata.jsonCodec testdata.laptopDiff =
      "name: Laptop -> Gaming Laptop; price: 999 -> 1299" := by
  refine ⟨?_, ?_, ?_, ?_, ?_, ?_, ?_⟩
  · intro hne hnull hdec
    exact ⟨formatDiff_decoded dc raw fields hne hnull hdec, by simp⟩
  · intro h0
    simp [csvexport.formatDiff, h0]
  · simp [csvexport.formatDiff]
  · simp [csvexport.formatDiff]
  · intro hdec
    by_cases h : raw.length = 0 ∨ raw = "null"
    · simp [csvexport.formatDiff, h]
    · simp [csvexport.formatDiff, h, hdec]
  · rw [formatDiff_decoded testdata.jsonCodec testdata.renameDiff
      [("name", .str "A", .str "B")] (by decide) (by decide) rfl]
    decide
  · rw [formatDiff_decoded testdata.jsonCodec testdata.laptopDiff
      [("name", .str "Laptop", .str "Gaming Laptop"), ("price", .num 999, .num 1299)]
      (by decide) (by decide) rfl]
    decide

/-- C18 on the diff name A to B: one field, one pair, no separator. -/
theorem C18_formatDiff_witness :
    testdata.renameDiff.length ≠ 0 ∧ testdata.renameDiff ≠ "null" ∧
    csvexport.formatDiff testdata.jsonCodec testdata.renameDiff =
      "; ".intercalate ["name: A -> B"] :=
  ⟨by decide, by decide,
    ((C18_formatDiff testdata.jsonCodec testdata.renameDiff [("name", .str "A", .str "B")]).1
      (by decide) (by decide) rfl).1⟩

/-! ### The CSV export -/

/-- With a writer that accepts every record, the row loop writes one record
per entry, in input order, and nothing else. -/
theorem writeRows_trace_ok {σ ω V : Type} (rd : Render) (dc : DiffCodec V) (cw : csvWriter ω)
    (hw : ∀ record o, (cw.Write record o).1 = none)
    (es : List domain.AuditEntryWithUser) (w : World σ ω) :
    (csvexport.writeRows rd dc cw es w).2.trace =
      w.trace ++ es.map (fun e => Call.csvWrite (csvexport.auditRow rd dc e)) := by
  induction es generalizing w with
  | nil => simp [csvexport.writeRows]
  | cons e es ih =>
    have h1 : (csvWrite cw (csvexport.auditRow rd dc e) w).1 = none := hw _ _
    simp only [csvexport.writeRows, h1]
    rw [ih]
    simp [csvWrite]

/-- The calls of `WriteAuditCSV` over a writer that does not fail: the header,
one record per entry in input order, one flush. -/
theorem writeAuditCSV_trace_ok {σ ω V : Type} (rd : Render) (dc : DiffCodec V)
    (cw : csvWriter ω) (hw : ∀ record o, (cw.Write record o).1 = none)
    (entries : Option (List domain.AuditEntryWithUser)) (w : World σ ω) :
    (csvexport.WriteAuditCSV rd dc cw entries w).2.trace =
      w.trace ++ (Call.csvWrite csvexport.auditCSVHeader ::
        (entries.getD []).map (fun e => Call.csvWrite (csvexport.auditRow rd dc e))) ++
        [Call.csvFlush] := by
  have h1 : (csvWrite cw csvexport.auditCSVHeader w).1 = none := hw _ _
  simp only [csvexport.WriteAuditCSV, h1, writeRows_ok rd dc cw hw]
  show (csvexport.writeRows rd dc cw (entries.getD [])
      (csvWrite cw csvexport.auditCSVHeader w).2).2.trace ++ [Call.csvFlush] = _
  rw [writeRows_trace_ok rd dc cw hw]
  simp [csvWrite]

/-- The row loop over the in-memory buffer appends one record per entry. -/
theorem writeRows_buffer {σ V : Type} (rd : Render) (dc : DiffCodec V)
    (es : List domain.AuditEntryWithUser) (w : World σ (List (List String))) :
    (csvexport.writeRows rd dc testdata.bufferWriter es w).2.out =
      w.out ++ es.map (csvexport.auditRow rd dc) := by
  induction es generalizing w with
  | nil => simp [csvexport.writeRows]
  | cons e es ih =>
    have h1 : (csvWrite testdata.bufferWriter (csvexport.auditRow rd dc e) w).1 = none := rfl
    simp only [csvexport.writeRows, h1]
    rw [ih]
    simp [csvWrite, testdata.bufferWriter]

/-- `WriteAuditCSV` over the in-memory buffer appends the header and one
record per entry. -/
theorem writeAuditCSV_buffer {σ V : Type} (rd : Render) (dc : DiffCodec V)
    (entries : Option (List domain.AuditEntryWithUser)) (w : World σ (List (List String))) :
    (csvexport.WriteAuditCSV rd dc testdata.bufferWriter entries w).2.out =
      w.out ++ csvexport.auditCSVHeader :: (entries.getD []).map (csvexport.auditRow rd dc) := by
  have hw : ∀ record o, (testdata.bufferWriter.Write record o).1 = none := fun _ _ => rfl
  have h1 : (csvWrite testdata.bufferWriter csvexport.auditCSVHeader w).1 = none := rfl
  simp only [csvexport.WriteAuditCSV, h1, writeRows_ok rd dc testdata.bufferWriter hw]
  show (csvexport.writeRows rd dc testdata.bufferWriter (entries.getD [])
      (csvWrite testdata.bufferWriter csvexport.auditCSVHeader w).2).2.out = _
  rw [writeRows_buffer]
  simp [csvWrite, testdata.bufferWriter]

/-- C19: for a non-empty, non-null diff that fails to decode, `formatDiff`
returns the raw text unchanged; so, over a writer that does not fail,
`WriteAuditCSV` still writes the row of every such entry, with the raw diff in
the seventh column, and reports no error. -/
theorem C19_undecodable_diff_kept {σ ω V : Type} (rd : Render) (dc : DiffCodec V)
    (cw : csvWriter ω) (entries : List domain.AuditEntryWithUser)
    (e : domain.AuditEntryWithUser) (w : World σ ω)
    (hne : e.Diff.length ≠ 0) (hnull : e.Diff ≠ "null")
    (hfail : ∃ err, dc.Unmarshal e.Diff = .error err) :
    csvexport.formatDiff dc e.Diff = e.Diff ∧
    (csvexport.auditRow rd dc e).length = 7 ∧
    (csvexport.auditRow rd dc e).get? 6 = some e.Diff ∧
    (e ∈ entries → (∀ record o, (cw.Write record o).1 = none) → (∀ o, cw.Error o = none) →
      (csvexport.WriteAuditCSV rd dc cw (some entries) w).1 = none ∧
      Call.csvWrite (csvexport.auditRow rd dc e) ∈
        (csvexport.WriteAuditCSV rd dc cw (some entries) w).2.trace) ∧
    (∀ wb : World σ (List (List String)), e ∈ entries →
      (csvexport.WriteAuditCSV rd dc testdata.bufferWriter (some entries) wb).1 = none ∧
      csvexport.auditRow rd dc e ∈
        (csvexport.WriteAuditCSV rd dc testdata.bufferWriter (some entries) wb).2.out) := by
  obtain ⟨err, herr⟩ := hfail
  have hfmt : csvexport.formatDiff dc e.Diff = e.Diff := by
    simp [csvexport.formatDiff, hne, hnull, herr]
  refine ⟨hfmt, rfl, ?_, ?_, ?_⟩
  · simp [csvexport.auditRow, hfmt]
  · intro hmem hw he
    refine ⟨writeAuditCSV_ok rd dc cw hw he _ _, ?_⟩
    rw [writeAuditCSV_trace_ok rd dc cw hw]
    simp only [Option.getD_some, List.mem_append, List.mem_cons, List.mem_map]
    exact Or.inl (Or.inr (Or.inr ⟨e, hmem, rfl⟩))
  · intro wb hmem
    refine ⟨writeAuditCSV_ok rd dc testdata.bufferWriter (fun _ _ => rfl) (fun _ => rfl) _ _,
      ?_⟩
    rw [writeAuditCSV_buffer]
    simp only [Option.getD_some, List.mem_append, List.mem_cons, List.mem_map]
    exact Or.inr (Or.inr ⟨e, hmem, rfl⟩)

/-- C19 on the text `not json`: the row of the entry carries it unchanged and
the export over the in-memory buffer succeeds. -/
theorem C19_undecodable_diff_kept_witness :
    (testdata.entryWithDiff 2 "not json").Diff.length ≠ 0 ∧
    (testdata.entryWithDiff 2 "not json").Diff ≠ "null" ∧
    csvexport.formatDiff testdata.jsonCodec "not json" = "not json" ∧
    (csvexport.WriteAuditCSV testdata.render testdata.jsonCodec testdata.bufferWriter
        (some [testdata.insertEntry, testdata.entryWithDiff 2 "not json"])
        testdata.world0).1 = none ∧
    csvexport.auditRow testdata.render testdata.jsonCodec
        (testdata.entryWithDiff 2 "not json") ∈
      (csvexport.WriteAuditCSV testdata.render testdata.jsonCodec testdata.bufferWriter
        (some [testdata.insertEntry, testdata.entryWithDiff 2 "not json"])
        testdata.world0).2.out :=
  ⟨by decide, by decide,
    (C19_undecodable_diff_kept testdata.render testdata.jsonCodec testdata.bufferWriter
      [testdata.insertEntry, testdata.entryWithDiff 2 "not json"]
      (testdata.entryWithDiff 2 "not json") testdata.world0 (by decide) (by decide)
      ⟨_, rfl⟩).1,
    ((C19_undecodable_diff_kept testdata.render testdata.jsonCodec testdata.bufferWriter
      [testdata.insertEntry, testdata.entryWithDiff 2 "not json"]
      (testdata.entryWithDiff 2 "not json") testdata.world0 (by decide) (by decide)
      ⟨_, rfl⟩).2.2.2.2 testdata.world0 (by simp)).1,
    ((C19_undecodable_diff_kept testdata.render testdata.jsonCodec testdata.bufferWriter
      [testdata.insertEntry, testdata.entryWithDiff 2 "not json"]
      (testdata.entryWithDiff 2 "not json") testdata.world0 (by decide) (by decide)
      ⟨_, rfl⟩).2.2.2.2 testdata.world0 (by simp)).2⟩

/-- C20: for every list of n audit entries, nil and empty included, and a
writer that does not fail, `WriteAuditCSV` succeeds and emits exactly n+1
records: the header, then one record of seven fields per entry in input order
with the columns entry id, item id, action, acting user id, acting username,
timestamp in RFC3339 and rendered diff; with zero entries the output is the
header alone. -/
theorem C20_writeAuditCSV_records {σ ω V : Type} (rd : Render) (dc : DiffCodec V)
    (cw : csvWriter ω) (entries : Option (List domain.AuditEntryWithUser)) (w : World σ ω)
    (wb : World σ (List (List String)))
    (hw : ∀ record o, (cw.Write record o).1 = none) (he : ∀ o, cw.Error o = none) :
    (csvexport.WriteAuditCSV rd dc cw entries w).1 = none ∧
    (csvexport.WriteAuditCSV rd dc cw entries w).2.trace =
      w.trace ++ (Call.csvWrite csvexport.auditCSVHeader ::
        (entries.getD []).map (fun e => Call.csvWrite (csvexport.auditRow rd dc e))) ++
        [Call.csvFlush] ∧
    (csvexport.WriteAuditCSV rd dc testdata.bufferWriter entries wb).1 = none ∧
    (csvexport.WriteAuditCSV rd dc testdata.bufferWriter entries wb).2.out =
      wb.out ++ csvexport.auditCSVHeader :: (entries.getD []).map (csvexport.auditRow rd dc) ∧
    (csvexport.auditCSVHeader :: (entries.getD []).map (csvexport.auditRow rd dc)).length =
      (entries.getD []).length + 1 ∧
    ",".intercalate csvexport.auditCSVHeader =
      "ID,Item ID,Action,Changed By (ID),Changed By (Username),Changed At,Changes" ∧
    (∀ e : domain.AuditEntryWithUser,
      csvexport.auditRow rd dc e =
        [toString e.ID, rd.uuidString e.ItemID, e.Action, rd.uuidString e.ChangedBy,
          e.Username, rd.formatRFC3339 e.ChangedAt, csvexport.formatDiff dc e.Diff] ∧
      (csvexport.auditRow rd dc e).length = 7) ∧
    ((entries = none ∨ entries = some []) →
      (csvexport.WriteAuditCSV rd dc testdata.bufferWriter entries wb).2.out =
        wb.out ++ [csvexport.auditCSVHeader]) := by
  refine ⟨writeAuditCSV_ok rd dc cw hw he _ _, writeAuditCSV_trace_ok rd dc cw hw _ _,
    writeAuditCSV_ok rd dc testdata.bufferWriter (fun _ _ => rfl) (fun _ => rfl) _ _,
    writeAuditCSV_buffer rd dc _ _, by simp, by decide, fun e => ⟨rfl, rfl⟩, ?_⟩
  intro h
  rw [writeAuditCSV_buffer]
  rcases h with h | h <;> simp [h]

/-- C20 on the two entries of a test, over the in-memory buffer: three
records, the header first. -/
theorem C20_writeAuditCSV_records_witness :
    (csvexport.WriteAuditCSV testdata.render testdata.jsonCodec testdata.bufferWriter
        (some [testdata.insertEntry, testdata.entryWithDiff 2 testdata.renameDiff])
        testdata.world0).1 = none ∧
    (csvexport.WriteAuditCSV testdata.render testdata.jsonCodec testdata.bufferWriter
        (some [testdata.insertEntry, testdata.entryWithDiff 2 testdata.renameDiff])
        testdata.world0).2.out =
      [["ID", "Item ID", "Action", "Changed By (ID)", "Changed By (Username)", "Changed At",
          "Changes"],
        ["1", "10", "INSERT", "1", "admin", "0", ""],
        ["2", "10", "UPDATE", "1", "admin", "0", "name: A -> B"]] :=
  ⟨(C20_writeAuditCSV_records testdata.render testdata.jsonCodec testdata.bufferWriter
      (some [testdata.insertEntry, testdata.entryWithDiff 2 testdata.renameDiff])
      testdata.world0 testdata.world0 (fun _ _ => rfl) (fun _ => rfl)).1,
    ((C20_writeAuditCSV_records testdata.render testdata.jsonCodec testdata.bufferWriter
      (some [testdata.insertEntry, testdata.entryWithDiff 2 testdata.renameDiff])
      testdata.world0 testdata.world0 (fun _ _ => rfl) (fun _ => rfl)).2.2.2.1).trans
      (by decide)⟩

/-! ### Login -/

/-- C13: `Login` returns the same result (empty token, no user, exactly
ErrInvalidCredentials) when the lookup fails with an error that is NotFound
and when the user exists but the password does not verify against the stored
hash; in both cases the lookup is the only call made, so the token manager is
not invoked. A lookup error that is not NotFound is returned wrapped with the
operation name around its cause, not as ErrInvalidCredentials. -/
theorem C13_login_invalid_credentials {σ ω : Type} (s : service.AuthService σ)
    (compare : String → String → Option domain.GoError) (input : domain.LoginInput)
    (w : World σ ω) :
    (∀ err, (s.userRepo.GetByUsername input.Username w.store).1.2 = some err →
      err.Is .NotFound = true →
      (service.AuthService.Login s compare input w).1 =
          .returned ("", none, some domain.ErrInvalidCredentials) ∧
        (service.AuthService.Login s compare input w).2.trace =
          w.trace ++ [Call.userGetByUsername input.Username]) ∧
    (∀ user err, (s.userRepo.GetByUsername input.Username w.store).1 = (some user, none) →
      compare user.PasswordHash input.Password = some err →
      (service.AuthService.Login s compare input w).1 =
          .returned ("", none, some domain.ErrInvalidCredentials) ∧
        (service.AuthService.Login s compare input w).2.trace =
          w.trace ++ [Call.userGetByUsername input.Username]) ∧
    (∀ err, (s.userRepo.GetByUsername input.Username w.store).1.2 = some err →
      err.Is .NotFound = false →
      (service.AuthService.Login s compare input w).1 =
          .returned ("", none, some (.wrap "AuthService.Login" err)) ∧
        (service.AuthService.Login s compare input w).1 ≠
          .returned ("", none, some domain.ErrInvalidCredentials) ∧
        (service.AuthService.Login s compare input w).2.trace =
          w.trace ++ [Call.userGetByUsername input.Username]) := by
  refine ⟨?_, ?_, ?_⟩
  · intro err herr hnf
    have h : (service.invoke (Call.userGetByUsername input.Username)
        (s.userRepo.GetByUsername input.Username) w).1.2 = some err := herr
    have hL : service.AuthService.Login s compare input w =
        (.returned ("", none, some domain.ErrInvalidCredentials),
          (service.invoke (Call.userGetByUsername input.Username)
            (s.userRepo.GetByUsername input.Username) w).2) := by
      simp only [service.AuthService.Login, h, hnf, if_true]
    rw [hL]
    exact ⟨rfl, rfl⟩
  · intro user err hok hcmp
    have h2 : (service.invoke (Call.userGetByUsername input.Username)
        (s.userRepo.GetByUsername input.Username) w).1.2 = none := by
      rw [invoke_fst, hok]
    have h1 : (service.invoke (Call.userGetByUsername input.Username)
        (s.userRepo.GetByUsername input.Username) w).1.1 = some user := by
      rw [invoke_fst, hok]
    have hL : service.AuthService.Login s compare input w =
        (.returned ("", none, some domain.ErrInvalidCredentials),
          (service.invoke (Call.userGetByUsername input.Username)
            (s.userRepo.GetByUsername input.Username) w).2) := by
      simp only [service.AuthService.Login, h1, h2, hcmp]
    rw [hL]
    exact ⟨rfl, rfl⟩
  · intro err herr hnf
    have h : (service.invoke (Call.userGetByUsername input.Username)
        (s.userRepo.GetByUsername input.Username) w).1.2 = some err := herr
    have hL : service.AuthService.Login s compare input w =
        (.returned ("", none, some (.wrap "AuthService.Login" err)),
          (service.invoke (Call.userGetByUsername input.Username)
            (s.userRepo.GetByUsername input.Username) w).2) := by
      simp only [service.AuthService.Login, h, hnf, Bool.false_eq_true, if_false]
    rw [hL]
    exact ⟨rfl, by simp [domain.ErrInvalidCredentials], rfl⟩

/-- C13 on the collaborators of the login tests: an unknown name and a wrong
password give the same result, and a database error is wrapped. -/
theorem C13_login_invalid_credentials_witness :
    (service.AuthService.Login testdata.authSvc testdata.compareHash
        ⟨"unknown", "password"⟩ testdata.world0).1 =
      .returned ("", none, some domain.ErrInvalidCredentials) ∧
    (service.AuthService.Login testdata.authSvc testdata.compareHash
        ⟨"admin", "wrong"⟩ testdata.world0).1 =
      .returned ("", none, some domain.ErrInvalidCredentials) ∧
    (service.AuthService.Login testdata.authSvc testdata.compareHash
        ⟨"broken", "password"⟩ testdata.world0).1 =
      .returned ("", none, some (.wrap "AuthService.Login" (.foreign "db error"))) :=
  ⟨((C13_login_invalid_credentials testdata.authSvc testdata.compareHash
      ⟨"unknown", "password"⟩ testdata.world0).1
      (.wrap "UserRepository.GetByUsername" domain.ErrNotFound) rfl rfl).1,
    ((C13_login_invalid_credentials testdata.authSvc testdata.compareHash
      ⟨"admin", "wrong"⟩ testdata.world0).2.1 testdata.adminUser
      (.foreign "hashedPassword is not the hash of the given password") rfl rfl).1,
    ((C13_login_invalid_credentials testdata.authSvc testdata.compareHash
      ⟨"broken", "password"⟩ testdata.world0).2.2 (.foreign "db error") rfl rfl).1⟩

/-- C14: when the lookup returns a user, the password verifies and issuing
reports no error, `Login` returns exactly the token the manager produced for
that user, together with that user record, after calling the lookup and then
the manager; the response built from it holds the token and the user's id,
username and role only, so users that differ only in password hash (or
timestamps) give equal responses. -/
theorem C14_login_success {σ ω : Type} (s : service.AuthService σ)
    (compare : String → String → Option domain.GoError) (input : domain.LoginInput)
    (w : World σ ω) :
    (∀ user, (s.userRepo.GetByUsername input.Username w.store).1 = (some user, none) →
      compare user.PasswordHash input.Password = none →
      (s.manager.GenerateJWT user (s.userRepo.GetByUsername input.Username w.store).2).1.2 =
        none →
      (service.AuthService.Login s compare input w).1 =
          .returned ((s.manager.GenerateJWT user
            (s.userRepo.GetByUsername input.Username w.store).2).1.1, some user, none) ∧
        (service.AuthService.Login s compare input w).2.trace =
          w.trace ++ [Call.userGetByUsername input.Username, Call.tokenGenerateJWT user]) ∧
    (∀ (token : String) (u : domain.User),
      dto.NewLoginResponse token u =
        { Token := token, User := { ID := u.ID, Username := u.Username, Role := u.Role } }) ∧
    (∀ (token : String) (u1 u2 : domain.User),
      u1.ID = u2.ID → u1.Username = u2.Username → u1.Role = u2.Role →
      dto.NewLoginResponse token u1 = dto.NewLoginResponse token u2 ∧
        dto.NewUserResponse u1 = dto.NewUserResponse u2) ∧
    (∀ (token : String) (u : domain.User) (hash : String),
      dto.NewLoginResponse token { u with PasswordHash := hash } =
        dto.NewLoginResponse token u) := by
  refine ⟨?_, fun _ _ => rfl, ?_, fun _ _ _ => rfl⟩
  · intro user hok hcmp hgen
    have h2 : (service.invoke (Call.userGetByUsername input.Username)
        (s.userRepo.GetByUsername input.Username) w).1.2 = none := by
      rw [invoke_fst, hok]
    have h1 : (service.invoke (Call.userGetByUsername input.Username)
        (s.userRepo.GetByUsername input.Username) w).1.1 = some user := by
      rw [invoke_fst, hok]
    have h3 : (service.invoke (Call.tokenGenerateJWT user) (s.manager.GenerateJWT user)
        (service.invoke (Call.userGetByUsername input.Username)
          (s.userRepo.GetByUsername input.Username) w).2).1.2 = none := hgen
    have hL : service.AuthService.Login s compare input w =
        (.returned ((service.invoke (Call.tokenGenerateJWT user) (s.manager.GenerateJWT user)
            (service.invoke (Call.userGetByUsername input.Username)
              (s.userRepo.GetByUsername input.Username) w).2).1.1, some user, none),
          (service.invoke (Call.tokenGenerateJWT user) (s.manager.GenerateJWT user)
            (service.invoke (Call.userGetByUsername input.Username)
              (s.userRepo.GetByUsername input.Username) w).2).2) := by
      simp only [service.AuthService.Login, h1, h2, hcmp, h3]
    rw [hL]
    refine ⟨rfl, ?_⟩
    simp [service.invoke]
  · intro token u1 u2 hid hname hrole
    simp [dto.NewLoginResponse, dto.NewUserResponse, hid, hname, hrole]

/-- C14 on the collaborators of the login tests: the admin logs in with the
right password and receives the manager's token and the user record. -/
theorem C14_login_success_witness :
    (service.AuthService.Login testdata.authSvc testdata.compareHash
        ⟨"admin", "password"⟩ testdata.world0).1 =
      .returned ("jwt-token", some testdata.adminUser, none) ∧
    dto.NewLoginResponse "jwt-token" testdata.adminUser =
      { Token := "jwt-token", User := { ID := ⟨1⟩, Username := "admin", Role := "admin" } } :=
  ⟨((C14_login_success testdata.authSvc testdata.compareHash ⟨"admin", "password"⟩
      testdata.world0).1 testdata.adminUser rfl (by decide) rfl).1,
    (C14_login_success testdata.authSvc testdata.compareHash ⟨"admin", "password"⟩
      testdata.world0).2.1 "jwt-token" testdata.adminUser⟩

/-! ### Limits and offsets -/

/-- The normalized page size lies between 1 and 100. -/
theorem normalized_pageSize_range (page pageSize : Int) :
    1 ≤ (service.normalizePagination page pageSize).2 ∧
      (service.normalizePagination page pageSize).2 ≤ 100 := by
  rw [normalizePagination_eq]
  by_cases h : pageSize < 1 ∨ pageSize > 100
  · simp [h]
  · simp only [h, if_false]
    omega

/-- The normalized page is at least 1. -/
theorem normalized_page_pos (page pageSize : Int) :
    1 ≤ (service.normalizePagination page pageSize).1 := by
  rw [normalizePagination_eq]
  by_cases h : page < 1
  · simp [h]
  · simp only [h, if_false]
    omega

/-- Wrap-around leaves a value of the 64-bit range alone. -/
theorem wrapInt64_of_range (x : Int) (h1 : -9223372036854775808 ≤ x)
    (h2 : x ≤ 9223372036854775807) : wrapInt64 x = x := by
  unfold wrapInt64
  omega

/-- While the product fits 64 bits, the offset passed to the store is the
product, and it is not negative. -/
theorem offset_exact_of_fits (page pageSize : Int)
    (hfit : ((service.normalizePagination page pageSize).1 - 1) *
      (service.normalizePagination page pageSize).2 ≤ 9223372036854775807) :
    wrapInt64 (((service.normalizePagination page pageSize).1 - 1) *
        (service.normalizePagination page pageSize).2) =
      ((service.normalizePagination page pageSize).1 - 1) *
        (service.normalizePagination page pageSize).2 ∧
    0 ≤ wrapInt64 (((service.normalizePagination page pageSize).1 - 1) *
        (service.normalizePagination page pageSize).2) := by
  have h1 := normalized_page_pos page pageSize
  have h2 := normalized_pageSize_range page pageSize
  have hnn : 0 ≤ ((service.normalizePagination page pageSize).1 - 1) *
      (service.normalizePagination page pageSize).2 :=
    Int.mul_nonneg (by omega) (by omega)
  have hw := wrapInt64_of_range _ (le_trans (by decide) hnn) hfit
  rw [hw]
  exact ⟨rfl, hnn⟩

/-- C30, the code at the failing input: page 2^62 + 1 with page size 2 is a
valid 64-bit pair; the normalized pair is the same, the product
(page - 1) * pageSize is 2^63, and the offset handed to the store wraps to
-2^63, a negative number. Page 1 gives offset 0 and the limit is the
normalized page size. -/
theorem C30_offset_overflow :
    minInt64 ≤ 4611686018427387905 ∧ (4611686018427387905 : Int) ≤ maxInt64 ∧
    service.normalizePagination 4611686018427387905 2 = (4611686018427387905, 2) ∧
    (service.ItemService.ListItems testdata.itemSvc testdata.viewerClaims ⟨none⟩
        4611686018427387905 2 testdata.world0).2.trace =
      [Call.itemList ⟨none⟩ 2 (-9223372036854775808)] ∧
    (service.AuditService.List testdata.auditSvc testdata.adminClaims testdata.emptyFilter
        4611686018427387905 2 testdata.world0).2.trace =
      [Call.auditList testdata.emptyFilter 2 (-9223372036854775808)] ∧
    (service.ItemService.ListItems testdata.itemSvc testdata.viewerClaims ⟨none⟩
        1 2 testdata.world0).2.trace = [Call.itemList ⟨none⟩ 2 0] := by
  refine ⟨by decide, by decide, by decide, by decide, by decide, by decide⟩

/-! ### The export reads once -/

/-- The calls `WriteAuditCSV` makes are calls on the writer only. -/
theorem writeRows_no_store {σ ω V : Type} (rd : Render) (dc : DiffCodec V) (cw : csvWriter ω)
    (es : List domain.AuditEntryWithUser) (w : World σ ω) :
    ∃ t, (csvexport.writeRows rd dc cw es w).2.trace = w.trace ++ t ∧
      ∀ c ∈ t, Call.isStore c = false := by
  induction es generalizing w with
  | nil => exact ⟨[], by simp [csvexport.writeRows], by simp⟩
  | cons e es ih =>
    simp only [csvexport.writeRows]
    split
    · exact ⟨[Call.csvWrite (csvexport.auditRow rd dc e)], rfl, by simp [Call.isStore]⟩
    · obtain ⟨t, ht, hn⟩ := ih (csvWrite cw (csvexport.auditRow rd dc e) w).2
      refine ⟨Call.csvWrite (csvexport.auditRow rd dc e) :: t, ?_, ?_⟩
      · rw [ht]; simp [csvWrite]
      · intro c hc
        rcases List.mem_cons.1 hc with h | h
        · rw [h]; rfl
        · exact hn c h

/-- `WriteAuditCSV` makes no repository call. -/
theorem writeAuditCSV_no_store {σ ω V : Type} (rd : Render) (dc : DiffCodec V)
    (cw : csvWriter ω) (entries : Option (List domain.AuditEntryWithUser)) (w : World σ ω) :
    ∃ t, (csvexport.WriteAuditCSV rd dc cw entries w).2.trace = w.trace ++ t ∧
      ∀ c ∈ t, Call.isStore c = false := by
  simp only [csvexport.WriteAuditCSV]
  split
  · exact ⟨[Call.csvWrite csvexport.auditCSVHeader], rfl, by simp [Call.isStore]⟩
  · obtain ⟨t, ht, hn⟩ := writeRows_no_store rd dc cw (entries.getD [])
      (csvWrite cw csvexport.auditCSVHeader w).2
    split
    · refine ⟨Call.csvWrite csvexport.auditCSVHeader :: t, ?_, ?_⟩
      · rw [ht]; simp [csvWrite]
      · intro c hc
        rcases List.mem_cons.1 hc with h | h
        · rw [h]; rfl
        · exact hn c h
    · refine ⟨Call.csvWrite csvexport.auditCSVHeader :: (t ++ [Call.csvFlush]), ?_, ?_⟩
      · show (csvexport.writeRows rd dc cw (entries.getD [])
            (csvWrite cw csvexport.auditCSVHeader w).2).2.trace ++ [Call.csvFlush] = _
        rw [ht]; simp [csvWrite]
      · intro c hc
        rcases List.mem_cons.1 hc with h | h
        · rw [h]; rfl
        · rcases List.mem_append.1 h with h | h
          · exact hn c h
          · simp at h
            rw [h]; rfl

/-- C21: for a role permitted to export and every filter, `ExportCSV` makes
exactly one repository call, the audit list read with limit 10000 and offset
0 (it takes no page or page size), and every later call is a call on the
writer; when that read succeeds and the writer does not fail, the records
written are the header and one row per entry the read returned, in order; so
over an in-memory buffer the export holds at most 10000 data rows whenever
the store returned at most 10000 entries. -/
theorem C21_export_single_read {σ ω V : Type} (s : service.AuditService σ) (rd : Render)
    (dc : DiffCodec V) (claims : domain.AuthClaims) (filter : domain.AuditFilter)
    (cw : csvWriter ω) (w : World σ ω) (wb : World σ (List (List String)))
    (hrole : claims.Role.CanExport = true) :
    service.maxExportRows = 10000 ∧
    (∃ t, (service.AuditService.ExportCSV s rd dc claims filter cw w).2.trace =
        w.trace ++ Call.auditList filter 10000 0 :: t ∧
      ∀ c ∈ t, Call.isStore c = false) ∧
    ((s.auditRepo.List filter 10000 0 w.store).1.2.2 = none →
      (∀ record o, (cw.Write record o).1 = none) → (∀ o, cw.Error o = none) →
      (service.AuditService.ExportCSV s rd dc claims filter cw w).1 = none ∧
      (service.AuditService.ExportCSV s rd dc claims filter cw w).2.trace =
        w.trace ++ Call.auditList filter 10000 0 ::
          Call.csvWrite csvexport.auditCSVHeader ::
          (((s.auditRepo.List filter 10000 0 w.store).1.1.getD []).map
            (fun e => Call.csvWrite (csvexport.auditRow rd dc e)) ++ [Call.csvFlush])) ∧
    ((s.auditRepo.List filter 10000 0 wb.store).1.2.2 = none →
      (service.AuditService.ExportCSV s rd dc claims filter testdata.bufferWriter wb).2.out =
          wb.out ++ csvexport.auditCSVHeader ::
            ((s.auditRepo.List filter 10000 0 wb.store).1.1.getD []).map
              (csvexport.auditRow rd dc) ∧
        (((s.auditRepo.List filter 10000 0 wb.store).1.1.getD []).length ≤ 10000 →
          (((s.auditRepo.List filter 10000 0 wb.store).1.1.getD []).map
            (csvexport.auditRow rd dc)).length ≤ 10000)) := by
  refine ⟨rfl, ?_, ?_, ?_⟩
  · simp only [service.AuditService.ExportCSV, hrole, Bool.not_true, Bool.false_eq_true,
      if_false]
    split
    · exact ⟨[], rfl, by simp⟩
    · obtain ⟨t, ht, hn⟩ := writeAuditCSV_no_store rd dc cw
        (service.invoke (Call.auditList filter service.maxExportRows 0)
          (s.auditRepo.List filter service.maxExportRows 0) w).1.1
        (service.invoke (Call.auditList filter service.maxExportRows 0)
          (s.auditRepo.List filter service.maxExportRows 0) w).2
      refine ⟨t, ?_, hn⟩
      rw [ht, invoke_trace, List.append_assoc]
      rfl
  · intro hok hw he
    have hok2 : (service.invoke (Call.auditList filter service.maxExportRows 0)
        (s.auditRepo.List filter service.maxExportRows 0) w).1.2.2 = none := hok
    have hE : service.AuditService.ExportCSV s rd dc claims filter cw w =
        csvexport.WriteAuditCSV rd dc cw
          (service.invoke (Call.auditList filter service.maxExportRows 0)
            (s.auditRepo.List filter service.maxExportRows 0) w).1.1
          (service.invoke (Call.auditList filter service.maxExportRows 0)
            (s.auditRepo.List filter service.maxExportRows 0) w).2 := by
      simp only [service.AuditService.ExportCSV, hrole, Bool.not_true, Bool.false_eq_true,
        if_false, hok2]
    rw [hE]
    refine ⟨writeAuditCSV_ok rd dc cw hw he _ _, ?_⟩
    rw [writeAuditCSV_trace_ok rd dc cw hw, invoke_trace, invoke_fst]
    simp [service.maxExportRows]
  · intro hok
    have hok2 : (service.invoke (Call.auditList filter service.maxExportRows 0)
        (s.auditRepo.List filter service.maxExportRows 0) wb).1.2.2 = none := hok
    have hE : service.AuditService.ExportCSV s rd dc claims filter testdata.bufferWriter wb =
        csvexport.WriteAuditCSV rd dc testdata.bufferWriter
          (service.invoke (Call.auditList filter service.maxExportRows 0)
            (s.auditRepo.List filter service.maxExportRows 0) wb).1.1
          (service.invoke (Call.auditList filter service.maxExportRows 0)
            (s.auditRepo.List filter service.maxExportRows 0) wb).2 := by
      simp only [service.AuditService.ExportCSV, hrole, Bool.not_true, Bool.false_eq_true,
        if_false, hok2]
    rw [hE, writeAuditCSV_buffer, invoke_fst]
    refine ⟨rfl, ?_⟩
    intro h
    simpa using h

/-- C21 for the admin of the service tests over the in-memory buffer: one
read with limit 10000 and offset 0, then the header and the one returned
entry. -/
theorem C21_export_single_read_witness :
    testdata.adminClaims.Role.CanExport = true ∧
    (service.AuditService.ExportCSV testdata.auditSvc testdata.render testdata.jsonCodec
        testdata.adminClaims testdata.emptyFilter testdata.bufferWriter
        testdata.world0).2.trace =
      [Call.auditList testdata.emptyFilter 10000 0,
        Call.csvWrite csvexport.auditCSVHeader,
        Call.csvWrite (csvexport.auditRow testdata.render testdata.jsonCodec
          testdata.insertEntry),
        Call.csvFlush] :=
  ⟨by decide,
    ((C21_export_single_read testdata.auditSvc testdata.render testdata.jsonCodec
      testdata.adminClaims testdata.emptyFilter testdata.bufferWriter testdata.world0
      testdata.world0 (by decide)).2.2.1 rfl (fun _ _ => rfl) (fun _ => rfl)).2⟩

/-! ### Dynamic statements -/

/-- What a sequence of field blocks leaves in the three variables. -/
theorem addAll_closed (fields : List (String × Option repository.Arg))
    (b : repository.Builder) :
    (b.addAll fields).clauses = b.clauses ++ repository.numbered b.argIdx (repository.presentFields fields) ∧
    (b.addAll fields).args = b.args ++ (repository.presentFields fields).map (fun p => p.2) ∧
    (b.addAll fields).argIdx = b.argIdx + (repository.presentFields fields).length := by
  induction fields generalizing b with
  | nil => simp [repository.Builder.addAll, repository.presentFields, repository.numbered]
  | cons p ps ih =>
    obtain ⟨fmt, v⟩ := p
    cases v with
    | none =>
      have := ih b
      simpa [repository.Builder.addAll, repository.Builder.add, repository.presentFields] using this
    | some a =>
      have := ih (b.add fmt (some a))
      simp only [repository.Builder.addAll, List.foldl_cons] at this ⊢
      obtain ⟨h1, h2, h3⟩ := this
      refine ⟨?_, ?_, ?_⟩
      · rw [h1]; simp [repository.Builder.add, repository.presentFields, repository.numbered, List.enumFrom]
      · rw [h2]; simp [repository.Builder.add, repository.presentFields]
      · rw [h3]; simp [repository.Builder.add, repository.presentFields]; omega

/-- Numbered clauses depend on the clause texts only, not on the values. -/
theorem numbered_congr (k : Nat) (ps qs : List (String × repository.Arg))
    (h : ps.map (fun p => p.1) = qs.map (fun p => p.1)) : repository.numbered k ps = repository.numbered k qs := by
  induction ps generalizing qs k with
  | nil =>
    cases qs with
    | nil => rfl
    | cons q qs => simp at h
  | cons p ps ih =>
    cases qs with
    | nil => simp at h
    | cons q qs =>
      simp only [List.map_cons, List.cons.injEq] at h
      have := ih (k + 1) qs h.2
      simp only [repository.numbered, List.enumFrom, List.map_cons, h.1] at this ⊢
      rw [this]

/-- One numbered clause per present field. -/
theorem numbered_length (k : Nat) (ps : List (String × repository.Arg)) :
    (repository.numbered k ps).length = ps.length := by
  simp [repository.numbered]

/-- Which clauses are present depends only on which fields are set. -/
theorem presentFields_names_congr (l1 l2 : List (String × Option repository.Arg))
    (h : l1.map (fun p => (p.1, p.2.isSome)) = l2.map (fun p => (p.1, p.2.isSome))) :
    (repository.presentFields l1).map (fun p => p.1) = (repository.presentFields l2).map (fun p => p.1) := by
  induction l1 generalizing l2 with
  | nil =>
    cases l2 with
    | nil => rfl
    | cons q qs => simp at h
  | cons p ps ih =>
    cases l2 with
    | nil => simp at h
    | cons q qs =>
      simp only [List.map_cons, List.cons.injEq, Prod.mk.injEq] at h
      obtain ⟨⟨hf, hs⟩, ht⟩ := h
      have := ih qs ht
      obtain ⟨pf, pv⟩ := p
      obtain ⟨qf, qv⟩ := q
      cases pv <;> cases qv <;> simp_all [repository.presentFields]

/-- The variables of the audit list are the five filter blocks in order. -/
theorem auditListBuilder_eq (filter : domain.AuditFilter) :
    repository.auditListBuilder filter =
      repository.Builder.init.addAll (repository.auditFilterFields filter) := rfl

/-- The variables of the update are the five field blocks in order. -/
theorem updateBuilder_eq (conv : repository.Conv) (input : domain.UpdateItemInput) :
    repository.updateBuilder conv input =
      repository.Builder.init.addAll (repository.updateFields conv input) := rfl

/-- The clauses, values and next placeholder of the audit list. -/
theorem auditListBuilder_closed (filter : domain.AuditFilter) :
    (repository.auditListBuilder filter).clauses =
      repository.numbered 1 (repository.presentFields (repository.auditFilterFields filter)) ∧
    (repository.auditListBuilder filter).args =
      (repository.presentFields (repository.auditFilterFields filter)).map (fun p => p.2) ∧
    (repository.auditListBuilder filter).argIdx =
      1 + (repository.presentFields (repository.auditFilterFields filter)).length := by
  rw [auditListBuilder_eq]
  have h := addAll_closed (repository.auditFilterFields filter) repository.Builder.init
  simpa [repository.Builder.init] using h

/-- The clauses, values and next placeholder of the update. -/
theorem updateBuilder_closed (conv : repository.Conv) (input : domain.UpdateItemInput) :
    (repository.updateBuilder conv input).clauses =
      repository.numbered 1 (repository.presentFields (repository.updateFields conv input)) ∧
    (repository.updateBuilder conv input).args =
      (repository.presentFields (repository.updateFields conv input)).map (fun p => p.2) ∧
    (repository.updateBuilder conv input).argIdx =
      1 + (repository.presentFields (repository.updateFields conv input)).length := by
  rw [updateBuilder_eq]
  have h := addAll_closed (repository.updateFields conv input) repository.Builder.init
  simpa [repository.Builder.init] using h

set_option maxRecDepth 20000 in
/-- The audit list statement for the empty filter has no WHERE part. -/
theorem auditList_empty_no_where :
    ¬ ("WHERE".data <:+: (repository.auditListStmt testdata.emptyFilter 20 0).text.data) := by
  decide

set_option maxRecDepth 20000 in
/-- The item list statement without a search has no WHERE part. -/
theorem itemList_empty_no_where :
    ¬ ("WHERE".data <:+: (repository.itemListStmt ⟨none⟩ 20 0).text.data) := by
  decide

/-- The text of the audit list depends on the filter only through which
fields are set. -/
theorem auditList_text_congr (f1 f2 : domain.AuditFilter) (l1 o1 l2 o2 : Int)
    (h1 : f1.ItemID.isSome = f2.ItemID.isSome) (h2 : f1.UserID.isSome = f2.UserID.isSome)
    (h3 : f1.Action.isSome = f2.Action.isSome) (h4 : f1.DateFrom.isSome = f2.DateFrom.isSome)
    (h5 : f1.DateTo.isSome = f2.DateTo.isSome) :
    (repository.auditListStmt f1 l1 o1).text = (repository.auditListStmt f2 l2 o2).text := by
  have hn := presentFields_names_congr (repository.auditFilterFields f1)
    (repository.auditFilterFields f2)
    (by simp [repository.auditFilterFields, h1, h2, h3, h4, h5])
  have hlen : (repository.presentFields (repository.auditFilterFields f1)).length =
      (repository.presentFields (repository.auditFilterFields f2)).length := by
    have := congrArg List.length hn
    simpa using this
  have c1 := auditListBuilder_closed f1
  have c2 := auditListBuilder_closed f2
  simp only [repository.auditListStmt, c1.1, c2.1, c1.2.2, c2.2.2, hlen,
    numbered_congr 1 _ _ hn]

/-- The text of the update depends on the input only through which fields are
set. -/
theorem update_text_congr (conv : repository.Conv) (u1 u2 : domain.UpdateItemInput)
    (id1 id2 : UUID)
    (h1 : u1.Name.isSome = u2.Name.isSome) (h2 : u1.SKU.isSome = u2.SKU.isSome)
    (h3 : u1.Quantity.isSome = u2.Quantity.isSome) (h4 : u1.Price.isSome = u2.Price.isSome)
    (h5 : u1.Location.isSome = u2.Location.isSome) :
    (repository.updateStmt conv id1 u1).map (fun st => st.text) =
      (repository.updateStmt conv id2 u2).map (fun st => st.text) := by
  have hn := presentFields_names_congr (repository.updateFields conv u1)
    (repository.updateFields conv u2)
    (by simp [repository.updateFields, h1, h2, h3, h4, h5])
  have hlen : (repository.presentFields (repository.updateFields conv u1)).length =
      (repository.presentFields (repository.updateFields conv u2)).length := by
    have := congrArg List.length hn
    simpa using this
  have c1 := updateBuilder_closed conv u1
  have c2 := updateBuilder_closed conv u2
  simp only [repository.updateStmt, c1.1, c2.1, c1.2.2, c2.2.2, hlen,
    numbered_congr 1 _ _ hn, numbered_length]
  split <;> rfl

/-- The item list statement for a non-empty search: one value, used by both
comparisons, then limit and offset. -/
theorem itemList_search (search : String) (hne : search ≠ "") (limit offset : Int) :
    (repository.itemListStmt ⟨some search⟩ limit offset).args =
      [.text ("%" ++ search ++ "%"), .int limit, .int offset] ∧
    (repository.itemListStmt ⟨some search⟩ limit offset).text =
      (repository.itemListStmt ⟨some "x"⟩ 0 0).text := by
  have hx : ("x" : String) ≠ "" := by decide
  simp [repository.itemListStmt, repository.itemListBuilder, hne, hx]

/-- The item list statement without a search: limit and offset only. -/
theorem itemList_no_search (filter : domain.ItemFilter) (limit offset : Int)
    (h : filter.Search = none ∨ filter.Search = some "") :
    (repository.itemListStmt filter limit offset).args = [.int limit, .int offset] ∧
    (repository.itemListStmt filter limit offset).text =
      (repository.itemListStmt ⟨none⟩ 0 0).text := by
  rcases h with h | h <;>
    simp [repository.itemListStmt, repository.itemListBuilder, h, repository.Builder.init]

set_option maxRecDepth 20000 in
/-- The three dynamic statements on sample inputs: the texts hold placeholders
only, numbered from 1 without gaps. -/
theorem sample_statement_texts :
    (repository.itemListStmt ⟨some "lap"⟩ 20 40).text =
      "\n\t\tSELECT \n\t\t    id, name, sku, quantity, price, location, created_at, " ++
        "updated_at,\n\t\t\tCOUNT(*) OVER() AS total_count\n\t\tFROM items " ++
        "WHERE (name ILIKE $1 OR sku ILIKE $1)\n\t\tORDER BY created_at DESC\n\t\t" ++
        "LIMIT $2 OFFSET $3\n\t" ∧
    (repository.itemListStmt ⟨some "lap"⟩ 20 40).args =
      [.text "%lap%", .int 20, .int 40] ∧
    (repository.auditListStmt testdata.fullFilter 20 40).text =
      "\n\t\tSELECT \n\t\t\ta.id, a.item_id, a.action, a.changed_by,\n\t\t\t" ++
        "a.old_data, a.new_data, a.diff, a.changed_at,\n\t\t\t" ++
        "COALESCE(u.username, 'unknown') AS username,\n\t\t\t" ++
        "COUNT(*) OVER() AS total_count\n\t\tFROM item_audit_log a\n\t\t" ++
        "LEFT JOIN users u ON u.id = a.changed_by\n\t\t" ++
        "WHERE a.item_id = $1 AND a.changed_by = $2 AND a.action = $3 AND " ++
        "a.changed_at >= $4 AND a.changed_at <= $5" ++
        "\n\t\tORDER BY a.changed_at DESC\n\t\tLIMIT $6 OFFSET $7" ∧
    (repository.auditListStmt testdata.fullFilter 20 40).args =
      [.uuid ⟨10⟩, .uuid ⟨1⟩, .text "UPDATE", .time 5, .time 9, .int 20, .int 40] ∧
    (repository.updateStmt testdata.conv ⟨10⟩ testdata.renameRestock).map (fun st => st.text) =
      some ("\n\t\tUPDATE items\n\t\tSET name = $1, quantity = $2\n\t\tWHERE id=$3\n\t\t" ++
        "RETURNING id, name, sku, quantity, price, location, created_at, updated_at\n\t\t") ∧
    (repository.updateStmt testdata.conv ⟨10⟩ testdata.renameRestock).map (fun st => st.args) =
      some [.text "Gaming Laptop", .int 7, .uuid ⟨10⟩] := by
  refine ⟨by decide, by decide, by decide, by decide, by decide, by decide⟩

/-- The update has a statement exactly when some field is set. -/
theorem updateStmt_none_iff (conv : repository.Conv) (id : UUID)
    (input : domain.UpdateItemInput) :
    repository.updateStmt conv id input = none ↔ input.HasChanges = false := by
  have cu := updateBuilder_closed conv input
  unfold repository.updateStmt
  simp only [cu.1, numbered_length]
  obtain ⟨n, sk, q, pr, lo⟩ := input
  cases n <;> cases sk <;> cases q <;> cases pr <;> cases lo <;>
    simp [repository.presentFields, repository.updateFields,
      domain.UpdateItemInput.HasChanges]

/-! ### The atomic unit of a mutation -/

section unit
variable {S α : Type}

/-- `withAuditContext` when the transaction cannot begin: the error, nothing
sent, nothing changed. -/
theorem withAuditContext_begin_fails (eng : repository.Engine S) (conv : repository.Conv)
    (uid : UUID) (fn : repository.Tx S → (Option domain.GoError × α) × repository.Tx S)
    (init : α) (db : repository.DB S) (err : domain.GoError)
    (hb : eng.begin db.committed = some err) :
    repository.withAuditContext eng conv uid fn init db = ((some err, init), db) := by
  simp [repository.withAuditContext, repository.WithTx, hb]

/-- `withAuditContext` when recording the acting user fails: the wrapped
error, the callback not run, the committed state kept. -/
theorem withAuditContext_context_fails (eng : repository.Engine S) (conv : repository.Conv)
    (uid : UUID) (fn : repository.Tx S → (Option domain.GoError × α) × repository.Tx S)
    (init : α) (db : repository.DB S) (err : domain.GoError) (s1 : S)
    (hb : eng.begin db.committed = none)
    (hctx : eng.exec (repository.auditContextStmt conv uid) db.committed = (.error err, s1)) :
    repository.withAuditContext eng conv uid fn init db =
      ((some (.wrap "set audit context" err), init),
        { committed := db.committed,
          log := db.log ++ [repository.auditContextStmt conv uid] }) := by
  simp [repository.withAuditContext, repository.WithTx, hb, repository.Tx.exec, hctx]

/-- `withAuditContext` when the acting user is recorded and the callback
fails: the callback's error, the committed state kept. -/
theorem withAuditContext_fn_fails (eng : repository.Engine S) (conv : repository.Conv)
    (uid : UUID) (fn : repository.Tx S → (Option domain.GoError × α) × repository.Tx S)
    (init : α) (db : repository.DB S) (n : Int) (s1 : S) (err : domain.GoError)
    (hb : eng.begin db.committed = none)
    (hctx : eng.exec (repository.auditContextStmt conv uid) db.committed = (.ok n, s1))
    (hfn : (fn ⟨s1, db.log ++ [repository.auditContextStmt conv uid]⟩).1.1 = some err) :
    repository.withAuditContext eng conv uid fn init db =
      ((some err,
          (fn ⟨s1, db.log ++ [repository.auditContextStmt conv uid]⟩).1.2),
        { committed := db.committed,
          log := (fn ⟨s1, db.log ++ [repository.auditContextStmt conv uid]⟩).2.log }) := by
  simp [repository.withAuditContext, repository.WithTx, hb, repository.Tx.exec, hctx, hfn]

/-- `withAuditContext` when both steps succeed: the commit decides. -/
theorem withAuditContext_fn_ok (eng : repository.Engine S) (conv : repository.Conv)
    (uid : UUID) (fn : repository.Tx S → (Option domain.GoError × α) × repository.Tx S)
    (init : α) (db : repository.DB S) (n : Int) (s1 : S)
    (hb : eng.begin db.committed = none)
    (hctx : eng.exec (repository.auditContextStmt conv uid) db.committed = (.ok n, s1))
    (hfn : (fn ⟨s1, db.log ++ [repository.auditContextStmt conv uid]⟩).1.1 = none) :
    repository.withAuditContext eng conv uid fn init db =
      (match eng.commit (fn ⟨s1, db.log ++ [repository.auditContextStmt conv uid]⟩).2.working with
        | some err =>
          ((some err, (fn ⟨s1, db.log ++ [repository.auditContextStmt conv uid]⟩).1.2),
            { committed := db.committed,
              log := (fn ⟨s1, db.log ++ [repository.auditContextStmt conv uid]⟩).2.log })
        | none =>
          ((none, (fn ⟨s1, db.log ++ [repository.auditContextStmt conv uid]⟩).1.2),
            { committed := (fn ⟨s1, db.log ++ [repository.auditContextStmt conv uid]⟩).2.working,
              log := (fn ⟨s1, db.log ++ [repository.auditContextStmt conv uid]⟩).2.log })) := by
  simp [repository.withAuditContext, repository.WithTx, hb, repository.Tx.exec, hctx, hfn]

/-- Whatever happens, a unit that reports an error leaves the committed state
as it was. -/
theorem withAuditContext_error_rolls_back (eng : repository.Engine S)
    (conv : repository.Conv) (uid : UUID)
    (fn : repository.Tx S → (Option domain.GoError × α) × repository.Tx S)
    (init : α) (db : repository.DB S)
    (herr : (repository.withAuditContext eng conv uid fn init db).1.1 ≠ none) :
    (repository.withAuditContext eng conv uid fn init db).2.committed = db.committed := by
  cases hb : eng.begin db.committed with
  | some err => rw [withAuditContext_begin_fails eng conv uid fn init db err hb]
  | none =>
    cases hctx : eng.exec (repository.auditContextStmt conv uid) db.committed with
    | mk res s1 =>
      cases res with
      | error err => rw [withAuditContext_context_fails eng conv uid fn init db err s1 hb hctx]
      | ok n =>
        cases hfn : (fn ⟨s1, db.log ++ [repository.auditContextStmt conv uid]⟩).1.1 with
        | some err => rw [withAuditContext_fn_fails eng conv uid fn init db n s1 err hb hctx hfn]
        | none =>
          have h := withAuditContext_fn_ok eng conv uid fn init db n s1 hb hctx hfn
          cases hc : eng.commit (fn ⟨s1, db.log ++ [repository.auditContextStmt conv uid]⟩).2.working with
          | some err =>
            rw [hc] at h
            rw [h]
          | none =>
            rw [hc] at h
            rw [h] at herr
            exact absurd rfl herr

end unit

/-! ### Storage signals -/

section translate
variable {S ω : Type}

/-- A chain that ends in `sql.ErrNoRows` holds no `*pq.Error`. -/
theorem noRows_not_duplicate (e : domain.GoError) (h : repository.isErrNoRows e = true) :
    repository.isDuplicateKey e = false := by
  induction e with
  | sentinel k => rfl
  | wrap msg inner ih => exact ih h
  | foreign msg => rfl
  | pq code message => simp [repository.isErrNoRows] at h
  | sqlNoRows => rfl

/-- Wrapping with `%w` keeps what `errors.Is` answers. -/
theorem is_wrap (msg : String) (e : domain.GoError) (k : domain.Sentinel) :
    (domain.GoError.wrap msg e).Is k = e.Is k := rfl

/-- The unit of a row-returning mutation whose statement fails: the statement's
error, both statements sent, nothing committed. -/
theorem unit_scanOne_error (eng : repository.Engine S) (conv : repository.Conv) (uid : UUID)
    (stmt : repository.Stmt) (db : repository.DB S) (n : Int) (s1 s2 : S)
    (e : domain.GoError)
    (hb : eng.begin db.committed = none)
    (hctx : eng.exec (repository.auditContextStmt conv uid) db.committed = (.ok n, s1))
    (hq : eng.queryRow stmt s1 = (.error e, s2)) :
    repository.withAuditContext eng conv uid (repository.scanOne eng stmt)
        repository.zeroItem db =
      ((some e, repository.zeroItem),
        { committed := db.committed,
          log := db.log ++ [repository.auditContextStmt conv uid] ++ [stmt] }) := by
  have hfn : (repository.scanOne eng stmt
      ⟨s1, db.log ++ [repository.auditContextStmt conv uid]⟩).1.1 = some e := by
    simp [repository.scanOne, repository.Tx.queryRow, hq]
  rw [withAuditContext_fn_fails eng conv uid _ _ db n s1 e hb hctx hfn]
  simp [repository.scanOne, repository.Tx.queryRow, hq]

/-- The unit of `Delete` whose statement fails or affects no row. -/
theorem unit_deleteOne_error (eng : repository.Engine S) (conv : repository.Conv) (uid id : UUID)
    (db : repository.DB S) (n : Int) (s1 s2 : S) (res : Except domain.GoError Int)
    (e : domain.GoError)
    (hb : eng.begin db.committed = none)
    (hctx : eng.exec (repository.auditContextStmt conv uid) db.committed = (.ok n, s1))
    (hq : eng.exec (repository.deleteStmt id) s1 = (res, s2))
    (hres : res = .error e ∨ (res = .ok 0 ∧ e = domain.ErrNotFound)) :
    repository.withAuditContext eng conv uid (repository.deleteOne eng id) () db =
      ((some e, ()),
        { committed := db.committed,
          log := db.log ++ [repository.auditContextStmt conv uid] ++
            [repository.deleteStmt id] }) := by
  have hfn : (repository.deleteOne eng id
      ⟨s1, db.log ++ [repository.auditContextStmt conv uid]⟩).1.1 = some e := by
    rcases hres with h | ⟨h, he⟩ <;> subst h
    · simp [repository.deleteOne, repository.Tx.exec, hq]
    · simp [repository.deleteOne, repository.Tx.exec, hq, he]
  rw [withAuditContext_fn_fails eng conv uid _ _ db n s1 e hb hctx hfn]
  rcases hres with h | ⟨h, he⟩ <;> subst h <;>
    simp [repository.deleteOne, repository.Tx.exec, hq]

/-- `ItemRepository.Create` on a failing statement. -/
theorem create_on_error (r : repository.ItemRepository S) (uid : UUID)
    (input : domain.CreateItemInput) (db : repository.DB S) (n : Int) (s1 s2 : S)
    (e : domain.GoError)
    (hb : r.eng.begin db.committed = none)
    (hctx : r.eng.exec (repository.auditContextStmt r.conv uid) db.committed = (.ok n, s1))
    (hq : r.eng.queryRow (repository.createStmt r.conv input) s1 = (.error e, s2)) :
    (r.Create uid input db).1 =
      (none, some (.wrap "ItemRepository.Create"
        (if repository.isDuplicateKey e then domain.ErrDuplicateSKU else e))) := by
  unfold repository.ItemRepository.Create
  simp only [unit_scanOne_error r.eng r.conv uid _ db n s1 s2 e hb hctx hq]
  split <;> rfl

/-- `ItemRepository.Update` on a failing statement. -/
theorem update_on_error (r : repository.ItemRepository S) (uid id : UUID)
    (input : domain.UpdateItemInput) (st : repository.Stmt) (db : repository.DB S) (n : Int)
    (s1 s2 : S) (e : domain.GoError)
    (hst : repository.updateStmt r.conv id input = some st)
    (hb : r.eng.begin db.committed = none)
    (hctx : r.eng.exec (repository.auditContextStmt r.conv uid) db.committed = (.ok n, s1))
    (hq : r.eng.queryRow st s1 = (.error e, s2)) :
    (r.Update uid id input db).1 =
      (none, some (.wrap "ItemRepository.Update"
        (if repository.isDuplicateKey e then domain.ErrDuplicateSKU
          else if repository.isErrNoRows e then domain.ErrNotFound else e))) := by
  unfold repository.ItemRepository.Update
  simp only [hst, unit_scanOne_error r.eng r.conv uid _ db n s1 s2 e hb hctx hq]
  split
  · rfl
  · split <;> rfl

/-- `ItemRepository.Delete` on a failing statement or on no affected row. -/
theorem delete_on_error (r : repository.ItemRepository S) (uid id : UUID)
    (db : repository.DB S) (n : Int) (s1 s2 : S) (res : Except domain.GoError Int)
    (e : domain.GoError)
    (hb : r.eng.begin db.committed = none)
    (hctx : r.eng.exec (repository.auditContextStmt r.conv uid) db.committed = (.ok n, s1))
    (hq : r.eng.exec (repository.deleteStmt id) s1 = (res, s2))
    (hres : res = .error e ∨ (res = .ok 0 ∧ e = domain.ErrNotFound)) :
    (r.Delete uid id db).1 = some (.wrap "ItemRepository.Delete" e) := by
  unfold repository.ItemRepository.Delete
  simp only [unit_deleteOne_error r.eng r.conv uid id db n s1 s2 res e hb hctx hq hres]

/-- `ItemService.CreateItem` on a repository error. -/
theorem createItem_on_error (s : service.ItemService S) (claims : domain.AuthClaims)
    (input : domain.CreateItemInput) (w : World S ω) (err : domain.GoError)
    (hc : claims.Role.CanCreate = true)
    (hr : (s.itemRepo.Create claims.UserID input w.store).1.2 = some err) :
    (s.CreateItem claims input w).1 =
      (none, some (if err.Is .DuplicateSKU then domain.ErrDuplicateSKU
        else .wrap "ItemService.Create" err)) := by
  unfold service.ItemService.CreateItem
  simp only [hc, Bool.not_true, Bool.false_eq_true, if_false, invoke_fst, hr]
  split <;> rfl

/-- `ItemService.Update` on a repository error. -/
theorem update_svc_on_error (s : service.ItemService S) (claims : domain.AuthClaims) (id : UUID)
    (input : domain.UpdateItemInput) (w : World S ω) (err : domain.GoError)
    (hc : claims.Role.CanUpdate = true) (hch : input.HasChanges = true)
    (hr : (s.itemRepo.Update claims.UserID id input w.store).1.2 = some err) :
    (s.Update claims id input w).1 =
      (none, some (if err.Is .NotFound then domain.ErrNotFound
        else if err.Is .DuplicateSKU then domain.ErrDuplicateSKU
        else .wrap "ItemService.Update" err)) := by
  unfold service.ItemService.Update
  simp only [hc, hch, Bool.not_true, Bool.false_eq_true, if_false, invoke_fst, hr]
  split
  · rfl
  · split <;> rfl

/-- `ItemService.Delete` on a repository error. -/
theorem delete_svc_on_error (s : service.ItemService S) (claims : domain.AuthClaims) (id : UUID)
    (w : World S ω) (err : domain.GoError)
    (hc : claims.Role.CanDelete = true)
    (hr : (s.itemRepo.Delete claims.UserID id w.store).1 = some err) :
    (s.Delete claims id w).1 =
      some (if err.Is .NotFound then domain.ErrNotFound
        else .wrap "ItemService.Delete" err) := by
  unfold service.ItemService.Delete
  simp only [hc, Bool.not_true, Bool.false_eq_true, if_false, invoke_fst, hr]
  split <;> rfl

/-- `ItemService.GetByID` on a repository error. -/
theorem getByID_svc_on_error (s : service.ItemService S) (claims : domain.AuthClaims) (id : UUID)
    (w : World S ω) (err : domain.GoError)
    (hr : (s.itemRepo.GetByID id w.store).1.2 = some err) :
    (s.GetByID claims id w).1 =
      (none, some (if err.Is .NotFound then err else .wrap "ItemService.GetByID" err)) := by
  unfold service.ItemService.GetByID
  simp only [domain.Role.CanView, Bool.not_true, Bool.false_eq_true, if_false, invoke_fst, hr]
  split <;> rfl

/-- `ItemRepository.GetByID` on each failing outcome of the query. -/
theorem getByID_on_error (r : repository.ItemRepository S) (id : UUID) (db : repository.DB S)
    (e : domain.GoError) :
    (r.eng.selectRow (repository.getByIDStmt id) db.committed = .error e →
      (r.GetByID id db).1 = (none, some (.wrap "ItemRepository.GetByID" e))) ∧
    (r.eng.selectRow (repository.getByIDStmt id) db.committed = .ok (.error e) →
      (r.GetByID id db).1 =
        (none, some (if repository.isErrNoRows e
          then .wrap "ItemRepository.GetByID" domain.ErrNotFound
          else .wrap "ItemRepository.GetByID - scan item" e))) := by
  constructor
  · intro h
    simp [repository.ItemRepository.GetByID, h]
  · intro h
    unfold repository.ItemRepository.GetByID
    simp only [h]
    split <;> rfl

end translate

set_option maxRecDepth 20000 in
/-- The statement `Update` sends for the sample rename. -/
theorem renameStmt_eq :
    repository.updateStmt testdata.conv ⟨10⟩ testdata.rename = some testdata.renameStmt := by
  decide

/-! ### Empty collections -/

/-- C23, counterexample: on a query that yields zero rows,
`AuditRepository.List` returns the nil collection (with total 0 and no
error), not a non-null empty one. -/
theorem C23_counterexample :
    ((repository.AuditRepository.mk testdata.okEngine testdata.conv).List
      testdata.emptyFilter 20 0 testdata.db0).1 = (none, 0, none) := by
  rfl

section empty
variable {S σ ω : Type}

/-- C23, amended: on a query that yields zero rows and no error,
`ItemRepository.List` returns a non-null empty collection, whereas
`AuditRepository.List` and `AuditRepository.GetByItemID` return the nil
collection, both without error; `AuditService.List` and
`AuditService.GetByItemID` replace a nil collection handed back by the store
with a non-null empty one and keep a non-nil collection as it is, so what the
audit service returns is never nil. -/
theorem C23_empty_collections_amended (ri : repository.ItemRepository S)
    (ra : repository.AuditRepository S) (f : domain.ItemFilter) (af : domain.AuditFilter)
    (limit offset : Int) (db : repository.DB S) (s : service.AuditService σ)
    (claims : domain.AuthClaims) (itemID : UUID) (page pageSize : Int) (w : World σ ω)
    (hview : claims.Role.CanViewAudit = true)
    (hact : af.Action.any (fun a => !domain.AuditAction.IsValid a) = false) :
    (∀ rows, ri.eng.selectItems (repository.itemListStmt f limit offset) db.committed =
        .ok rows → rows.rows = [] → rows.err = none →
      (ri.List f limit offset db).1 = (some [], 0, none)) ∧
    (∀ rows, ra.eng.selectAudit (repository.auditListStmt af limit offset) db.committed =
        .ok rows → rows.rows = [] → rows.err = none →
      (ra.List af limit offset db).1 = (none, 0, none)) ∧
    (∀ rows, ra.eng.selectAuditPlain (repository.auditByItemStmt itemID) db.committed =
        .ok rows → rows.rows = [] → rows.err = none →
      (ra.GetByItemID itemID db).1 = (none, none)) ∧
    (∀ xs total,
      (s.auditRepo.List af (service.normalizePagination page pageSize).2
        (wrapInt64 (((service.normalizePagination page pageSize).1 - 1) *
          (service.normalizePagination page pageSize).2)) w.store).1 = (xs, total, none) →
      (s.List claims af page pageSize w).1 =
        (some { Entries := some (xs.getD []), Total := total,
                Page := (service.normalizePagination page pageSize).1,
                PageSize := (service.normalizePagination page pageSize).2,
                TotalPages := service.calcTotalPages total
                  (service.normalizePagination page pageSize).2 }, none)) ∧
    (∀ xs, (s.auditRepo.GetByItemID itemID w.store).1 = (xs, none) →
      (s.GetByItemID claims itemID w).1 = (some (xs.getD []), none)) := by
  refine ⟨?_, ?_, ?_, ?_, ?_⟩
  · intro rows h hr he
    simp [repository.ItemRepository.List, h, hr, he, repository.scanItems]
  · intro rows h hr he
    simp [repository.AuditRepository.List, h, hr, he, repository.scanAudit]
  · intro rows h hr he
    simp [repository.AuditRepository.GetByItemID, h, hr, he, repository.scanAuditPlain]
  · intro xs total h
    unfold service.AuditService.List
    simp only [hview, hact, Bool.not_true, Bool.false_eq_true, if_false, invoke_fst, h]
    cases xs <;> simp
  · intro xs h
    unfold service.AuditService.GetByItemID
    simp only [hview, Bool.not_true, Bool.false_eq_true, if_false, invoke_fst, h]
    cases xs <;> simp

end empty

/-- C23 amended, on the sample engine without rows: the item repository
returns an empty list, and the audit service over the audit repository turns
the nil collection into an empty list. -/
theorem C23_empty_collections_amended_witness :
    ((repository.ItemRepository.mk testdata.okEngine testdata.conv).List
        { Search := none } 20 0 testdata.db0).1 = (some [], 0, none) ∧
    ((service.AuditService.mk
        (repository.AuditRepository.mk testdata.okEngine testdata.conv).toService).List
        testdata.adminClaims testdata.emptyFilter 1 20 testdata.dbWorld).1 =
      (some { Entries := some [], Total := 0, Page := 1, PageSize := 20, TotalPages := 0 },
        none) ∧
    ((service.AuditService.mk
        (repository.AuditRepository.mk testdata.okEngine testdata.conv).toService).GetByItemID
        testdata.adminClaims ⟨10⟩ testdata.dbWorld).1 = (some [], none) :=
  have h := C23_empty_collections_amended
    (repository.ItemRepository.mk testdata.okEngine testdata.conv)
    (repository.AuditRepository.mk testdata.okEngine testdata.conv) { Search := none }
    testdata.emptyFilter 20 0 testdata.db0
    (service.AuditService.mk
      (repository.AuditRepository.mk testdata.okEngine testdata.conv).toService)
    testdata.adminClaims ⟨10⟩ 1 20 testdata.dbWorld (by decide) (by decide)
  ⟨h.1 _ rfl rfl rfl, h.2.2.2.1 none 0 rfl, h.2.2.2.2 none rfl⟩

/-! ### One unit per mutation -/

section atomic
variable {S α : Type}

/-- The shape of every run of `withAuditContext` around a callback that sends
the one statement `m`, whose effect on the working state is `step`. -/
theorem unit_shape (eng : repository.Engine S) (conv : repository.Conv) (uid : UUID)
    (fn : repository.Tx S → (Option domain.GoError × α) × repository.Tx S) (init : α)
    (db : repository.DB S) (m : repository.Stmt) (step : S → S)
    (hfn : ∀ tx : repository.Tx S, (fn tx).2 = ⟨step tx.working, tx.log ++ [m]⟩) :
    ((repository.withAuditContext eng conv uid fn init db).1.1 ≠ none →
      (repository.withAuditContext eng conv uid fn init db).2.committed = db.committed) ∧
    ((repository.withAuditContext eng conv uid fn init db).1.1 = none →
      (repository.withAuditContext eng conv uid fn init db).2 =
        ⟨step (eng.exec (repository.auditContextStmt conv uid) db.committed).2,
          db.log ++ [repository.auditContextStmt conv uid, m]⟩) ∧
    (eng.begin db.committed = none → ∀ err s1,
      eng.exec (repository.auditContextStmt conv uid) db.committed = (.error err, s1) →
      (repository.withAuditContext eng conv uid fn init db).1.1 =
          some (.wrap "set audit context" err) ∧
        (repository.withAuditContext eng conv uid fn init db).2 =
          ⟨db.committed, db.log ++ [repository.auditContextStmt conv uid]⟩) ∧
    ((repository.withAuditContext eng conv uid fn init db).2.log = db.log ∨
      (repository.withAuditContext eng conv uid fn init db).2.log =
        db.log ++ [repository.auditContextStmt conv uid] ∨
      (repository.withAuditContext eng conv uid fn init db).2.log =
        db.log ++ [repository.auditContextStmt conv uid, m]) := by
  refine ⟨withAuditContext_error_rolls_back eng conv uid fn init db, ?_, ?_, ?_⟩
  · intro hnone
    cases hb : eng.begin db.committed with
    | some err =>
      rw [withAuditContext_begin_fails eng conv uid fn init db err hb] at hnone
      cases hnone
    | none =>
      cases hctx : eng.exec (repository.auditContextStmt conv uid) db.committed with
      | mk res s1 =>
        cases res with
        | error err =>
          rw [withAuditContext_context_fails eng conv uid fn init db err s1 hb hctx] at hnone
          cases hnone
        | ok n =>
          cases hf : (fn ⟨s1, db.log ++ [repository.auditContextStmt conv uid]⟩).1.1 with
          | some err =>
            rw [withAuditContext_fn_fails eng conv uid fn init db n s1 err hb hctx hf] at hnone
            cases hnone
          | none =>
            have h := withAuditContext_fn_ok eng conv uid fn init db n s1 hb hctx hf
            cases hc : eng.commit
                (fn ⟨s1, db.log ++ [repository.auditContextStmt conv uid]⟩).2.working with
            | some err =>
              rw [hc] at h
              rw [h] at hnone
              cases hnone
            | none =>
              rw [hc] at h
              rw [h]
              simp [hfn]
  · intro hb err s1 hctx
    rw [withAuditContext_context_fails eng conv uid fn init db err s1 hb hctx]
    exact ⟨rfl, rfl⟩
  · cases hb : eng.begin db.committed with
    | some err =>
      rw [withAuditContext_begin_fails eng conv uid fn init db err hb]
      exact Or.inl rfl
    | none =>
      cases hctx : eng.exec (repository.auditContextStmt conv uid) db.committed with
      | mk res s1 =>
        cases res with
        | error err =>
          rw [withAuditContext_context_fails eng conv uid fn init db err s1 hb hctx]
          exact Or.inr (Or.inl rfl)
        | ok n =>
          refine Or.inr (Or.inr ?_)
          cases hf : (fn ⟨s1, db.log ++ [repository.auditContextStmt conv uid]⟩).1.1 with
          | some err =>
            rw [withAuditContext_fn_fails eng conv uid fn init db n s1 err hb hctx hf]
            simp [hfn]
          | none =>
            have h := withAuditContext_fn_ok eng conv uid fn init db n s1 hb hctx hf
            cases hc : eng.commit
                (fn ⟨s1, db.log ++ [repository.auditContextStmt conv uid]⟩).2.working with
            | some err =>
              rw [hc] at h
              rw [h]
              simp [hfn]
            | none =>
              rw [hc] at h
              rw [h]
              simp [hfn]

/-- The callback of a row-returning mutation sends its one statement. -/
theorem scanOne_sends (eng : repository.Engine S) (stmt : repository.Stmt)
    (tx : repository.Tx S) :
    (repository.scanOne eng stmt tx).2 =
      ⟨(eng.queryRow stmt tx.working).2, tx.log ++ [stmt]⟩ := by
  unfold repository.scanOne repository.Tx.queryRow
  cases h : (eng.queryRow stmt tx.working).1 with
  | error e => simp [h]
  | ok i => simp [h]

/-- The callback of `Delete` sends its one statement. -/
theorem deleteOne_sends (eng : repository.Engine S) (id : UUID) (tx : repository.Tx S) :
    (repository.deleteOne eng id tx).2 =
      ⟨(eng.exec (repository.deleteStmt id) tx.working).2,
        tx.log ++ [repository.deleteStmt id]⟩ := by
  unfold repository.deleteOne repository.Tx.exec
  cases h : (eng.exec (repository.deleteStmt id) tx.working).1 with
  | error e => simp [h]
  | ok rows =>
    simp only [h]
    split <;> rfl

/-- `Create` reports the unit's error and leaves the unit's database. -/
theorem create_unit (r : repository.ItemRepository S) (uid : UUID)
    (input : domain.CreateItemInput) (db : repository.DB S) :
    ((r.Create uid input db).1.2 = none ↔
      (repository.withAuditContext r.eng r.conv uid
        (repository.scanOne r.eng (repository.createStmt r.conv input))
        repository.zeroItem db).1.1 = none) ∧
    (r.Create uid input db).2 =
      (repository.withAuditContext r.eng r.conv uid
        (repository.scanOne r.eng (repository.createStmt r.conv input))
        repository.zeroItem db).2 := by
  unfold repository.ItemRepository.Create
  cases h : (repository.withAuditContext r.eng r.conv uid
      (repository.scanOne r.eng (repository.createStmt r.conv input))
      repository.zeroItem db).1.1 with
  | none => simp [h]
  | some err =>
    simp only [h]
    split <;> simp

/-- `Update` reports the unit's error and leaves the unit's database. -/
theorem update_unit (r : repository.ItemRepository S) (uid id : UUID)
    (input : domain.UpdateItemInput) (st : repository.Stmt) (db : repository.DB S)
    (hst : repository.updateStmt r.conv id input = some st) :
    ((r.Update uid id input db).1.2 = none ↔
      (repository.withAuditContext r.eng r.conv uid (repository.scanOne r.eng st)
        repository.zeroItem db).1.1 = none) ∧
    (r.Update uid id input db).2 =
      (repository.withAuditContext r.eng r.conv uid (repository.scanOne r.eng st)
        repository.zeroItem db).2 := by
  unfold repository.ItemRepository.Update
  simp only [hst]
  cases h : (repository.withAuditContext r.eng r.conv uid (repository.scanOne r.eng st)
      repository.zeroItem db).1.1 with
  | none => simp [h]
  | some err =>
    simp only [h]
    split
    · simp
    · split <;> simp

/-- `Delete` reports the unit's error and leaves the unit's database. -/
theorem delete_unit (r : repository.ItemRepository S) (uid id : UUID)
    (db : repository.DB S) :
    ((r.Delete uid id db).1 = none ↔
      (repository.withAuditContext r.eng r.conv uid (repository.deleteOne r.eng id)
        () db).1.1 = none) ∧
    (r.Delete uid id db).2 =
      (repository.withAuditContext r.eng r.conv uid (repository.deleteOne r.eng id)
        () db).2 := by
  unfold repository.ItemRepository.Delete
  cases h : (repository.withAuditContext r.eng r.conv uid (repository.deleteOne r.eng id)
      () db).1.1 with
  | none => simp [h]
  | some err => simp [h]

end atomic


/-! ### Totals and search over tables -/

/-- C26: with three items and two audit entries stored and no filter, the
first page reports the totals 3 and 2, whereas the second page of 20, which
lies past the last row, reports total 0 and zero pages for both lists: the
count arrives with the rows, and a page without rows brings none. -/
theorem C26_total_past_the_end :
    (testdata.tableItems.ListItems testdata.adminClaims { Search := none } 1 20
        testdata.tableWorld).1 =
      (some { Items := some [testdata.laptop, testdata.mouse, testdata.desk], Total := 3,
              Page := 1, PageSize := 20, TotalPages := 1 }, none) ∧
    (testdata.tableItems.ListItems testdata.adminClaims { Search := none } 2 20
        testdata.tableWorld).1 =
      (some { Items := some [], Total := 0, Page := 2, PageSize := 20, TotalPages := 0 },
        none) ∧
    (testdata.tableAudit.List testdata.adminClaims testdata.emptyFilter 1 20
        testdata.tableWorld).1 =
      (some { Entries := some [testdata.updateEntry, testdata.insertEntry], Total := 2,
              Page := 1, PageSize := 20, TotalPages := 1 }, none) ∧
    (testdata.tableAudit.List testdata.adminClaims testdata.emptyFilter 2 20
        testdata.tableWorld).1 =
      (some { Entries := some [], Total := 0, Page := 2, PageSize := 20, TotalPages := 0 },
        none) := by
  refine ⟨?_, ?_, ?_, ?_⟩ <;> rfl

/-- C29: the search string `_` is bound once as the pattern `%_%`, in which
the underscore stands for any character: the item named Laptop with SKU
LAP-001 is listed although neither contains an underscore; likewise the
search string `%` finds a text without a percent sign, and the search string
made of one backslash does not find a text that contains a backslash. -/
theorem C29_wildcards_not_escaped :
    (repository.itemListStmt { Search := some "_" } 20 0).args =
      [.text "%_%", .int 20, .int 0] ∧
    (testdata.tableItems.ListItems testdata.adminClaims { Search := some "_" } 1 20
        testdata.tableWorld).1 =
      (some { Items := some [testdata.laptop, testdata.mouse, testdata.desk], Total := 3,
              Page := 1, PageSize := 20, TotalPages := 1 }, none) ∧
    postgres.containsFold "_" testdata.laptop.Name = false ∧
    postgres.containsFold "_" testdata.laptop.SKU = false ∧
    postgres.ilike ("%" ++ "%" ++ "%") "Desk" = true ∧
    postgres.containsFold "%" "Desk" = false ∧
    postgres.ilike ("%" ++ "\\" ++ "%") "a\\b" = false ∧
    postgres.containsFold "\\" "a\\b" = true := by
  refine ⟨?_, ?_, ?_, ?_, ?_, ?_, ?_, ?_⟩ <;> decide

/-! ### Storage signals, for every role -/

section signals
variable {S ω : Type}

/-- C22: storage signals are translated at the storage boundary. Inside a
transaction that has begun and recorded the acting user: when the statement
of Create or Update fails with `e`, the repository error wraps DuplicateSKU if
the chain of `e` holds a `*pq.Error` with code 23505, NotFound (Update only)
if it holds `sql.ErrNoRows`, and `e` itself otherwise; Delete wraps NotFound
when no row was affected and the statement's error otherwise. GetByID wraps
NotFound when the scan finds no row and the query or scan error otherwise.
For every role that passes the gate of the operation, ItemService then
returns exactly `ErrDuplicateSKU` for a unique violation, an error that is
NotFound for an absent row, and for a store error that holds no domain error
the cause wrapped with both operation names. `ErrDuplicateSKU` maps to 409
with the SKU message, which is neither the AlreadyExists response nor 500;
an error that is NotFound maps to 404; the doubly wrapped store error is
neither DuplicateSKU nor NotFound and maps to 500. -/
theorem C22_storage_signals (r : repository.ItemRepository S) (claims : domain.AuthClaims)
    (id : UUID) (cin : domain.CreateItemInput) (uin : domain.UpdateItemInput)
    (w : World (repository.DB S) ω) (e : domain.GoError) :
    (∀ n s1 s2, r.eng.begin w.store.committed = none →
      r.eng.exec (repository.auditContextStmt r.conv claims.UserID) w.store.committed =
        (.ok n, s1) →
      (r.eng.queryRow (repository.createStmt r.conv cin) s1 = (.error e, s2) →
        (r.Create claims.UserID cin w.store).1 =
          (none, some (.wrap "ItemRepository.Create"
            (if repository.isDuplicateKey e then domain.ErrDuplicateSKU else e))) ∧
        (claims.Role.CanCreate = true → repository.isDuplicateKey e = true →
          ((service.ItemService.mk r.toService).CreateItem claims cin w).1 =
            (none, some domain.ErrDuplicateSKU)) ∧
        (claims.Role.CanCreate = true → repository.isDuplicateKey e = false →
          (∀ k, e.Is k = false) →
          ((service.ItemService.mk r.toService).CreateItem claims cin w).1 =
            (none, some (.wrap "ItemService.Create" (.wrap "ItemRepository.Create" e))))) ∧
      (∀ st, repository.updateStmt r.conv id uin = some st →
        r.eng.queryRow st s1 = (.error e, s2) →
        (r.Update claims.UserID id uin w.store).1 =
          (none, some (.wrap "ItemRepository.Update"
            (if repository.isDuplicateKey e then domain.ErrDuplicateSKU
              else if repository.isErrNoRows e then domain.ErrNotFound else e))) ∧
        (claims.Role.CanUpdate = true → repository.isDuplicateKey e = true →
          ((service.ItemService.mk r.toService).Update claims id uin w).1 =
            (none, some domain.ErrDuplicateSKU)) ∧
        (claims.Role.CanUpdate = true → repository.isErrNoRows e = true →
          ((service.ItemService.mk r.toService).Update claims id uin w).1 =
            (none, some domain.ErrNotFound)) ∧
        (claims.Role.CanUpdate = true → repository.isDuplicateKey e = false →
          repository.isErrNoRows e = false → (∀ k, e.Is k = false) →
          ((service.ItemService.mk r.toService).Update claims id uin w).1 =
            (none, some (.wrap "ItemService.Update" (.wrap "ItemRepository.Update" e))))) ∧
      (r.eng.exec (repository.deleteStmt id) s1 = (.ok 0, s2) →
        (r.Delete claims.UserID id w.store).1 =
          some (.wrap "ItemRepository.Delete" domain.ErrNotFound) ∧
        (claims.Role.CanDelete = true →
          ((service.ItemService.mk r.toService).Delete claims id w).1 =
            some domain.ErrNotFound)) ∧
      (r.eng.exec (repository.deleteStmt id) s1 = (.error e, s2) →
        (r.Delete claims.UserID id w.store).1 = some (.wrap "ItemRepository.Delete" e) ∧
        (claims.Role.CanDelete = true → (∀ k, e.Is k = false) →
          ((service.ItemService.mk r.toService).Delete claims id w).1 =
            some (.wrap "ItemService.Delete" (.wrap "ItemRepository.Delete" e))))) ∧
    (r.eng.selectRow (repository.getByIDStmt id) w.store.committed = .ok (.error e) →
      (r.GetByID id w.store).1 =
        (none, some (if repository.isErrNoRows e
          then .wrap "ItemRepository.GetByID" domain.ErrNotFound
          else .wrap "ItemRepository.GetByID - scan item" e)) ∧
      (repository.isErrNoRows e = true →
        ((service.ItemService.mk r.toService).GetByID claims id w).1 =
          (none, some (.wrap "ItemRepository.GetByID" domain.ErrNotFound))) ∧
      (repository.isErrNoRows e = false → (∀ k, e.Is k = false) →
        ((service.ItemService.mk r.toService).GetByID claims id w).1 =
          (none, some (.wrap "ItemService.GetByID"
            (.wrap "ItemRepository.GetByID - scan item" e))))) ∧
    (r.eng.selectRow (repository.getByIDStmt id) w.store.committed = .error e →
      (r.GetByID id w.store).1 = (none, some (.wrap "ItemRepository.GetByID" e)) ∧
      ((∀ k, e.Is k = false) →
        ((service.ItemService.mk r.toService).GetByID claims id w).1 =
          (none, some (.wrap "ItemService.GetByID" (.wrap "ItemRepository.GetByID" e))))) ∧
    (handler.mapError domain.ErrDuplicateSKU = (409, "item with this SKU already exists") ∧
      handler.mapError domain.ErrDuplicateSKU ≠ handler.mapError domain.ErrAlreadyExists ∧
      (handler.mapError domain.ErrDuplicateSKU).1 ≠ 500) ∧
    (∀ err : domain.GoError, err.Is .NotFound = true →
      handler.mapError err = (404, "not found")) ∧
    ((∀ k, e.Is k = false) → ∀ m1 m2 : String,
      (domain.GoError.wrap m1 (.wrap m2 e)).Is .DuplicateSKU = false ∧
      (domain.GoError.wrap m1 (.wrap m2 e)).Is .NotFound = false ∧
      handler.mapError (.wrap m1 (.wrap m2 e)) = (500, "internal server error")) := by
  refine ⟨?_, ?_, ?_, ⟨by decide, by decide, by decide⟩,
    fun err h => mapError_of_is err .NotFound h, ?_⟩
  · intro n s1 s2 hb hctx
    refine ⟨?_, ?_, ?_, ?_⟩
    · intro hq
      have h1 := create_on_error r claims.UserID cin w.store n s1 s2 e hb hctx hq
      have h2 := fun (hc : claims.Role.CanCreate = true) =>
        createItem_on_error (ω := ω) (service.ItemService.mk r.toService) claims cin w
          (.wrap "ItemRepository.Create"
            (if repository.isDuplicateKey e then domain.ErrDuplicateSKU else e)) hc
          (by show (r.Create claims.UserID cin w.store).1.2 = _; rw [h1])
      refine ⟨h1, ?_, ?_⟩
      · intro hc hdup
        rw [h2 hc, hdup]
        rfl
      · intro hc hdup hk
        rw [h2 hc, hdup]
        simp only [Bool.false_eq_true, if_false, is_wrap, hk]
    · intro st hst hq
      have hch : uin.HasChanges = true := by
        cases h : uin.HasChanges with
        | true => rfl
        | false =>
          rw [(updateStmt_none_iff r.conv id uin).2 h] at hst
          cases hst
      have h1 := update_on_error r claims.UserID id uin st w.store n s1 s2 e hst hb hctx hq
      have h2 := fun (hu : claims.Role.CanUpdate = true) =>
        update_svc_on_error (ω := ω) (service.ItemService.mk r.toService) claims id uin w
          (.wrap "ItemRepository.Update"
            (if repository.isDuplicateKey e then domain.ErrDuplicateSKU
              else if repository.isErrNoRows e then domain.ErrNotFound else e)) hu hch
          (by show (r.Update claims.UserID id uin w.store).1.2 = _; rw [h1])
      refine ⟨h1, ?_, ?_, ?_⟩
      · intro hu hdup
        rw [h2 hu, hdup]
        rfl
      · intro hu hnr
        rw [h2 hu, noRows_not_duplicate e hnr, hnr]
        rfl
      · intro hu hdup hnr hk
        rw [h2 hu, hdup, hnr]
        simp only [Bool.false_eq_true, if_false, is_wrap, hk]
    · intro hq
      have h1 := delete_on_error r claims.UserID id w.store n s1 s2 (.ok 0) domain.ErrNotFound
        hb hctx hq (Or.inr ⟨rfl, rfl⟩)
      refine ⟨h1, fun hd => ?_⟩
      rw [delete_svc_on_error (ω := ω) (service.ItemService.mk r.toService) claims id w
        (.wrap "ItemRepository.Delete" domain.ErrNotFound) hd
        (by show (r.Delete claims.UserID id w.store).1 = _; rw [h1])]
      rfl
    · intro hq
      have h1 := delete_on_error r claims.UserID id w.store n s1 s2 (.error e) e
        hb hctx hq (Or.inl rfl)
      refine ⟨h1, fun hd hk => ?_⟩
      rw [delete_svc_on_error (ω := ω) (service.ItemService.mk r.toService) claims id w
        (.wrap "ItemRepository.Delete" e) hd
        (by show (r.Delete claims.UserID id w.store).1 = _; rw [h1])]
      simp only [is_wrap, hk, Bool.false_eq_true, if_false]
  · intro hq
    have h1 := (getByID_on_error r id w.store e).2 hq
    have h2 := getByID_svc_on_error (ω := ω) (service.ItemService.mk r.toService) claims id w
      (if repository.isErrNoRows e then .wrap "ItemRepository.GetByID" domain.ErrNotFound
        else .wrap "ItemRepository.GetByID - scan item" e)
      (by show (r.GetByID id w.store).1.2 = _; rw [h1])
    refine ⟨h1, ?_, ?_⟩
    · intro hnr
      rw [h2, hnr]
      rfl
    · intro hnr hk
      rw [h2, hnr]
      simp only [Bool.false_eq_true, if_false, is_wrap, hk]
  · intro hq
    have h1 := (getByID_on_error r id w.store e).1 hq
    refine ⟨h1, fun hk => ?_⟩
    rw [getByID_svc_on_error (ω := ω) (service.ItemService.mk r.toService) claims id w
      (.wrap "ItemRepository.GetByID" e)
      (by show (r.GetByID id w.store).1.2 = _; rw [h1])]
    simp only [is_wrap, hk, Bool.false_eq_true, if_false]
  · intro hk m1 m2
    have hall : ∀ k, (domain.GoError.wrap m1 (.wrap m2 e)).Is k = false := fun k => hk k
    refine ⟨hall _, hall _, ?_⟩
    simp only [handler.mapError, handler.mapErrorBy, hall]
    rfl

end signals

/-- C22 on sample engines: for a manager, a unique violation on Create and on
Update comes back as `ErrDuplicateSKU`; for an admin, a Delete of no row comes
back as `ErrNotFound`; for a viewer, a GetByID of no row comes back as an
error that is NotFound; for a manager, a lost connection on Create comes back
wrapped by the repository and the service. -/
theorem C22_storage_signals_witness :
    ((service.ItemService.mk
        (repository.ItemRepository.mk testdata.duplicateEngine testdata.conv).toService).CreateItem
        testdata.managerClaims testdata.itemInput testdata.dbWorld).1 =
      (none, some domain.ErrDuplicateSKU) ∧
    ((service.ItemService.mk
        (repository.ItemRepository.mk testdata.duplicateEngine testdata.conv).toService).Update
        testdata.managerClaims ⟨10⟩ testdata.rename testdata.dbWorld).1 =
      (none, some domain.ErrDuplicateSKU) ∧
    ((service.ItemService.mk
        (repository.ItemRepository.mk testdata.missingEngine testdata.conv).toService).Delete
        testdata.adminClaims ⟨10⟩ testdata.dbWorld).1 = some domain.ErrNotFound ∧
    ((service.ItemService.mk
        (repository.ItemRepository.mk testdata.missingEngine testdata.conv).toService).GetByID
        testdata.viewerClaims ⟨10⟩ testdata.dbWorld).1 =
      (none, some (.wrap "ItemRepository.GetByID" domain.ErrNotFound)) ∧
    ((service.ItemService.mk
        (repository.ItemRepository.mk testdata.brokenEngine testdata.conv).toService).CreateItem
        testdata.managerClaims testdata.itemInput testdata.dbWorld).1 =
      (none, some (.wrap "ItemService.Create"
        (.wrap "ItemRepository.Create" (.foreign "connection reset")))) :=
  ⟨(((C22_storage_signals (repository.ItemRepository.mk testdata.duplicateEngine testdata.conv)
      testdata.managerClaims ⟨10⟩ testdata.itemInput testdata.rename testdata.dbWorld
      testdata.uniqueViolation).1 1 1 2 rfl rfl).1 rfl).2.1 (by decide) (by decide),
   (((C22_storage_signals (repository.ItemRepository.mk testdata.duplicateEngine testdata.conv)
      testdata.managerClaims ⟨10⟩ testdata.itemInput testdata.rename testdata.dbWorld
      testdata.uniqueViolation).1 1 1 2 rfl rfl).2.1 testdata.renameStmt renameStmt_eq
      rfl).2.1 (by decide) (by decide),
   (((C22_storage_signals (repository.ItemRepository.mk testdata.missingEngine testdata.conv)
      testdata.adminClaims ⟨10⟩ testdata.itemInput testdata.rename testdata.dbWorld
      .sqlNoRows).1 1 1 2 rfl rfl).2.2.1 rfl).2 (by decide),
   ((C22_storage_signals (repository.ItemRepository.mk testdata.missingEngine testdata.conv)
      testdata.viewerClaims ⟨10⟩ testdata.itemInput testdata.rename testdata.dbWorld
      .sqlNoRows).2.1 rfl).2.1 (by decide),
   (((C22_storage_signals (repository.ItemRepository.mk testdata.brokenEngine testdata.conv)
      testdata.managerClaims ⟨10⟩ testdata.itemInput testdata.rename testdata.dbWorld
      (.foreign "connection reset")).1 1 1 2 rfl rfl).1 rfl).2.2 (by decide) (by decide)
      (fun _ => rfl)⟩

/-! ### The statements the repository sends -/

section sends
variable {S ω : Type}

/-- `AuditRepository.List` sends one statement, the one built from the filter,
whatever the engine answers. -/
theorem auditList_sends (ra : repository.AuditRepository S) (filter : domain.AuditFilter)
    (limit offset : Int) (db : repository.DB S) :
    (ra.List filter limit offset db).2 =
      ⟨db.committed, db.log ++ [repository.auditListStmt filter limit offset]⟩ := by
  unfold repository.AuditRepository.List
  cases h : ra.eng.selectAudit (repository.auditListStmt filter limit offset) db.committed with
  | error e => simp [h]
  | ok rows =>
    simp only [h]
    cases hs : repository.scanAudit rows.rows none 0 with
    | error e => simp [hs]
    | ok p =>
      obtain ⟨res, total⟩ := p
      simp only [hs]
      cases he : rows.err <;> simp [he]

/-- `ItemRepository.List` sends one statement, the one built from the filter,
whatever the engine answers. -/
theorem itemList_sends (ri : repository.ItemRepository S) (filter : domain.ItemFilter)
    (limit offset : Int) (db : repository.DB S) :
    (ri.List filter limit offset db).2 =
      ⟨db.committed, db.log ++ [repository.itemListStmt filter limit offset]⟩ := by
  unfold repository.ItemRepository.List
  cases h : ri.eng.selectItems (repository.itemListStmt filter limit offset) db.committed with
  | error e => simp [h]
  | ok rows =>
    simp only [h]
    cases hs : repository.scanItems rows.rows none 0 with
    | error e => simp [hs]
    | ok p =>
      obtain ⟨res, total⟩ := p
      simp only [hs]
      cases he : rows.err <;> simp [he]

/-- Once the transaction has begun and the user is recorded, the unit has sent
the recording statement and then what the callback sends. -/
theorem unit_log {α : Type} (eng : repository.Engine S) (conv : repository.Conv) (uid : UUID)
    (fn : repository.Tx S → (Option domain.GoError × α) × repository.Tx S) (init : α)
    (db : repository.DB S) (n : Int) (s1 : S)
    (hb : eng.begin db.committed = none)
    (hctx : eng.exec (repository.auditContextStmt conv uid) db.committed = (.ok n, s1)) :
    (repository.withAuditContext eng conv uid fn init db).2.log =
      (fn ⟨s1, db.log ++ [repository.auditContextStmt conv uid]⟩).2.log := by
  cases hf : (fn ⟨s1, db.log ++ [repository.auditContextStmt conv uid]⟩).1.1 with
  | some err => rw [withAuditContext_fn_fails eng conv uid fn init db n s1 err hb hctx hf]
  | none =>
    have h := withAuditContext_fn_ok eng conv uid fn init db n s1 hb hctx hf
    cases hc : eng.commit
        (fn ⟨s1, db.log ++ [repository.auditContextStmt conv uid]⟩).2.working with
    | some err =>
      rw [hc] at h
      rw [h]
    | none =>
      rw [hc] at h
      rw [h]

/-- What `ItemRepository.Update` sends: nothing when no field is set; with a
field set, once the transaction has begun and the user is recorded, the
recording statement and then the update statement. -/
theorem update_sends (r : repository.ItemRepository S) (uid id : UUID)
    (input : domain.UpdateItemInput) (db : repository.DB S) :
    (input.HasChanges = false →
      r.Update uid id input db =
        ((none, some (.wrap "ItemRepository.Update" domain.ErrNoChanges)), db)) ∧
    (input.HasChanges = true → ∃ st, repository.updateStmt r.conv id input = some st ∧
      (r.eng.begin db.committed = none →
        (r.Update uid id input db).2.log ≠ db.log ∧
        ∀ n s1, r.eng.exec (repository.auditContextStmt r.conv uid) db.committed =
          (.ok n, s1) →
          (r.Update uid id input db).2.log =
            db.log ++ [repository.auditContextStmt r.conv uid, st])) := by
  constructor
  · intro h
    have hn := (updateStmt_none_iff r.conv id input).2 h
    simp [repository.ItemRepository.Update, hn]
  · intro h
    cases hst : repository.updateStmt r.conv id input with
    | none =>
      have := (updateStmt_none_iff r.conv id input).1 hst
      rw [h] at this
      exact absurd this (by decide)
    | some st =>
      refine ⟨st, rfl, fun hb => ?_⟩
      have hu := (update_unit r uid id input st db hst).2
      constructor
      · rw [hu]
        cases hctx : r.eng.exec (repository.auditContextStmt r.conv uid) db.committed with
        | mk res s1 =>
          cases res with
          | error err =>
            rw [withAuditContext_context_fails r.eng r.conv uid _ _ db err s1 hb hctx]
            simp
          | ok n =>
            rw [unit_log r.eng r.conv uid _ _ db n s1 hb hctx, scanOne_sends]
            simp
      · intro n s1 hctx
        rw [hu, unit_log r.eng r.conv uid _ _ db n s1 hb hctx, scanOne_sends]
        simp

end sends

/-- The condition text of the audit list holds exactly one clause per filter
field that is present, in the order item id, user id, action, date-from,
date-to, numbered from 1 and joined by AND, and there is no WHERE part when no
field is present; id and action clauses use `=`, date-from `>=` and date-to
`<=`. For the item list an absent or empty search gives no WHERE part. -/
theorem condition_text_shape (filter : domain.AuditFilter) (ifilter : domain.ItemFilter) :
    repository.auditFilterFields filter =
      [("a.item_id = $", filter.ItemID.map repository.Arg.uuid),
        ("a.changed_by = $", filter.UserID.map repository.Arg.uuid),
        ("a.action = $", filter.Action.map repository.Arg.text),
        ("a.changed_at >= $", filter.DateFrom.map repository.Arg.time),
        ("a.changed_at <= $", filter.DateTo.map repository.Arg.time)] ∧
    (repository.auditListBuilder filter).clauses =
      repository.numbered 1 (repository.presentFields (repository.auditFilterFields filter)) ∧
    (repository.auditListBuilder filter).clauses.length =
      (repository.presentFields (repository.auditFilterFields filter)).length ∧
    repository.whereText (repository.auditListBuilder filter).clauses =
      (if repository.presentFields (repository.auditFilterFields filter) = [] then ""
       else "WHERE " ++ " AND ".intercalate
        (repository.numbered 1
          (repository.presentFields (repository.auditFilterFields filter)))) ∧
    ((filter.ItemID = none ∧ filter.UserID = none ∧ filter.Action = none ∧
        filter.DateFrom = none ∧ filter.DateTo = none) →
      repository.whereText (repository.auditListBuilder filter).clauses = "") ∧
    repository.whereText (repository.auditListBuilder testdata.fullFilter).clauses =
      "WHERE a.item_id = $1 AND a.changed_by = $2 AND a.action = $3 AND " ++
        "a.changed_at >= $4 AND a.changed_at <= $5" ∧
    repository.whereText (repository.auditListBuilder testdata.actionUntilFilter).clauses =
      "WHERE a.action = $1 AND a.changed_at <= $2" ∧
    ¬ ("WHERE".data <:+: (repository.auditListStmt testdata.emptyFilter 20 0).text.data) ∧
    ((ifilter.Search = none ∨ ifilter.Search = some "") →
      repository.whereText (repository.itemListBuilder ifilter).clauses = "" ∧
      (repository.itemListStmt ifilter 20 0).text =
        (repository.itemListStmt ⟨none⟩ 20 0).text) ∧
    ¬ ("WHERE".data <:+: (repository.itemListStmt ⟨none⟩ 20 0).text.data) := by
  have hc := auditListBuilder_closed filter
  refine ⟨rfl, hc.1, ?_, ?_, ?_, by decide, by decide, auditList_empty_no_where, ?_,
    itemList_empty_no_where⟩
  · rw [hc.1, numbered_length]
  · rw [hc.1]
    unfold repository.whereText
    rw [numbered_length]
    cases hps : repository.presentFields (repository.auditFilterFields filter) with
    | nil => simp
    | cons p ps => simp
  · rintro ⟨h1, h2, h3, h4, h5⟩
    simp [repository.auditListBuilder, h1, h2, h3, h4, h5, repository.Builder.add,
      repository.Builder.init, repository.whereText]
  · intro h
    rcases h with h | h <;>
      simp [repository.itemListBuilder, repository.itemListStmt, h, repository.Builder.init,
        repository.whereText]

/-- In the three dynamically built statements the text does not depend on the
values supplied: inputs with the same fields present give the same text. The
clauses carry the placeholders 1 to the number of present fields in order, the
lists end with the next two placeholders for limit and offset, the update with
the next one for the item id; the bound values are the present values in that
order followed by limit and offset, or by the item id. -/
theorem statement_values_bound (conv : repository.Conv) (f1 f2 : domain.AuditFilter)
    (u1 u2 : domain.UpdateItemInput) (id1 id2 : UUID) (ifilter : domain.ItemFilter)
    (s1 s2 : String) (l1 o1 l2 o2 : Int) :
    (f1.ItemID.isSome = f2.ItemID.isSome → f1.UserID.isSome = f2.UserID.isSome →
      f1.Action.isSome = f2.Action.isSome → f1.DateFrom.isSome = f2.DateFrom.isSome →
      f1.DateTo.isSome = f2.DateTo.isSome →
      (repository.auditListStmt f1 l1 o1).text = (repository.auditListStmt f2 l2 o2).text) ∧
    (s1 ≠ "" → s2 ≠ "" →
      (repository.itemListStmt ⟨some s1⟩ l1 o1).text =
        (repository.itemListStmt ⟨some s2⟩ l2 o2).text) ∧
    ((ifilter.Search = none ∨ ifilter.Search = some "") →
      (repository.itemListStmt ifilter l1 o1).text =
        (repository.itemListStmt ⟨none⟩ l2 o2).text) ∧
    (u1.Name.isSome = u2.Name.isSome → u1.SKU.isSome = u2.SKU.isSome →
      u1.Quantity.isSome = u2.Quantity.isSome → u1.Price.isSome = u2.Price.isSome →
      u1.Location.isSome = u2.Location.isSome →
      (repository.updateStmt conv id1 u1).map (fun st => st.text) =
        (repository.updateStmt conv id2 u2).map (fun st => st.text)) ∧
    ((repository.auditListBuilder f1).clauses =
        repository.numbered 1 (repository.presentFields (repository.auditFilterFields f1)) ∧
      (repository.auditListBuilder f1).argIdx =
        (repository.presentFields (repository.auditFilterFields f1)).length + 1 ∧
      (repository.auditListStmt f1 l1 o1).args =
        (repository.presentFields (repository.auditFilterFields f1)).map (fun p => p.2) ++
          [.int l1, .int o1] ∧
      (repository.auditListStmt f1 l1 o1).args.length =
        (repository.presentFields (repository.auditFilterFields f1)).length + 2) ∧
    (s1 ≠ "" →
      (repository.itemListStmt ⟨some s1⟩ l1 o1).args =
        [.text ("%" ++ s1 ++ "%"), .int l1, .int o1] ∧
      (repository.itemListBuilder ⟨some s1⟩).argIdx = 2) ∧
    ((ifilter.Search = none ∨ ifilter.Search = some "") →
      (repository.itemListStmt ifilter l1 o1).args = [.int l1, .int o1] ∧
      (repository.itemListBuilder ifilter).argIdx = 1) ∧
    ((repository.updateBuilder conv u1).clauses =
        repository.numbered 1 (repository.presentFields (repository.updateFields conv u1)) ∧
      (repository.updateBuilder conv u1).argIdx =
        (repository.presentFields (repository.updateFields conv u1)).length + 1 ∧
      (∀ st, repository.updateStmt conv id1 u1 = some st →
        st.args =
          (repository.presentFields (repository.updateFields conv u1)).map (fun p => p.2) ++
            [.uuid id1] ∧
        st.args.length =
          (repository.presentFields (repository.updateFields conv u1)).length + 1)) ∧
    ((repository.itemListStmt ⟨some "lap"⟩ 20 40).text =
      "\n\t\tSELECT \n\t\t    id, name, sku, quantity, price, location, created_at, " ++
        "updated_at,\n\t\t\tCOUNT(*) OVER() AS total_count\n\t\tFROM items " ++
        "WHERE (name ILIKE $1 OR sku ILIKE $1)\n\t\tORDER BY created_at DESC\n\t\t" ++
        "LIMIT $2 OFFSET $3\n\t" ∧
      (repository.updateStmt testdata.conv ⟨10⟩ testdata.renameRestock).map
          (fun st => st.text) =
        some ("\n\t\tUPDATE items\n\t\tSET name = $1, quantity = $2\n\t\tWHERE id=$3\n\t\t" ++
          "RETURNING id, name, sku, quantity, price, location, created_at, " ++
          "updated_at\n\t\t")) := by
  have ca := auditListBuilder_closed f1
  have cu := updateBuilder_closed conv u1
  refine ⟨auditList_text_congr f1 f2 l1 o1 l2 o2, ?_, ?_, update_text_congr conv u1 u2 id1 id2,
    ⟨ca.1, by rw [ca.2.2]; omega, ?_, ?_⟩, ?_, ?_, ⟨cu.1, by rw [cu.2.2]; omega, ?_⟩,
    ⟨sample_statement_texts.1, sample_statement_texts.2.2.2.2.1⟩⟩
  · intro h1 h2
    rw [(itemList_search s1 h1 l1 o1).2, (itemList_search s2 h2 l2 o2).2]
  · intro h
    rw [(itemList_no_search ifilter l1 o1 h).2, (itemList_no_search ⟨none⟩ l2 o2 (Or.inl rfl)).2]
  · simp only [repository.auditListStmt, ca.2.1]
  · simp only [repository.auditListStmt, ca.2.1]
    simp
  · intro h1
    refine ⟨(itemList_search s1 h1 l1 o1).1, ?_⟩
    simp [repository.itemListBuilder, h1]
  · intro h
    refine ⟨(itemList_no_search ifilter l1 o1 h).1, ?_⟩
    rcases h with h | h <;> simp [repository.itemListBuilder, h, repository.Builder.init]
  · intro st hst
    unfold repository.updateStmt at hst
    simp only [cu.2.1] at hst
    split at hst
    · simp at hst
    · simp only [Option.some.injEq] at hst
      rw [← hst]
      simp

/-! ### C27, C28, C25: the statements as the methods send them -/

/-- The condition text of numbered clauses. -/
theorem whereText_numbered (ps : List (String × repository.Arg)) :
    repository.whereText (repository.numbered 1 ps) =
      (if ps = [] then "" else "WHERE " ++ " AND ".intercalate (repository.numbered 1 ps)) := by
  unfold repository.whereText
  rw [numbered_length]
  cases ps with
  | nil => simp
  | cons p ps => simp

/-- The text of the statement of the audit list, part by part. -/
theorem auditListStmt_text (filter : domain.AuditFilter) (limit offset : Int) :
    (repository.auditListStmt filter limit offset).text =
      "\n\t\tSELECT \n\t\t\ta.id, a.item_id, a.action, a.changed_by,\n\t\t\t" ++
        "a.old_data, a.new_data, a.diff, a.changed_at,\n\t\t\t" ++
        "COALESCE(u.username, 'unknown') AS username,\n\t\t\t" ++
        "COUNT(*) OVER() AS total_count\n\t\tFROM item_audit_log a\n\t\t" ++
        "LEFT JOIN users u ON u.id = a.changed_by\n\t\t" ++
        (if repository.presentFields (repository.auditFilterFields filter) = [] then ""
         else "WHERE " ++ " AND ".intercalate
          (repository.numbered 1
            (repository.presentFields (repository.auditFilterFields filter)))) ++
        "\n\t\tORDER BY a.changed_at DESC\n\t\tLIMIT $" ++
        toString (1 + (repository.presentFields
          (repository.auditFilterFields filter)).length) ++ " OFFSET $" ++
        toString (1 + (repository.presentFields
          (repository.auditFilterFields filter)).length + 1) := by
  have hc := auditListBuilder_closed filter
  unfold repository.auditListStmt
  simp only [hc.1, hc.2.2, whereText_numbered]

/-- The text and the values of the statement of the update, part by part. -/
theorem updateStmt_shape (conv : repository.Conv) (id : UUID)
    (input : domain.UpdateItemInput) (st : repository.Stmt)
    (hst : repository.updateStmt conv id input = some st) :
    st.text = "\n\t\tUPDATE items\n\t\tSET " ++
        ", ".intercalate (repository.numbered 1
          (repository.presentFields (repository.updateFields conv input))) ++
        "\n\t\tWHERE id=$" ++
        toString (1 + (repository.presentFields
          (repository.updateFields conv input)).length) ++
        "\n\t\tRETURNING id, name, sku, quantity, price, location, created_at, " ++
        "updated_at\n\t\t" ∧
    st.args =
      (repository.presentFields (repository.updateFields conv input)).map (fun p => p.2) ++
        [.uuid id] := by
  have cu := updateBuilder_closed conv input
  unfold repository.updateStmt at hst
  simp only [cu.1, cu.2.1, cu.2.2] at hst
  split at hst
  · simp at hst
  · simp only [Option.some.injEq] at hst
    rw [← hst]
    exact ⟨rfl, rfl⟩

set_option maxRecDepth 20000 in
/-- The audit list statement for the action and the upper date. -/
theorem actionUntil_statement_text :
    (repository.auditListStmt testdata.actionUntilFilter 20 0).text =
      "\n\t\tSELECT \n\t\t\ta.id, a.item_id, a.action, a.changed_by,\n\t\t\t" ++
        "a.old_data, a.new_data, a.diff, a.changed_at,\n\t\t\t" ++
        "COALESCE(u.username, 'unknown') AS username,\n\t\t\t" ++
        "COUNT(*) OVER() AS total_count\n\t\tFROM item_audit_log a\n\t\t" ++
        "LEFT JOIN users u ON u.id = a.changed_by\n\t\t" ++
        "WHERE a.action = $1 AND a.changed_at <= $2" ++
        "\n\t\tORDER BY a.changed_at DESC\n\t\tLIMIT $3 OFFSET $4" := by
  decide

set_option maxRecDepth 20000 in
/-- The list statements without any condition. -/
theorem unfiltered_statement_texts :
    (repository.auditListStmt testdata.emptyFilter 20 0).text =
      "\n\t\tSELECT \n\t\t\ta.id, a.item_id, a.action, a.changed_by,\n\t\t\t" ++
        "a.old_data, a.new_data, a.diff, a.changed_at,\n\t\t\t" ++
        "COALESCE(u.username, 'unknown') AS username,\n\t\t\t" ++
        "COUNT(*) OVER() AS total_count\n\t\tFROM item_audit_log a\n\t\t" ++
        "LEFT JOIN users u ON u.id = a.changed_by\n\t\t" ++
        "\n\t\tORDER BY a.changed_at DESC\n\t\tLIMIT $1 OFFSET $2" ∧
    (repository.itemListStmt ⟨none⟩ 0 0).text =
      "\n\t\tSELECT \n\t\t    id, name, sku, quantity, price, location, created_at, " ++
        "updated_at,\n\t\t\tCOUNT(*) OVER() AS total_count\n\t\tFROM items " ++
        "\n\t\tORDER BY created_at DESC\n\t\tLIMIT $1 OFFSET $2\n\t" := by
  constructor <;> decide

section claims
variable {S ω : Type}

/-- C27: `AuditRepository.List` sends one statement whose text is the select
part, the condition text and the order and limit part; the condition text
holds exactly one clause per filter field that is present, in the order item
id, user id, action, date-from, date-to, numbered from 1 and joined by AND,
and when no field is present there is no WHERE part at all; id and action
clauses use `=`, date-from `>=` and date-to `<=`. `ItemRepository.List` sends
one statement, which for an absent or empty search has no WHERE part. -/
theorem C27_condition_text (ra : repository.AuditRepository S)
    (ri : repository.ItemRepository S) (filter : domain.AuditFilter)
    (ifilter : domain.ItemFilter) (limit offset : Int) (db : repository.DB S) :
    (∃ st, (ra.List filter limit offset db).2.log = db.log ++ [st] ∧
      st.text =
        "\n\t\tSELECT \n\t\t\ta.id, a.item_id, a.action, a.changed_by,\n\t\t\t" ++
          "a.old_data, a.new_data, a.diff, a.changed_at,\n\t\t\t" ++
          "COALESCE(u.username, 'unknown') AS username,\n\t\t\t" ++
          "COUNT(*) OVER() AS total_count\n\t\tFROM item_audit_log a\n\t\t" ++
          "LEFT JOIN users u ON u.id = a.changed_by\n\t\t" ++
          (if repository.presentFields (repository.auditFilterFields filter) = [] then ""
           else "WHERE " ++ " AND ".intercalate
            (repository.numbered 1
              (repository.presentFields (repository.auditFilterFields filter)))) ++
          "\n\t\tORDER BY a.changed_at DESC\n\t\tLIMIT $" ++
          toString (1 + (repository.presentFields
            (repository.auditFilterFields filter)).length) ++ " OFFSET $" ++
          toString (1 + (repository.presentFields
            (repository.auditFilterFields filter)).length + 1) ∧
      ((filter.ItemID = none ∧ filter.UserID = none ∧ filter.Action = none ∧
          filter.DateFrom = none ∧ filter.DateTo = none) →
        st.text =
          "\n\t\tSELECT \n\t\t\ta.id, a.item_id, a.action, a.changed_by,\n\t\t\t" ++
            "a.old_data, a.new_data, a.diff, a.changed_at,\n\t\t\t" ++
            "COALESCE(u.username, 'unknown') AS username,\n\t\t\t" ++
            "COUNT(*) OVER() AS total_count\n\t\tFROM item_audit_log a\n\t\t" ++
            "LEFT JOIN users u ON u.id = a.changed_by\n\t\t" ++
            "\n\t\tORDER BY a.changed_at DESC\n\t\tLIMIT $1 OFFSET $2" ∧
        ¬ ("WHERE".data <:+: st.text.data))) ∧
    (∃ st, (ra.List testdata.fullFilter limit offset db).2.log = db.log ++ [st] ∧
      st.text =
        "\n\t\tSELECT \n\t\t\ta.id, a.item_id, a.action, a.changed_by,\n\t\t\t" ++
          "a.old_data, a.new_data, a.diff, a.changed_at,\n\t\t\t" ++
          "COALESCE(u.username, 'unknown') AS username,\n\t\t\t" ++
          "COUNT(*) OVER() AS total_count\n\t\tFROM item_audit_log a\n\t\t" ++
          "LEFT JOIN users u ON u.id = a.changed_by\n\t\t" ++
          "WHERE a.item_id = $1 AND a.changed_by = $2 AND a.action = $3 AND " ++
          "a.changed_at >= $4 AND a.changed_at <= $5" ++
          "\n\t\tORDER BY a.changed_at DESC\n\t\tLIMIT $6 OFFSET $7") ∧
    (∃ st, (ra.List testdata.actionUntilFilter limit offset db).2.log = db.log ++ [st] ∧
      st.text =
        "\n\t\tSELECT \n\t\t\ta.id, a.item_id, a.action, a.changed_by,\n\t\t\t" ++
          "a.old_data, a.new_data, a.diff, a.changed_at,\n\t\t\t" ++
          "COALESCE(u.username, 'unknown') AS username,\n\t\t\t" ++
          "COUNT(*) OVER() AS total_count\n\t\tFROM item_audit_log a\n\t\t" ++
          "LEFT JOIN users u ON u.id = a.changed_by\n\t\t" ++
          "WHERE a.action = $1 AND a.changed_at <= $2" ++
          "\n\t\tORDER BY a.changed_at DESC\n\t\tLIMIT $3 OFFSET $4") ∧
    (∃ st, (ri.List ifilter limit offset db).2.log = db.log ++ [st] ∧
      ((ifilter.Search = none ∨ ifilter.Search = some "") →
        st.text =
          "\n\t\tSELECT \n\t\t    id, name, sku, quantity, price, location, created_at, " ++
            "updated_at,\n\t\t\tCOUNT(*) OVER() AS total_count\n\t\tFROM items " ++
            "\n\t\tORDER BY created_at DESC\n\t\tLIMIT $1 OFFSET $2\n\t" ∧
        ¬ ("WHERE".data <:+: st.text.data))) ∧
    repository.auditFilterFields filter =
      [("a.item_id = $", filter.ItemID.map repository.Arg.uuid),
        ("a.changed_by = $", filter.UserID.map repository.Arg.uuid),
        ("a.action = $", filter.Action.map repository.Arg.text),
        ("a.changed_at >= $", filter.DateFrom.map repository.Arg.time),
        ("a.changed_at <= $", filter.DateTo.map repository.Arg.time)] ∧
    (repository.auditListBuilder filter).clauses =
      repository.numbered 1 (repository.presentFields (repository.auditFilterFields filter)) ∧
    (repository.auditListBuilder filter).clauses.length =
      (repository.presentFields (repository.auditFilterFields filter)).length ∧
    repository.whereText (repository.auditListBuilder filter).clauses =
      (if repository.presentFields (repository.auditFilterFields filter) = [] then ""
       else "WHERE " ++ " AND ".intercalate
        (repository.numbered 1
          (repository.presentFields (repository.auditFilterFields filter)))) ∧
    ((filter.ItemID = none ∧ filter.UserID = none ∧ filter.Action = none ∧
        filter.DateFrom = none ∧ filter.DateTo = none) →
      repository.whereText (repository.auditListBuilder filter).clauses = "") ∧
    repository.whereText (repository.auditListBuilder testdata.fullFilter).clauses =
      "WHERE a.item_id = $1 AND a.changed_by = $2 AND a.action = $3 AND " ++
        "a.changed_at >= $4 AND a.changed_at <= $5" ∧
    repository.whereText (repository.auditListBuilder testdata.actionUntilFilter).clauses =
      "WHERE a.action = $1 AND a.changed_at <= $2" ∧
    ¬ ("WHERE".data <:+: (repository.auditListStmt testdata.emptyFilter 20 0).text.data) ∧
    ((ifilter.Search = none ∨ ifilter.Search = some "") →
      repository.whereText (repository.itemListBuilder ifilter).clauses = "" ∧
      (repository.itemListStmt ifilter 20 0).text =
        (repository.itemListStmt ⟨none⟩ 20 0).text) ∧
    ¬ ("WHERE".data <:+: (repository.itemListStmt ⟨none⟩ 20 0).text.data) := by
  refine ⟨⟨_, congrArg repository.DB.log (auditList_sends ra filter limit offset db),
      auditListStmt_text filter limit offset, ?_⟩,
    ⟨_, congrArg repository.DB.log (auditList_sends ra testdata.fullFilter limit offset db),
      ?_⟩,
    ⟨_, congrArg repository.DB.log
      (auditList_sends ra testdata.actionUntilFilter limit offset db), ?_⟩,
    ⟨_, congrArg repository.DB.log (itemList_sends ri ifilter limit offset db), ?_⟩,
    condition_text_shape filter ifilter⟩
  · rintro ⟨h1, h2, h3, h4, h5⟩
    have he : (repository.auditListStmt filter limit offset).text =
        (repository.auditListStmt testdata.emptyFilter 20 0).text :=
      auditList_text_congr filter testdata.emptyFilter limit offset 20 0
        (by rw [h1]; rfl) (by rw [h2]; rfl) (by rw [h3]; rfl) (by rw [h4]; rfl)
        (by rw [h5]; rfl)
    rw [he]
    exact ⟨unfiltered_statement_texts.1, auditList_empty_no_where⟩
  · rw [auditList_text_congr testdata.fullFilter testdata.fullFilter limit offset 20 40
      rfl rfl rfl rfl rfl]
    exact sample_statement_texts.2.2.1
  · rw [auditList_text_congr testdata.actionUntilFilter testdata.actionUntilFilter limit offset
      20 0 rfl rfl rfl rfl rfl]
    exact actionUntil_statement_text
  · intro h
    rw [(itemList_no_search ifilter limit offset h).2]
    refine ⟨unfiltered_statement_texts.2, ?_⟩
    rw [← (itemList_no_search ⟨none⟩ 20 0 (Or.inl rfl)).2]
    exact itemList_empty_no_where

/-- C28: each of `AuditRepository.List`, `ItemRepository.List` and
`ItemRepository.Update` sends its values as bound arguments and never in the
statement text. The two lists send one statement each, Update (once the
transaction has begun and the user is recorded) the recording statement and
then its own; the text of the statement sent does not depend on the values
supplied: inputs with the same fields present give the same text. The
placeholders are numbered from 1 without gaps, the lists end with the next two
placeholders for limit and offset, the update with the next one for the item
id; the bound values are the present values in that order followed by limit
and offset, or by the item id. -/
theorem C28_values_are_bound (ra : repository.AuditRepository S)
    (ri r : repository.ItemRepository S) (uid : UUID) (db : repository.DB S)
    (f1 f2 : domain.AuditFilter)
    (u1 u2 : domain.UpdateItemInput) (id1 id2 : UUID) (ifilter : domain.ItemFilter)
    (s1 s2 : String) (l1 o1 l2 o2 : Int) :
    (ra.List f1 l1 o1 db).2.log = db.log ++ [repository.auditListStmt f1 l1 o1] ∧
    (ri.List ifilter l1 o1 db).2.log = db.log ++ [repository.itemListStmt ifilter l1 o1] ∧
    (ri.List ⟨some s1⟩ l1 o1 db).2.log = db.log ++ [repository.itemListStmt ⟨some s1⟩ l1 o1] ∧
    (u1.HasChanges = true → r.eng.begin db.committed = none → ∀ n t1,
      r.eng.exec (repository.auditContextStmt r.conv uid) db.committed = (.ok n, t1) →
      ∃ st, repository.updateStmt r.conv id1 u1 = some st ∧
        (r.Update uid id1 u1 db).2.log =
          db.log ++ [repository.auditContextStmt r.conv uid, st] ∧
        (repository.auditContextStmt r.conv uid).text =
          "SELECT set_config('app.current_user_id', $1, true)" ∧
        (repository.auditContextStmt r.conv uid).args = [.text (r.conv.uuidString uid)]) ∧
    (f1.ItemID.isSome = f2.ItemID.isSome → f1.UserID.isSome = f2.UserID.isSome →
      f1.Action.isSome = f2.Action.isSome → f1.DateFrom.isSome = f2.DateFrom.isSome →
      f1.DateTo.isSome = f2.DateTo.isSome →
      (repository.auditListStmt f1 l1 o1).text = (repository.auditListStmt f2 l2 o2).text) ∧
    (s1 ≠ "" → s2 ≠ "" →
      (repository.itemListStmt ⟨some s1⟩ l1 o1).text =
        (repository.itemListStmt ⟨some s2⟩ l2 o2).text) ∧
    ((ifilter.Search = none ∨ ifilter.Search = some "") →
      (repository.itemListStmt ifilter l1 o1).text =
        (repository.itemListStmt ⟨none⟩ l2 o2).text) ∧
    (u1.Name.isSome = u2.Name.isSome → u1.SKU.isSome = u2.SKU.isSome →
      u1.Quantity.isSome = u2.Quantity.isSome → u1.Price.isSome = u2.Price.isSome →
      u1.Location.isSome = u2.Location.isSome →
      (repository.updateStmt r.conv id1 u1).map (fun st => st.text) =
        (repository.updateStmt r.conv id2 u2).map (fun st => st.text)) ∧
    ((repository.auditListBuilder f1).clauses =
        repository.numbered 1 (repository.presentFields (repository.auditFilterFields f1)) ∧
      (repository.auditListBuilder f1).argIdx =
        (repository.presentFields (repository.auditFilterFields f1)).length + 1 ∧
      (repository.auditListStmt f1 l1 o1).args =
        (repository.presentFields (repository.auditFilterFields f1)).map (fun p => p.2) ++
          [.int l1, .int o1] ∧
      (repository.auditListStmt f1 l1 o1).args.length =
        (repository.presentFields (repository.auditFilterFields f1)).length + 2) ∧
    (s1 ≠ "" →
      (repository.itemListStmt ⟨some s1⟩ l1 o1).args =
        [.text ("%" ++ s1 ++ "%"), .int l1, .int o1] ∧
      (repository.itemListBuilder ⟨some s1⟩).argIdx = 2) ∧
    ((ifilter.Search = none ∨ ifilter.Search = some "") →
      (repository.itemListStmt ifilter l1 o1).args = [.int l1, .int o1] ∧
      (repository.itemListBuilder ifilter).argIdx = 1) ∧
    ((repository.updateBuilder r.conv u1).clauses =
        repository.numbered 1 (repository.presentFields (repository.updateFields r.conv u1)) ∧
      (repository.updateBuilder r.conv u1).argIdx =
        (repository.presentFields (repository.updateFields r.conv u1)).length + 1 ∧
      (∀ st, repository.updateStmt r.conv id1 u1 = some st →
        st.args =
          (repository.presentFields (repository.updateFields r.conv u1)).map (fun p => p.2) ++
            [.uuid id1] ∧
        st.args.length =
          (repository.presentFields (repository.updateFields r.conv u1)).length + 1)) ∧
    ((repository.itemListStmt ⟨some "lap"⟩ 20 40).text =
      "\n\t\tSELECT \n\t\t    id, name, sku, quantity, price, location, created_at, " ++
        "updated_at,\n\t\t\tCOUNT(*) OVER() AS total_count\n\t\tFROM items " ++
        "WHERE (name ILIKE $1 OR sku ILIKE $1)\n\t\tORDER BY created_at DESC\n\t\t" ++
        "LIMIT $2 OFFSET $3\n\t" ∧
      (repository.updateStmt testdata.conv ⟨10⟩ testdata.renameRestock).map
          (fun st => st.text) =
        some ("\n\t\tUPDATE items\n\t\tSET name = $1, quantity = $2\n\t\tWHERE id=$3\n\t\t" ++
          "RETURNING id, name, sku, quantity, price, location, created_at, " ++
          "updated_at\n\t\t")) := by
  refine ⟨congrArg repository.DB.log (auditList_sends ra f1 l1 o1 db),
    congrArg repository.DB.log (itemList_sends ri ifilter l1 o1 db),
    congrArg repository.DB.log (itemList_sends ri ⟨some s1⟩ l1 o1 db), ?_,
    statement_values_bound r.conv f1 f2 u1 u2 id1 id2 ifilter s1 s2 l1 o1 l2 o2⟩
  intro hch hb n t1 hctx
  obtain ⟨st, hst, hlog⟩ := (update_sends r uid id1 u1 db).2 hch
  exact ⟨st, hst, (hlog hb).2 n t1 hctx, rfl, rfl⟩

/-- C25: the statement `ItemRepository.Update` sends assigns exactly the
fields set in the input, one assignment per set field, in the order name, sku,
quantity, price, location, and no other field. The repository's own NoChanges
rejection, which sends nothing, is taken iff no field is set, that is iff
HasChanges is false; `ItemService.Update` rejects such an input itself and
reaches the repository only with an input that has a field set. -/
theorem C25_update_assignments (r : repository.ItemRepository S)
    (claims : domain.AuthClaims) (userID id : UUID) (input : domain.UpdateItemInput)
    (db : repository.DB S) (w : World (repository.DB S) ω) :
    repository.updateFields r.conv input =
      [("name = $", input.Name.map repository.Arg.text),
        ("sku = $", input.SKU.map repository.Arg.text),
        ("quantity = $", input.Quantity.map repository.Arg.int),
        ("price = $", input.Price.map fun p => repository.Arg.text (r.conv.StringFixed2 p)),
        ("location = $", input.Location.map repository.Arg.text)] ∧
    (input.HasChanges = true → r.eng.begin db.committed = none → ∀ n s1,
      r.eng.exec (repository.auditContextStmt r.conv userID) db.committed = (.ok n, s1) →
      ∃ st, (r.Update userID id input db).2.log =
          db.log ++ [repository.auditContextStmt r.conv userID, st] ∧
        st.text = "\n\t\tUPDATE items\n\t\tSET " ++
          ", ".intercalate (repository.numbered 1
            (repository.presentFields (repository.updateFields r.conv input))) ++
          "\n\t\tWHERE id=$" ++
          toString (1 + (repository.presentFields
            (repository.updateFields r.conv input)).length) ++
          "\n\t\tRETURNING id, name, sku, quantity, price, location, created_at, " ++
          "updated_at\n\t\t" ∧
        st.args =
          (repository.presentFields (repository.updateFields r.conv input)).map
            (fun p => p.2) ++ [.uuid id]) ∧
    (repository.numbered 1
        (repository.presentFields (repository.updateFields r.conv input))).length =
      (repository.presentFields (repository.updateFields r.conv input)).length ∧
    (input.HasChanges = false →
      r.Update userID id input db =
        ((none, some (.wrap "ItemRepository.Update" domain.ErrNoChanges)), db)) ∧
    (r.eng.begin db.committed = none →
      (r.Update userID id input db =
          ((none, some (.wrap "ItemRepository.Update" domain.ErrNoChanges)), db) ↔
        input.HasChanges = false)) ∧
    (claims.Role.CanUpdate = true → input.HasChanges = false →
      service.ItemService.Update ⟨r.toService⟩ claims id input w =
        ((none, some domain.ErrNoChanges), w)) ∧
    ((service.ItemService.Update ⟨r.toService⟩ claims id input w).2.trace ≠ w.trace →
      input.HasChanges = true ∧
      (r.eng.begin w.store.committed = none →
        r.Update claims.UserID id input w.store ≠
          ((none, some (.wrap "ItemRepository.Update" domain.ErrNoChanges)), w.store))) := by
  have hiff : ∀ (u : UUID) (d : repository.DB S), r.eng.begin d.committed = none →
      (r.Update u id input d =
          ((none, some (.wrap "ItemRepository.Update" domain.ErrNoChanges)), d) ↔
        input.HasChanges = false) := by
    intro u d hb
    constructor
    · intro h
      cases hch : input.HasChanges with
      | false => rfl
      | true =>
        obtain ⟨st, _, hlog⟩ := (update_sends r u id input d).2 hch
        have := (hlog hb).1
        rw [h] at this
        exact absurd rfl this
    · exact (update_sends r u id input d).1
  refine ⟨rfl, ?_, numbered_length _ _, (update_sends r userID id input db).1,
    hiff userID db, ?_, ?_⟩
  · intro hch hb n s1 hctx
    obtain ⟨st, hst, hlog⟩ := (update_sends r userID id input db).2 hch
    have hs := updateStmt_shape r.conv id input st hst
    exact ⟨st, (hlog hb).2 n s1 hctx, hs.1, hs.2⟩
  · intro hrole h
    simp [service.ItemService.Update, hrole, h]
  · intro htr
    have hch : input.HasChanges = true := by
      cases hc : claims.Role.CanUpdate with
      | false =>
        exfalso
        apply htr
        simp [service.ItemService.Update, hc]
      | true =>
        cases hh : input.HasChanges with
        | true => rfl
        | false =>
          exfalso
          apply htr
          simp [service.ItemService.Update, hc, hh]
    refine ⟨hch, fun hb h => ?_⟩
    have := (hiff claims.UserID w.store hb).1 h
    rw [hch] at this
    cases this

end claims

/-- C28 on two audit filters with every field set to different values, two
searches and an update: the statement texts coincide, and the update goes out
after the recording statement with its values bound. -/
theorem C28_values_are_bound_witness :
    (repository.auditListStmt testdata.fullFilter 20 40).text =
      (repository.auditListStmt
        { ItemID := some ⟨77⟩, UserID := some ⟨78⟩, Action := some "x' OR '1'='1",
          DateFrom := some 0, DateTo := some 1 } 5 0).text ∧
    (repository.itemListStmt ⟨some "lap"⟩ 20 40).text =
      (repository.itemListStmt ⟨some "'; DROP TABLE items; --"⟩ 1 0).text ∧
    (∃ st, repository.updateStmt testdata.conv ⟨10⟩ testdata.rename = some st ∧
      ((repository.ItemRepository.mk testdata.okEngine testdata.conv).Update ⟨1⟩ ⟨10⟩
          testdata.rename testdata.db0).2.log =
        testdata.db0.log ++ [repository.auditContextStmt testdata.conv ⟨1⟩, st] ∧
      (repository.auditContextStmt testdata.conv ⟨1⟩).text =
        "SELECT set_config('app.current_user_id', $1, true)" ∧
      (repository.auditContextStmt testdata.conv ⟨1⟩).args =
        [.text (testdata.conv.uuidString ⟨1⟩)]) :=
  ⟨(C28_values_are_bound (repository.AuditRepository.mk testdata.okEngine testdata.conv)
      (repository.ItemRepository.mk testdata.okEngine testdata.conv)
      (repository.ItemRepository.mk testdata.okEngine testdata.conv) ⟨1⟩ testdata.db0
      testdata.fullFilter
      { ItemID := some ⟨77⟩, UserID := some ⟨78⟩, Action := some "x' OR '1'='1",
        DateFrom := some 0, DateTo := some 1 }
      testdata.rename testdata.noChanges ⟨10⟩ ⟨10⟩ ⟨none⟩ "lap"
      "'; DROP TABLE items; --" 20 40 5 0).2.2.2.2.1 rfl rfl rfl rfl rfl,
    (C28_values_are_bound (repository.AuditRepository.mk testdata.okEngine testdata.conv)
      (repository.ItemRepository.mk testdata.okEngine testdata.conv)
      (repository.ItemRepository.mk testdata.okEngine testdata.conv) ⟨1⟩ testdata.db0
      testdata.fullFilter testdata.fullFilter
      testdata.rename testdata.noChanges ⟨10⟩ ⟨10⟩ ⟨none⟩ "lap"
      "'; DROP TABLE items; --" 20 40 1 0).2.2.2.2.2.1 (by decide) (by decide),
    (C28_values_are_bound (repository.AuditRepository.mk testdata.okEngine testdata.conv)
      (repository.ItemRepository.mk testdata.okEngine testdata.conv)
      (repository.ItemRepository.mk testdata.okEngine testdata.conv) ⟨1⟩ testdata.db0
      testdata.fullFilter testdata.fullFilter
      testdata.rename testdata.noChanges ⟨10⟩ ⟨10⟩ ⟨none⟩ "lap"
      "'; DROP TABLE items; --" 20 40 1 0).2.2.2.1 (by decide) rfl 1 1 rfl⟩

/-- C25 on the update of name and quantity by the sample engine: the
recording statement and then the update with two assignments, in that order,
the item id as the third placeholder, and the two values and the id bound. -/
theorem C25_update_assignments_witness :
    testdata.renameRestock.HasChanges = true ∧
    ∃ st, ((repository.ItemRepository.mk testdata.okEngine testdata.conv).Update ⟨1⟩ ⟨10⟩
          testdata.renameRestock testdata.db0).2.log =
        testdata.db0.log ++ [repository.auditContextStmt testdata.conv ⟨1⟩, st] ∧
      st.text = "\n\t\tUPDATE items\n\t\tSET " ++
        ", ".intercalate (repository.numbered 1
          (repository.presentFields
            (repository.updateFields testdata.conv testdata.renameRestock))) ++
        "\n\t\tWHERE id=$" ++
        toString (1 + (repository.presentFields
          (repository.updateFields testdata.conv testdata.renameRestock)).length) ++
        "\n\t\tRETURNING id, name, sku, quantity, price, location, created_at, " ++
        "updated_at\n\t\t" ∧
      st.args =
        (repository.presentFields
          (repository.updateFields testdata.conv testdata.renameRestock)).map
          (fun p => p.2) ++ [.uuid ⟨10⟩] :=
  ⟨by decide,
    (C25_update_assignments (ω := Unit)
      (repository.ItemRepository.mk testdata.okEngine testdata.conv) testdata.adminClaims ⟨1⟩
      ⟨10⟩ testdata.renameRestock testdata.db0 testdata.dbWorld).2.1 (by decide) rfl 1 1 rfl⟩

/-! ### The export endpoint checks the action -/

/-- C5, counterexample: `AuditService.ExportCSV` for the admin with the action
`INVALID` is not rejected; the audit repository is queried with that filter
and the header and the row are written, whereas `AuditService.List` rejects
the same filter. -/
theorem C5_counterexample :
    testdata.adminClaims.Role.CanExport = true ∧
    domain.AuditAction.IsValid "INVALID" = false ∧
    testdata.badActionFilter.Action = some "INVALID" ∧
    (service.AuditService.ExportCSV testdata.auditSvc testdata.render testdata.diffCodec
        testdata.adminClaims testdata.badActionFilter testdata.bufferWriter
        testdata.world0).1 = none ∧
    (service.AuditService.ExportCSV testdata.auditSvc testdata.render testdata.diffCodec
        testdata.adminClaims testdata.badActionFilter testdata.bufferWriter
        testdata.world0).2.trace =
      [Call.auditList testdata.badActionFilter 10000 0,
        Call.csvWrite csvexport.auditCSVHeader,
        Call.csvWrite (csvexport.auditRow testdata.render testdata.diffCodec
          testdata.insertEntry),
        Call.csvFlush] ∧
    (service.AuditService.List testdata.auditSvc testdata.adminClaims
        testdata.badActionFilter 1 20 testdata.world0).1.2 = some domain.ErrValidation := by
  refine ⟨by decide, by decide, rfl, rfl, rfl, by decide⟩

section endpoint
variable {σ ω V : Type}

/-- A filter that `parseAuditFilter` returns has no action or an action of the
enumeration. -/
theorem parseAuditFilter_action (ps : handler.Parsers) (q : handler.AuditQuery)
    (f : domain.AuditFilter) (h : handler.parseAuditFilter ps q = .ok f) :
    f.Action = none ∨ ∃ a, f.Action = some a ∧ domain.AuditAction.IsValid a = true := by
  unfold handler.parseAuditFilter at h
  split at h
  · cases h
  · split at h
    · cases h
    · split at h
      · cases h
      · rename_i hact
        split at h
        · cases h
        · split at h
          · cases h
          · cases h
            by_cases hq : q.action = ""
            · left
              simp [hq]
            · right
              refine ⟨q.action, by simp [hq], ?_⟩
              cases hv : domain.AuditAction.IsValid q.action with
              | true => rfl
              | false => exact absurd ⟨hq, hv⟩ hact

/-- A query with an action outside the enumeration does not parse. -/
theorem parseAuditFilter_rejects (ps : handler.Parsers) (q : handler.AuditQuery)
    (hne : q.action ≠ "") (hbad : domain.AuditAction.IsValid q.action = false) :
    ∃ err, handler.parseAuditFilter ps q = .error err := by
  cases h : handler.parseAuditFilter ps q with
  | error err => exact ⟨err, rfl⟩
  | ok f =>
    exfalso
    have hf := parseAuditFilter_action ps q f h
    unfold handler.parseAuditFilter at h
    split at h
    · cases h
    · split at h
      · cases h
      · split at h
        · cases h
        · rename_i hact
          exact hact ⟨hne, hbad⟩

/-- The export of the service starts by querying the repository with the
filter it is given, whatever the action. -/
theorem exportCSV_queries (s : service.AuditService σ) (rd : Render) (dc : DiffCodec V)
    (claims : domain.AuthClaims) (filter : domain.AuditFilter) (cw : csvWriter ω)
    (w : World σ ω) (hc : claims.Role.CanExport = true) :
    ∃ t, (service.AuditService.ExportCSV s rd dc claims filter cw w).2.trace =
      w.trace ++ Call.auditList filter 10000 0 :: t := by
  simp only [service.AuditService.ExportCSV, hc, Bool.not_true, Bool.false_eq_true, if_false]
  split
  · exact ⟨[], rfl⟩
  · obtain ⟨t, ht⟩ := writeAuditCSV_trace rd dc cw
      (service.invoke (Call.auditList filter service.maxExportRows 0)
        (s.auditRepo.List filter service.maxExportRows 0) w).1.1
      (service.invoke (Call.auditList filter service.maxExportRows 0)
        (s.auditRepo.List filter service.maxExportRows 0) w).2
    refine ⟨Call.csvWrite csvexport.auditCSVHeader :: t, ?_⟩
    rw [ht, invoke_trace, List.append_assoc]
    rfl

/-- C5, amended: an export request whose `action` parameter is set to a value
outside INSERT, UPDATE, DELETE is rejected by the handler with status 400
before `AuditService.ExportCSV` is called, so the audit repository is not
queried and nothing is written; when the id parameters parse, the message
names the action. Every filter the handler passes on has no action or an
action of the enumeration. `AuditService.ExportCSV` itself does not look at
the action: for a role permitted to export it queries the repository with any
filter it is given. -/
theorem C5_export_action_checked_by_handler (svc : service.AuditService σ) (rd : Render)
    (dc : DiffCodec V) (ps : handler.Parsers) (cw : csvWriter ω) (empty : ω)
    (formatDate : Time → String) (now : Time) (claims : domain.AuthClaims)
    (q : handler.AuditQuery) (filter : domain.AuditFilter) (w : World σ ω)
    (hne : q.action ≠ "") (hbad : domain.AuditAction.IsValid q.action = false) :
    ((handler.ExportCSV svc rd dc ps cw empty formatDate now (.claims claims) q w).1.status =
        400 ∧
      (handler.ExportCSV svc rd dc ps cw empty formatDate now (.claims claims) q w).2 = w) ∧
    ((q.item_id = "" ∨ (ps.uuidParse q.item_id).isSome = true) →
      (q.user_id = "" ∨ (ps.uuidParse q.user_id).isSome = true) →
      handler.ExportCSV svc rd dc ps cw empty formatDate now (.claims claims) q w =
        ({ status := 400, headers := [],
           body := .error ("invalid action: " ++ q.action ++
             " (allowed: INSERT, UPDATE, DELETE)") }, w)) ∧
    (∀ (q2 : handler.AuditQuery) f, handler.parseAuditFilter ps q2 = .ok f →
      f.Action = none ∨ ∃ a, f.Action = some a ∧ domain.AuditAction.IsValid a = true) ∧
    (claims.Role.CanExport = true →
      ∃ t, (service.AuditService.ExportCSV svc rd dc claims filter cw w).2.trace =
        w.trace ++ Call.auditList filter 10000 0 :: t) := by
  refine ⟨?_, ?_, fun q2 f h => parseAuditFilter_action ps q2 f h,
    fun hc => exportCSV_queries svc rd dc claims filter cw w hc⟩
  · obtain ⟨err, herr⟩ := parseAuditFilter_rejects ps q hne hbad
    simp [handler.ExportCSV, handler.getClaims, herr, handler.StatusBadRequest]
  · intro hi hu
    have hi2 : ∃ x, (if q.item_id ≠ "" then (ps.uuidParse q.item_id).map some
        else some none) = some x := by
      rcases hi with h | h
      · exact ⟨none, by simp [h]⟩
      · obtain ⟨u, hu2⟩ := Option.isSome_iff_exists.1 h
        by_cases he : q.item_id = ""
        · exact ⟨none, by simp [he]⟩
        · exact ⟨some u, by simp [he, hu2]⟩
    have hu2 : ∃ x, (if q.user_id ≠ "" then (ps.uuidParse q.user_id).map some
        else some none) = some x := by
      rcases hu with h | h
      · exact ⟨none, by simp [h]⟩
      · obtain ⟨u, hu3⟩ := Option.isSome_iff_exists.1 h
        by_cases he : q.user_id = ""
        · exact ⟨none, by simp [he]⟩
        · exact ⟨some u, by simp [he, hu3]⟩
    obtain ⟨x, hx⟩ := hi2
    obtain ⟨y, hy⟩ := hu2
    have hp : handler.parseAuditFilter ps q = .error (.foreign
        ("invalid action: " ++ q.action ++ " (allowed: INSERT, UPDATE, DELETE)")) := by
      unfold handler.parseAuditFilter
      rw [hx]
      simp only []
      rw [hy]
      simp only []
      rw [if_pos ⟨hne, hbad⟩]
    simp [handler.ExportCSV, handler.getClaims, hp, handler.StatusBadRequest,
      domain.GoError.Error]

end endpoint

/-- C5 amended, on the query `?action=INVALID` from an admin: status 400 with
the message naming the action, and the world as it was. -/
theorem C5_export_action_checked_by_handler_witness :
    testdata.badActionQuery.action ≠ "" ∧
    domain.AuditAction.IsValid testdata.badActionQuery.action = false ∧
    handler.ExportCSV testdata.auditSvc testdata.render testdata.diffCodec testdata.parsers
        testdata.bufferWriter [] (fun t => toString t) 0 (.claims testdata.adminClaims)
        testdata.badActionQuery testdata.world0 =
      ({ status := 400, headers := [],
         body := .error "invalid action: INVALID (allowed: INSERT, UPDATE, DELETE)" },
        testdata.world0) :=
  ⟨by decide, by decide,
    (C5_export_action_checked_by_handler testdata.auditSvc testdata.render testdata.diffCodec
      testdata.parsers testdata.bufferWriter [] (fun t => toString t) 0 testdata.adminClaims
      testdata.badActionQuery testdata.emptyFilter testdata.world0 (by decide)
      (by decide)).2.1 (Or.inl rfl) (Or.inl rfl)⟩

/-! ### What `Validate` rejects, by signature -/

/-- The token `GenerateJWT` returns is the encoding of the claims it builds,
signed under the manager's secret. -/
theorem generateJWT_eq (lib : auth.Lib) (m : auth.Manager) (now : Time) (user : domain.User) :
    (auth.Manager.GenerateJWT lib m now user).1 =
      lib.jwt.encode "HS256" (auth.Manager.claimsFor lib m now user)
        (lib.jwt.mac "HS256" m.secret (auth.Manager.claimsFor lib m now user)) := rfl

/-- A token whose signature is not the HMAC of its content under the
manager's secret is rejected. -/
theorem validate_bad_signature (lib : auth.Lib) (m : auth.Manager) (t : Time)
    (tokenStr alg sig : String) (cl : auth.jwtClaims)
    (hd : lib.jwt.decode tokenStr = some (alg, cl, sig))
    (hsig : lib.jwt.mac alg m.secret cl ≠ sig) :
    auth.Manager.Validate lib m t tokenStr = (none, some domain.ErrTokenInvalid) := by
  cases hreg : jwt.isRegistered alg <;> cases hh : jwt.isHMAC alg <;>
    simp [auth.Manager.Validate, jwt.ParseWithClaims, hd, hreg, hh, auth.Manager.keyFunc, hsig]

/-- A token whose expiry does not lie ahead is rejected. -/
theorem validate_expired_decoded (lib : auth.Lib) (m : auth.Manager) (t : Time)
    (tokenStr alg sig : String) (cl : auth.jwtClaims) (exp : Time)
    (hd : lib.jwt.decode tokenStr = some (alg, cl, sig))
    (hexp : cl.ExpiresAt = some exp) (ht : exp ≤ t) :
    auth.Manager.Validate lib m t tokenStr = (none, some domain.ErrTokenInvalid) := by
  have hnot : ¬ t < exp := not_lt.mpr ht
  cases hreg : jwt.isRegistered alg <;> cases hh : jwt.isHMAC alg <;>
    by_cases hsig : lib.jwt.mac alg m.secret cl = sig <;>
    simp [auth.Manager.Validate, jwt.ParseWithClaims, hd, hreg, hh, auth.Manager.keyFunc, hsig,
      jwt.validate, hexp, hnot]

/-- A token of the HMAC family, signed under the manager's secret, unexpired,
with a role of the enumeration and a user id that parses, is accepted. -/
theorem validate_accepts (lib : auth.Lib) (m : auth.Manager) (t : Time)
    (tokenStr alg sig : String) (cl : auth.jwtClaims) (exp : Time) (uid : UUID)
    (hd : lib.jwt.decode tokenStr = some (alg, cl, sig))
    (hh : jwt.isHMAC alg = true) (hsig : lib.jwt.mac alg m.secret cl = sig)
    (hexp : cl.ExpiresAt = some exp) (hnbf : cl.NotBefore = none) (ht : t < exp)
    (hrole : domain.Role.IsValid cl.Role = true) (huuid : lib.uuidParse cl.UserID = some uid) :
    auth.Manager.Validate lib m t tokenStr =
      (some { UserID := uid, Username := cl.Username, Role := cl.Role }, none) := by
  have hreg : jwt.isRegistered alg = true := by simp [jwt.isRegistered, hh]
  simp [auth.Manager.Validate, jwt.ParseWithClaims, hd, hreg, hh, auth.Manager.keyFunc, hsig,
    jwt.validate, hexp, hnbf, ht, parseRole_valid _ hrole, huuid]

set_option maxRecDepth 20000 in
/-- The padded tag does not tell the test secret from the test secret followed
by a zero byte. -/
theorem paddedTag_collides (c : auth.jwtClaims) :
    testdata.hmacLib.jwt.mac "HS256" testdata.managerNul.secret c =
      testdata.hmacLib.jwt.mac "HS256" testdata.manager1s.secret c := by
  have h : testdata.padKey testdata.managerNul.secret.data =
      testdata.padKey testdata.manager1s.secret.data := by decide
  show testdata.paddedTag _ _ _ = testdata.paddedTag _ _ _
  unfold testdata.paddedTag
  rw [h]

/-- C11, counterexample: over a token library whose tag, like HMAC, pads the
key with zero bytes, a token issued under the secret `test-secret` is accepted
by a manager whose secret is `test-secret` followed by a zero byte, a
different secret. -/
theorem C11_counterexample :
    testdata.managerNul.secret ≠ testdata.manager1s.secret ∧
    auth.Manager.Validate testdata.hmacLib testdata.managerNul 600000000
        (auth.Manager.GenerateJWT testdata.hmacLib testdata.manager1s 500000000
          testdata.admin).1 =
      (some { UserID := ⟨1⟩, Username := "admin", Role := "admin" }, none) := by
  refine ⟨by decide, ?_⟩
  exact validate_accepts testdata.hmacLib testdata.managerNul 600000000 _ "HS256" _
    (auth.Manager.claimsFor testdata.hmacLib testdata.manager1s 500000000 testdata.admin)
    1000000000 ⟨1⟩
    (testlib_decode_encode "HS256" _ _) (by decide)
    (paddedTag_collides _) (by decide) rfl (by decide) (by decide) (by decide)

/-- C11, amended: `Validate` accepts only an unexpired token of the HMAC
family whose signature is the HMAC of its content under the manager's own
secret. For a token issued by GenerateJWT, which the library decodes: it is
rejected with ErrTokenInvalid at every time from issuance plus TTL on, hence
at once when the TTL is not positive; validated under another secret it is
rejected when the HMAC of its content under that secret differs from its
signature, and accepted, while unexpired, when the two secrets give the same
HMAC. Any token whose signature is not the HMAC under the manager's secret is
rejected, as is a token whose header names a non-HMAC algorithm and every
string that does not decode as a token. -/
theorem C11_validate_rejects_amended (lib : auth.Lib) (m m2 : auth.Manager)
    (user : domain.User) (now t : Time) (tokenStr : String)
    (hdec : lib.jwt.decode (auth.Manager.GenerateJWT lib m now user).1 =
      some ("HS256", auth.Manager.claimsFor lib m now user,
        lib.jwt.mac "HS256" m.secret (auth.Manager.claimsFor lib m now user))) :
    (now + m.tokenTTL ≤ t →
      auth.Manager.Validate lib m t (auth.Manager.GenerateJWT lib m now user).1 =
        (none, some domain.ErrTokenInvalid)) ∧
    (m.tokenTTL ≤ 0 → now ≤ t →
      auth.Manager.Validate lib m t (auth.Manager.GenerateJWT lib m now user).1 =
        (none, some domain.ErrTokenInvalid)) ∧
    (lib.jwt.mac "HS256" m2.secret (auth.Manager.claimsFor lib m now user) ≠
        lib.jwt.mac "HS256" m.secret (auth.Manager.claimsFor lib m now user) →
      auth.Manager.Validate lib m2 t (auth.Manager.GenerateJWT lib m now user).1 =
        (none, some domain.ErrTokenInvalid)) ∧
    (lib.jwt.mac "HS256" m2.secret (auth.Manager.claimsFor lib m now user) =
        lib.jwt.mac "HS256" m.secret (auth.Manager.claimsFor lib m now user) →
      t < jwt.NewNumericDate (now + m.tokenTTL) → domain.Role.IsValid user.Role = true →
      lib.uuidParse (lib.uuidString user.ID) = some user.ID →
      auth.Manager.Validate lib m2 t (auth.Manager.GenerateJWT lib m now user).1 =
        (some { UserID := user.ID, Username := user.Username, Role := user.Role }, none)) ∧
    (∀ alg cl sig, lib.jwt.decode tokenStr = some (alg, cl, sig) →
      lib.jwt.mac alg m.secret cl ≠ sig →
      auth.Manager.Validate lib m t tokenStr = (none, some domain.ErrTokenInvalid)) ∧
    (∀ alg cl sig, lib.jwt.decode tokenStr = some (alg, cl, sig) → jwt.isHMAC alg = false →
      auth.Manager.Validate lib m t tokenStr = (none, some domain.ErrTokenInvalid)) ∧
    (lib.jwt.decode tokenStr = none →
      auth.Manager.Validate lib m t tokenStr = (none, some domain.ErrTokenInvalid)) ∧
    (∀ c, auth.Manager.Validate lib m t tokenStr = (some c, none) →
      ∃ alg cl sig, lib.jwt.decode tokenStr = some (alg, cl, sig) ∧
        jwt.isHMAC alg = true ∧ sig = lib.jwt.mac alg m.secret cl ∧
        (∀ exp, cl.ExpiresAt = some exp → t < exp)) := by
  refine ⟨?_, ?_, ?_, ?_, ?_, ?_, ?_, ?_⟩
  · intro h
    exact validate_expired_decoded lib m t _ _ _ _ _ hdec rfl
      (le_trans (newNumericDate_le (now + m.tokenTTL)) h)
  · intro httl hnow
    have aux : ∀ a b c : Int, b ≤ 0 → a ≤ c → a + b ≤ c := by
      intro a b c h1 h2
      omega
    exact validate_expired_decoded lib m t _ _ _ _ _ hdec rfl
      (le_trans (newNumericDate_le (now + m.tokenTTL)) (aux now m.tokenTTL t httl hnow))
  · intro hne
    exact validate_bad_signature lib m2 t _ _ _ _ hdec hne
  · intro heq ht hrole huuid
    exact validate_accepts lib m2 t _ _ _ _ _ user.ID hdec (by decide) heq rfl rfl ht hrole
      huuid
  · intro alg cl sig hd hsig
    exact validate_bad_signature lib m t tokenStr alg sig cl hd hsig
  · intro alg cl sig hd hh
    exact validate_non_hmac lib m t tokenStr alg sig cl hd hh
  · intro hd
    exact validate_malformed lib m t tokenStr hd
  · intro c hc
    obtain ⟨alg, cl, sig, h1, h2, h3, h4, _⟩ := validate_ok_inv lib m t tokenStr c hc
    exact ⟨alg, cl, sig, h1, h2, h3, h4⟩

/-- C11 amended, on the small library: a token of the test manager (lifetime
one second, issued at 0.5 s) is rejected at 1.5 s, and at 0.6 s by a manager
with another secret, whose tag differs. -/
theorem C11_validate_rejects_amended_witness :
    (500000000 : Time) + testdata.manager1s.tokenTTL ≤ 1500000000 ∧
    testdata.manager2.secret ≠ testdata.manager1s.secret ∧
    auth.Manager.Validate testdata.lib testdata.manager1s 1500000000
        (auth.Manager.GenerateJWT testdata.lib testdata.manager1s 500000000
          testdata.admin).1 = (none, some domain.ErrTokenInvalid) ∧
    auth.Manager.Validate testdata.lib testdata.manager2 600000000
        (auth.Manager.GenerateJWT testdata.lib testdata.manager1s 500000000
          testdata.admin).1 = (none, some domain.ErrTokenInvalid) :=
  ⟨by decide, by decide,
    (C11_validate_rejects_amended testdata.lib testdata.manager1s testdata.manager2
      testdata.admin 500000000 1500000000 "" (testlib_decode_encode _ _ _)).1 (by decide),
    (C11_validate_rejects_amended testdata.lib testdata.manager1s testdata.manager2
      testdata.admin 500000000 600000000 "" (testlib_decode_encode _ _ _)).2.2.1
      (testlib_tag_separates _ _ _ _ (by decide))⟩

/-! ### The unit of a mutation on the store with its change capture -/

section capture
variable {S α : Type}

/-- A unit that reports no error has begun, recorded the user, run its
callback without error and committed the callback's state. -/
theorem unit_success_inv (eng : repository.Engine S) (conv : repository.Conv) (uid : UUID)
    (fn : repository.Tx S → (Option domain.GoError × α) × repository.Tx S) (init : α)
    (db : repository.DB S)
    (h : (repository.withAuditContext eng conv uid fn init db).1.1 = none) :
    ∃ n s1, eng.exec (repository.auditContextStmt conv uid) db.committed = (.ok n, s1) ∧
      (fn ⟨s1, db.log ++ [repository.auditContextStmt conv uid]⟩).1.1 = none ∧
      repository.withAuditContext eng conv uid fn init db =
        ((none, (fn ⟨s1, db.log ++ [repository.auditContextStmt conv uid]⟩).1.2),
          ⟨(fn ⟨s1, db.log ++ [repository.auditContextStmt conv uid]⟩).2.working,
            (fn ⟨s1, db.log ++ [repository.auditContextStmt conv uid]⟩).2.log⟩) := by
  cases hb : eng.begin db.committed with
  | some err =>
    rw [withAuditContext_begin_fails eng conv uid fn init db err hb] at h
    cases h
  | none =>
    cases hctx : eng.exec (repository.auditContextStmt conv uid) db.committed with
    | mk res s1 =>
      cases res with
      | error err =>
        rw [withAuditContext_context_fails eng conv uid fn init db err s1 hb hctx] at h
        cases h
      | ok n =>
        cases hf : (fn ⟨s1, db.log ++ [repository.auditContextStmt conv uid]⟩).1.1 with
        | some err =>
          rw [withAuditContext_fn_fails eng conv uid fn init db n s1 err hb hctx hf] at h
          cases h
        | none =>
          have h2 := withAuditContext_fn_ok eng conv uid fn init db n s1 hb hctx hf
          cases hc : eng.commit
              (fn ⟨s1, db.log ++ [repository.auditContextStmt conv uid]⟩).2.working with
          | some err =>
            rw [hc] at h2
            rw [h2] at h
            cases h
          | none =>
            rw [hc] at h2
            exact ⟨n, s1, rfl, hf, h2⟩

end capture

/-- On the store, the tagging statement that succeeds sets the acting user
and nothing else. -/
theorem exec_setUser (st : changecapture.Store) (conv : repository.Conv) (uid : UUID)
    (t s1 : changecapture.Tables) (n : Int)
    (h : changecapture.exec st (repository.auditContextStmt conv uid) t = (.ok n, s1)) :
    s1 = { t with actingUser := some (conv.uuidString uid) } := by
  unfold changecapture.exec at h
  cases he : st.stmtErr (repository.auditContextStmt conv uid) t with
  | some e => simp [he] at h
  | none =>
    simp only [he] at h
    have htext : (repository.auditContextStmt conv uid).text = changecapture.setUserText := rfl
    simp only [htext, if_true, repository.auditContextStmt] at h
    exact (Prod.mk.inj h).2.symm

/-- On the store, an insert that succeeds under a known acting user adds the
new row and its INSERT record. -/
theorem queryRow_insert_ok (st : changecapture.Store) (stmt : repository.Stmt)
    (s : changecapture.Tables) (u : String) (item : domain.Item)
    (hu : s.actingUser = some u) (htext : stmt.text = changecapture.insertText)
    (h : (changecapture.queryRow st stmt s).1 = .ok item) :
    item = st.inserted stmt s ∧
      (changecapture.queryRow st stmt s).2 =
        { s with items := s.items ++ [item],
                 audit := s.audit ++ [⟨item.ID, domain.AuditInsert, u⟩] } := by
  unfold changecapture.queryRow at h ⊢
  cases he : st.stmtErr stmt s with
  | some e => simp [he] at h
  | none =>
    simp only [he, htext, if_true, changecapture.capture, hu] at h ⊢
    simp only [Except.ok.injEq] at h
    subst h
    simp

/-- On the store, an update that succeeds under a known acting user rewrites
the rows with the id and adds their UPDATE records. -/
theorem queryRow_update_ok (st : changecapture.Store) (stmt : repository.Stmt)
    (s : changecapture.Tables) (u : String) (id : UUID) (item : domain.Item)
    (hu : s.actingUser = some u) (htext : stmt.text ≠ changecapture.insertText)
    (hid : stmt.args.getLast? = some (.uuid id))
    (h : (changecapture.queryRow st stmt s).1 = .ok item) :
    ∃ old more, (s.items.filter fun i => i.ID = id) = old :: more ∧
      item = st.updated stmt old ∧
      (changecapture.queryRow st stmt s).2 =
        { s with items := s.items.map fun i => if i.ID = id then st.updated stmt i else i,
                 audit := s.audit ++
                   (old :: more).map fun i => ⟨i.ID, domain.AuditUpdate, u⟩ } := by
  unfold changecapture.queryRow at h ⊢
  cases he : st.stmtErr stmt s with
  | some e => simp [he] at h
  | none =>
    simp only [he, htext, if_false, hid] at h ⊢
    cases hf : (s.items.filter fun i => i.ID = id) with
    | nil => simp [hf] at h
    | cons old more =>
      simp only [hf, changecapture.capture, hu] at h ⊢
      simp only [Except.ok.injEq] at h
      exact ⟨old, more, rfl, h.symm, rfl⟩

/-- On the store, a delete that succeeds under a known acting user removes the
rows with the id, adds their DELETE records and reports their number. -/
theorem exec_delete_ok (st : changecapture.Store) (id : UUID)
    (s : changecapture.Tables) (u : String) (rows : Int)
    (hu : s.actingUser = some u)
    (h : (changecapture.exec st (repository.deleteStmt id) s).1 = .ok rows) :
    rows = ((s.items.filter fun i => i.ID = id).length : Int) ∧
      (changecapture.exec st (repository.deleteStmt id) s).2 =
        { s with items := s.items.filter fun i => i.ID ≠ id,
                 audit := s.audit ++
                   (s.items.filter fun i => i.ID = id).map
                     fun i => ⟨i.ID, domain.AuditDelete, u⟩ } := by
  unfold changecapture.exec at h ⊢
  cases he : st.stmtErr (repository.deleteStmt id) s with
  | some e => simp [he] at h
  | none =>
    have h1 : "DELETE FROM items WHERE id=$1" ≠ changecapture.setUserText := by decide
    have h2 : "DELETE FROM items WHERE id=$1" = changecapture.deleteText := rfl
    simp only [he] at h ⊢
    simp only [repository.deleteStmt] at h ⊢
    rw [if_neg h1, if_pos h2] at h ⊢
    cases hf : (s.items.filter fun i => i.ID = id) with
    | nil =>
      simp only [hf, changecapture.capture] at h ⊢
      simp only [Except.ok.injEq] at h
      exact ⟨h.symm, by simp⟩
    | cons old more =>
      simp only [hf, changecapture.capture, hu] at h ⊢
      simp only [Except.ok.injEq] at h
      exact ⟨h.symm, by simp [hu]⟩

section paired
variable {S : Type}

/-- What the callback of a row-returning mutation returns. -/
theorem scanOne_value (eng : repository.Engine S) (stmt : repository.Stmt)
    (tx : repository.Tx S) :
    (repository.scanOne eng stmt tx).1 =
      (match (eng.queryRow stmt tx.working).1 with
        | .error e => (some e, repository.zeroItem)
        | .ok i => (none, i)) := by
  unfold repository.scanOne repository.Tx.queryRow
  cases h : (eng.queryRow stmt tx.working).1 with
  | error e => simp [h]
  | ok i => simp [h]

/-- What the callback of `Delete` returns. -/
theorem deleteOne_value (eng : repository.Engine S) (id : UUID) (tx : repository.Tx S) :
    (repository.deleteOne eng id tx).1.1 =
      (match (eng.exec (repository.deleteStmt id) tx.working).1 with
        | .error e => some e
        | .ok rows => if rows = 0 then some domain.ErrNotFound else none) := by
  unfold repository.deleteOne repository.Tx.exec
  cases h : (eng.exec (repository.deleteStmt id) tx.working).1 with
  | error e => simp [h]
  | ok rows =>
    simp only [h]
    split <;> rfl

/-- The item `Create` returns is the one its unit scanned. -/
theorem create_value (r : repository.ItemRepository S) (uid : UUID)
    (input : domain.CreateItemInput) (db : repository.DB S)
    (h : (r.Create uid input db).1.2 = none) :
    (r.Create uid input db).1.1 =
      some (repository.withAuditContext r.eng r.conv uid
        (repository.scanOne r.eng (repository.createStmt r.conv input))
        repository.zeroItem db).1.2 := by
  have hu := (create_unit r uid input db).1.1 h
  unfold repository.ItemRepository.Create
  simp only [hu]

/-- The item `Update` returns is the one its unit scanned. -/
theorem update_value (r : repository.ItemRepository S) (uid id : UUID)
    (input : domain.UpdateItemInput) (st : repository.Stmt) (db : repository.DB S)
    (hst : repository.updateStmt r.conv id input = some st)
    (h : (r.Update uid id input db).1.2 = none) :
    (r.Update uid id input db).1.1 =
      some (repository.withAuditContext r.eng r.conv uid (repository.scanOne r.eng st)
        repository.zeroItem db).1.2 := by
  have hu := (update_unit r uid id input st db hst).1.1 h
  unfold repository.ItemRepository.Update
  simp only [hst, hu]

end paired

/-- The statement of an update is not the insert, and its last value is the
item id. -/
theorem updateStmt_kind (conv : repository.Conv) (id : UUID) (input : domain.UpdateItemInput)
    (st : repository.Stmt) (hst : repository.updateStmt conv id input = some st) :
    st.text ≠ changecapture.insertText ∧ st.args.getLast? = some (.uuid id) := by
  have hs := updateStmt_shape conv id input st hst
  constructor
  · intro h
    have hd := congrArg (fun s : String => s.data.head?) h
    rw [hs.1] at hd
    have hr : changecapture.insertText.data.head? = some 'I' := by decide
    simp only [String.data_append, hr, List.append_assoc] at hd
    simp at hd
  · rw [hs.2]
    simp

/-- `Create` on the store with its change capture: an error and the committed
state as it was, or the new row and its INSERT record by the acting user,
both committed. -/
theorem create_paired (st : changecapture.Store) (conv : repository.Conv) (uid : UUID)
    (cin : domain.CreateItemInput) (db : repository.DB changecapture.Tables) :
    (((repository.ItemRepository.mk (changecapture.engine st) conv).Create uid cin db).1.2 ≠
        none ∧
      ((repository.ItemRepository.mk (changecapture.engine st) conv).Create uid cin
        db).2.committed = db.committed) ∨
    (((repository.ItemRepository.mk (changecapture.engine st) conv).Create uid cin db).1.2 =
        none ∧
      ∃ item,
        ((repository.ItemRepository.mk (changecapture.engine st) conv).Create uid cin
          db).1.1 = some item ∧
        ((repository.ItemRepository.mk (changecapture.engine st) conv).Create uid cin
          db).2.committed.items = db.committed.items ++ [item] ∧
        ((repository.ItemRepository.mk (changecapture.engine st) conv).Create uid cin
          db).2.committed.audit =
          db.committed.audit ++ [⟨item.ID, domain.AuditInsert, conv.uuidString uid⟩]) := by
  have hcu := create_unit (repository.ItemRepository.mk (changecapture.engine st) conv) uid cin db
  by_cases h : ((repository.ItemRepository.mk (changecapture.engine st) conv).Create uid cin
      db).1.2 = none
  · right
    refine ⟨h, ?_⟩
    have hv := create_value _ uid cin db h
    obtain ⟨n, s1, hctx, hf, heq⟩ := unit_success_inv _ _ _ _ _ _ (hcu.1.1 h)
    have hs1 := exec_setUser st conv uid db.committed s1 n hctx
    rw [scanOne_value] at hf
    cases hq : ((changecapture.engine st).queryRow (repository.createStmt conv cin) s1).1 with
    | error e =>
      simp only [hq] at hf
      cases hf
    | ok item =>
      have hu : s1.actingUser = some (conv.uuidString uid) := by rw [hs1]
      obtain ⟨_, hq2⟩ := queryRow_insert_ok st (repository.createStmt conv cin) s1
        (conv.uuidString uid) item hu rfl hq
      refine ⟨item, ?_, ?_, ?_⟩
      · rw [hv, heq]
        simp only [scanOne_value, hq]
      · rw [hcu.2, heq]
        simp only [scanOne_sends]
        show (changecapture.queryRow st (repository.createStmt conv cin) s1).2.items = _
        rw [hq2, hs1]
      · rw [hcu.2, heq]
        simp only [scanOne_sends]
        show (changecapture.queryRow st (repository.createStmt conv cin) s1).2.audit = _
        rw [hq2, hs1]
  · left
    refine ⟨h, ?_⟩
    rw [hcu.2]
    exact withAuditContext_error_rolls_back _ _ _ _ _ _ (fun h2 => h (hcu.1.2 h2))

/-- `Update` on the store with its change capture: an error and the committed
state as it was, or the rewritten rows and their UPDATE records by the acting
user, both committed. -/
theorem update_paired (st : changecapture.Store) (conv : repository.Conv) (uid id : UUID)
    (uin : domain.UpdateItemInput) (stmt : repository.Stmt)
    (db : repository.DB changecapture.Tables)
    (hst : repository.updateStmt conv id uin = some stmt) :
    (((repository.ItemRepository.mk (changecapture.engine st) conv).Update uid id uin
        db).1.2 ≠ none ∧
      ((repository.ItemRepository.mk (changecapture.engine st) conv).Update uid id uin
        db).2.committed = db.committed) ∨
    (((repository.ItemRepository.mk (changecapture.engine st) conv).Update uid id uin
        db).1.2 = none ∧
      ∃ old more, (db.committed.items.filter fun i => i.ID = id) = old :: more ∧
        ((repository.ItemRepository.mk (changecapture.engine st) conv).Update uid id uin
          db).1.1 = some (st.updated stmt old) ∧
        ((repository.ItemRepository.mk (changecapture.engine st) conv).Update uid id uin
          db).2.committed.items =
          (db.committed.items.map fun i => if i.ID = id then st.updated stmt i else i) ∧
        ((repository.ItemRepository.mk (changecapture.engine st) conv).Update uid id uin
          db).2.committed.audit =
          db.committed.audit ++
            (old :: more).map fun i => ⟨i.ID, domain.AuditUpdate, conv.uuidString uid⟩) := by
  have hcu := update_unit (repository.ItemRepository.mk (changecapture.engine st) conv) uid id
    uin stmt db hst
  by_cases h : ((repository.ItemRepository.mk (changecapture.engine st) conv).Update uid id
      uin db).1.2 = none
  · right
    refine ⟨h, ?_⟩
    have hv := update_value _ uid id uin stmt db hst h
    obtain ⟨n, s1, hctx, hf, heq⟩ := unit_success_inv _ _ _ _ _ _ (hcu.1.1 h)
    have hs1 := exec_setUser st conv uid db.committed s1 n hctx
    rw [scanOne_value] at hf
    cases hq : ((changecapture.engine st).queryRow stmt s1).1 with
    | error e =>
      simp only [hq] at hf
      cases hf
    | ok item =>
      have hu : s1.actingUser = some (conv.uuidString uid) := by rw [hs1]
      have hk := updateStmt_kind conv id uin stmt hst
      obtain ⟨old, more, hfl, hitem, hq2⟩ := queryRow_update_ok st stmt s1
        (conv.uuidString uid) id item hu hk.1 hk.2 hq
      have hitems : s1.items = db.committed.items := by rw [hs1]
      have haudit : s1.audit = db.committed.audit := by rw [hs1]
      refine ⟨old, more, by rw [← hitems]; exact hfl, ?_, ?_, ?_⟩
      · rw [hv, heq]
        simp only [scanOne_value, hq]
        rw [hitem]
      · rw [hcu.2, heq]
        simp only [scanOne_sends]
        show (changecapture.queryRow st stmt s1).2.items = _
        rw [hq2, hitems]
      · rw [hcu.2, heq]
        simp only [scanOne_sends]
        show (changecapture.queryRow st stmt s1).2.audit = _
        rw [hq2, haudit]
  · left
    refine ⟨h, ?_⟩
    rw [hcu.2]
    exact withAuditContext_error_rolls_back _ _ _ _ _ _ (fun h2 => h (hcu.1.2 h2))

/-- `Delete` on the store with its change capture: an error and the committed
state as it was, or the rows removed and their DELETE records by the acting
user, both committed. -/
theorem delete_paired (st : changecapture.Store) (conv : repository.Conv) (uid id : UUID)
    (db : repository.DB changecapture.Tables) :
    (((repository.ItemRepository.mk (changecapture.engine st) conv).Delete uid id db).1 ≠
        none ∧
      ((repository.ItemRepository.mk (changecapture.engine st) conv).Delete uid id
        db).2.committed = db.committed) ∨
    (((repository.ItemRepository.mk (changecapture.engine st) conv).Delete uid id db).1 =
        none ∧
      ∃ old more, (db.committed.items.filter fun i => i.ID = id) = old :: more ∧
        ((repository.ItemRepository.mk (changecapture.engine st) conv).Delete uid id
          db).2.committed.items = (db.committed.items.filter fun i => i.ID ≠ id) ∧
        ((repository.ItemRepository.mk (changecapture.engine st) conv).Delete uid id
          db).2.committed.audit =
          db.committed.audit ++
            (old :: more).map fun i => ⟨i.ID, domain.AuditDelete, conv.uuidString uid⟩) := by
  have hcu := delete_unit (repository.ItemRepository.mk (changecapture.engine st) conv) uid id db
  by_cases h : ((repository.ItemRepository.mk (changecapture.engine st) conv).Delete uid id
      db).1 = none
  · right
    refine ⟨h, ?_⟩
    obtain ⟨n, s1, hctx, hf, heq⟩ := unit_success_inv _ _ _ _ _ _ (hcu.1.1 h)
    have hs1 := exec_setUser st conv uid db.committed s1 n hctx
    rw [deleteOne_value] at hf
    cases hq : ((changecapture.engine st).exec (repository.deleteStmt id) s1).1 with
    | error e =>
      simp only [hq] at hf
      cases hf
    | ok rows =>
      simp only [hq] at hf
      have hrows : rows ≠ 0 := by
        intro h0
        simp [h0] at hf
      have hu : s1.actingUser = some (conv.uuidString uid) := by rw [hs1]
      obtain ⟨hlen, hq2⟩ := exec_delete_ok st id s1 (conv.uuidString uid) rows hu hq
      have hitems : s1.items = db.committed.items := by rw [hs1]
      have haudit : s1.audit = db.committed.audit := by rw [hs1]
      cases hfl : (db.committed.items.filter fun i => i.ID = id) with
      | nil =>
        exfalso
        apply hrows
        rw [hlen, hitems, hfl]
        rfl
      | cons old more =>
        refine ⟨old, more, rfl, ?_, ?_⟩
        · rw [hcu.2, heq]
          simp only [deleteOne_sends]
          show (changecapture.exec st (repository.deleteStmt id) s1).2.items = _
          rw [hq2, hitems]
        · rw [hcu.2, heq]
          simp only [deleteOne_sends]
          show (changecapture.exec st (repository.deleteStmt id) s1).2.audit = _
          rw [hq2, haudit, hitems, hfl]
  · left
    refine ⟨h, ?_⟩
    rw [hcu.2]
    exact withAuditContext_error_rolls_back _ _ _ _ _ _ (fun h2 => h (hcu.1.2 h2))

section atomic
variable {S : Type}

/-- Each of `ItemRepository.Create`, `Update` and `Delete` as one unit, over
any engine: an error leaves the committed state as it was; without error the
committed state is the one reached by the recording statement followed by the
mutation statement, these two sent in this order; a recording that fails
gives an error with only the recording statement sent; a mutation statement
that fails gives an error; the statements sent are none, the recording
statement alone, or both in order. -/
theorem unit_of_each_mutation (r : repository.ItemRepository S) (uid id : UUID)
    (cin : domain.CreateItemInput) (uin : domain.UpdateItemInput) (st : repository.Stmt)
    (db : repository.DB S) (hst : repository.updateStmt r.conv id uin = some st) :
    (((r.Create uid cin db).1.2 ≠ none → (r.Create uid cin db).2.committed = db.committed) ∧
      ((r.Create uid cin db).1.2 = none →
        (r.Create uid cin db).2 =
          ⟨(r.eng.queryRow (repository.createStmt r.conv cin)
              (r.eng.exec (repository.auditContextStmt r.conv uid) db.committed).2).2,
            db.log ++ [repository.auditContextStmt r.conv uid,
              repository.createStmt r.conv cin]⟩) ∧
      (r.eng.begin db.committed = none → ∀ err s1,
        r.eng.exec (repository.auditContextStmt r.conv uid) db.committed = (.error err, s1) →
        (r.Create uid cin db).1.2 ≠ none ∧
          (r.Create uid cin db).2 =
            ⟨db.committed, db.log ++ [repository.auditContextStmt r.conv uid]⟩) ∧
      (r.eng.begin db.committed = none → ∀ n s1 e s2,
        r.eng.exec (repository.auditContextStmt r.conv uid) db.committed = (.ok n, s1) →
        r.eng.queryRow (repository.createStmt r.conv cin) s1 = (.error e, s2) →
        (r.Create uid cin db).1.2 ≠ none) ∧
      ((r.Create uid cin db).2.log = db.log ∨
        (r.Create uid cin db).2.log = db.log ++ [repository.auditContextStmt r.conv uid] ∨
        (r.Create uid cin db).2.log = db.log ++ [repository.auditContextStmt r.conv uid,
              repository.createStmt r.conv cin])) ∧
    (((r.Update uid id uin db).1.2 ≠ none → (r.Update uid id uin db).2.committed = db.committed) ∧
      ((r.Update uid id uin db).1.2 = none →
        (r.Update uid id uin db).2 =
          ⟨(r.eng.queryRow st (r.eng.exec (repository.auditContextStmt r.conv uid) db.committed).2).2,
            db.log ++ [repository.auditContextStmt r.conv uid, st]⟩) ∧
      (r.eng.begin db.committed = none → ∀ err s1,
        r.eng.exec (repository.auditContextStmt r.conv uid) db.committed = (.error err, s1) →
        (r.Update uid id uin db).1.2 ≠ none ∧
          (r.Update uid id uin db).2 =
            ⟨db.committed, db.log ++ [repository.auditContextStmt r.conv uid]⟩) ∧
      (r.eng.begin db.committed = none → ∀ n s1 e s2,
        r.eng.exec (repository.auditContextStmt r.conv uid) db.committed = (.ok n, s1) →
        r.eng.queryRow st s1 = (.error e, s2) →
        (r.Update uid id uin db).1.2 ≠ none) ∧
      ((r.Update uid id uin db).2.log = db.log ∨
        (r.Update uid id uin db).2.log = db.log ++ [repository.auditContextStmt r.conv uid] ∨
        (r.Update uid id uin db).2.log = db.log ++ [repository.auditContextStmt r.conv uid, st])) ∧
    (((r.Delete uid id db).1 ≠ none → (r.Delete uid id db).2.committed = db.committed) ∧
      ((r.Delete uid id db).1 = none →
        (r.Delete uid id db).2 =
          ⟨(r.eng.exec (repository.deleteStmt id)
              (r.eng.exec (repository.auditContextStmt r.conv uid) db.committed).2).2,
            db.log ++ [repository.auditContextStmt r.conv uid,
              repository.deleteStmt id]⟩) ∧
      (r.eng.begin db.committed = none → ∀ err s1,
        r.eng.exec (repository.auditContextStmt r.conv uid) db.committed = (.error err, s1) →
        (r.Delete uid id db).1 ≠ none ∧
          (r.Delete uid id db).2 =
            ⟨db.committed, db.log ++ [repository.auditContextStmt r.conv uid]⟩) ∧
      (r.eng.begin db.committed = none → ∀ n s1 e s2,
        r.eng.exec (repository.auditContextStmt r.conv uid) db.committed = (.ok n, s1) →
        (r.eng.exec (repository.deleteStmt id) s1 = (.error e, s2) ∨
          r.eng.exec (repository.deleteStmt id) s1 = (.ok 0, s2)) →
        (r.Delete uid id db).1 ≠ none) ∧
      ((r.Delete uid id db).2.log = db.log ∨
        (r.Delete uid id db).2.log = db.log ++ [repository.auditContextStmt r.conv uid] ∨
        (r.Delete uid id db).2.log = db.log ++ [repository.auditContextStmt r.conv uid,
              repository.deleteStmt id])) := by
  have hc := create_unit r uid cin db
  have hu := update_unit r uid id uin st db hst
  have hd := delete_unit r uid id db
  have sc := unit_shape r.eng r.conv uid
    (repository.scanOne r.eng (repository.createStmt r.conv cin)) repository.zeroItem db
    (repository.createStmt r.conv cin)
    (fun s => (r.eng.queryRow (repository.createStmt r.conv cin) s).2)
    (fun tx => scanOne_sends r.eng _ tx)
  have su := unit_shape r.eng r.conv uid (repository.scanOne r.eng st) repository.zeroItem db
    st (fun s => (r.eng.queryRow st s).2) (fun tx => scanOne_sends r.eng _ tx)
  have sd := unit_shape r.eng r.conv uid (repository.deleteOne r.eng id) () db
    (repository.deleteStmt id) (fun s => (r.eng.exec (repository.deleteStmt id) s).2)
    (fun tx => deleteOne_sends r.eng id tx)
  refine ⟨⟨?_, ?_, ?_, ?_, ?_⟩, ⟨?_, ?_, ?_, ?_, ?_⟩, ⟨?_, ?_, ?_, ?_, ?_⟩⟩
  · intro h
    rw [hc.2]
    exact sc.1 (fun h2 => h (hc.1.2 h2))
  · intro h
    rw [hc.2]
    exact sc.2.1 (hc.1.1 h)
  · intro hb err s1 hctx
    have h := sc.2.2.1 hb err s1 hctx
    refine ⟨fun h2 => ?_, ?_⟩
    · have h3 := hc.1.1 h2
      rw [h.1] at h3
      cases h3
    · rw [hc.2]
      exact h.2
  · intro hb n s1 e s2 hctx hq
    rw [create_on_error r uid cin db n s1 s2 e hb hctx hq]
    simp
  · rw [hc.2]
    exact sc.2.2.2
  · intro h
    rw [hu.2]
    exact su.1 (fun h2 => h (hu.1.2 h2))
  · intro h
    rw [hu.2]
    exact su.2.1 (hu.1.1 h)
  · intro hb err s1 hctx
    have h := su.2.2.1 hb err s1 hctx
    refine ⟨fun h2 => ?_, ?_⟩
    · have h3 := hu.1.1 h2
      rw [h.1] at h3
      cases h3
    · rw [hu.2]
      exact h.2
  · intro hb n s1 e s2 hctx hq
    rw [update_on_error r uid id uin st db n s1 s2 e hst hb hctx hq]
    simp
  · rw [hu.2]
    exact su.2.2.2
  · intro h
    rw [hd.2]
    exact sd.1 (fun h2 => h (hd.1.2 h2))
  · intro h
    rw [hd.2]
    exact sd.2.1 (hd.1.1 h)
  · intro hb err s1 hctx
    have h := sd.2.2.1 hb err s1 hctx
    refine ⟨fun h2 => ?_, ?_⟩
    · have h3 := hd.1.1 h2
      rw [h.1] at h3
      cases h3
    · rw [hd.2]
      exact h.2
  · intro hb n s1 e s2 hctx hq
    rcases hq with hq | hq
    · rw [delete_on_error r uid id db n s1 s2 (.error e) e hb hctx hq (Or.inl rfl)]
      simp
    · rw [delete_on_error r uid id db n s1 s2 (.ok 0) domain.ErrNotFound hb hctx hq
        (Or.inr ⟨rfl, rfl⟩)]
      simp
  · rw [hd.2]
    exact sd.2.2.2

/-- C24: each of `ItemRepository.Create`, `Update` and `Delete` runs as one
unit in one transaction in which the statement recording the acting user id
is sent first and the mutation statement after it. Over any engine, for each
of the three: if the call reports an error, the committed state is the one
before the call; if it reports none, the committed state is the one reached
by the recording statement followed by the mutation statement, and exactly
these two were sent, in this order; if recording the user id fails, an error
is reported and only the recording statement was sent, so the mutation
statement was never executed; if the mutation statement fails (for Delete
also when it affects no row), an error is reported. On the store with its
change capture, whatever fails by itself, each call ends in one of two ways:
with an error, the items and the audit log committed as they were before, or
without error, the mutated rows committed together with one audit record per
mutated row that names the action and the acting user; so no mutation is
committed without its audit record and no audit record without its mutation. -/
theorem C24_atomic_unit (r : repository.ItemRepository S) (uid id : UUID)
    (cin : domain.CreateItemInput) (uin : domain.UpdateItemInput) (st : repository.Stmt)
    (db : repository.DB S) (cs : changecapture.Store)
    (tdb : repository.DB changecapture.Tables)
    (hst : repository.updateStmt r.conv id uin = some st) :
    (((r.Create uid cin db).1.2 ≠ none → (r.Create uid cin db).2.committed = db.committed) ∧
      ((r.Create uid cin db).1.2 = none →
        (r.Create uid cin db).2 =
          ⟨(r.eng.queryRow (repository.createStmt r.conv cin)
              (r.eng.exec (repository.auditContextStmt r.conv uid) db.committed).2).2,
            db.log ++ [repository.auditContextStmt r.conv uid,
              repository.createStmt r.conv cin]⟩) ∧
      (r.eng.begin db.committed = none → ∀ err s1,
        r.eng.exec (repository.auditContextStmt r.conv uid) db.committed = (.error err, s1) →
        (r.Create uid cin db).1.2 ≠ none ∧
          (r.Create uid cin db).2 =
            ⟨db.committed, db.log ++ [repository.auditContextStmt r.conv uid]⟩) ∧
      (r.eng.begin db.committed = none → ∀ n s1 e s2,
        r.eng.exec (repository.auditContextStmt r.conv uid) db.committed = (.ok n, s1) →
        r.eng.queryRow (repository.createStmt r.conv cin) s1 = (.error e, s2) →
        (r.Create uid cin db).1.2 ≠ none) ∧
      ((r.Create uid cin db).2.log = db.log ∨
        (r.Create uid cin db).2.log = db.log ++ [repository.auditContextStmt r.conv uid] ∨
        (r.Create uid cin db).2.log = db.log ++ [repository.auditContextStmt r.conv uid,
              repository.createStmt r.conv cin])) ∧
    (((r.Update uid id uin db).1.2 ≠ none → (r.Update uid id uin db).2.committed = db.committed) ∧
      ((r.Update uid id uin db).1.2 = none →
        (r.Update uid id uin db).2 =
          ⟨(r.eng.queryRow st (r.eng.exec (repository.auditContextStmt r.conv uid) db.committed).2).2,
            db.log ++ [repository.auditContextStmt r.conv uid, st]⟩) ∧
      (r.eng.begin db.committed = none → ∀ err s1,
        r.eng.exec (repository.auditContextStmt r.conv uid) db.committed = (.error err, s1) →
        (r.Update uid id uin db).1.2 ≠ none ∧
          (r.Update uid id uin db).2 =
            ⟨db.committed, db.log ++ [repository.auditContextStmt r.conv uid]⟩) ∧
      (r.eng.begin db.committed = none → ∀ n s1 e s2,
        r.eng.exec (repository.auditContextStmt r.conv uid) db.committed = (.ok n, s1) →
        r.eng.queryRow st s1 = (.error e, s2) →
        (r.Update uid id uin db).1.2 ≠ none) ∧
      ((r.Update uid id uin db).2.log = db.log ∨
        (r.Update uid id uin db).2.log = db.log ++ [repository.auditContextStmt r.conv uid] ∨
        (r.Update uid id uin db).2.log = db.log ++ [repository.auditContextStmt r.conv uid, st])) ∧
    (((r.Delete uid id db).1 ≠ none → (r.Delete uid id db).2.committed = db.committed) ∧
      ((r.Delete uid id db).1 = none →
        (r.Delete uid id db).2 =
          ⟨(r.eng.exec (repository.deleteStmt id)
              (r.eng.exec (repository.auditContextStmt r.conv uid) db.committed).2).2,
            db.log ++ [repository.auditContextStmt r.conv uid,
              repository.deleteStmt id]⟩) ∧
      (r.eng.begin db.committed = none → ∀ err s1,
        r.eng.exec (repository.auditContextStmt r.conv uid) db.committed = (.error err, s1) →
        (r.Delete uid id db).1 ≠ none ∧
          (r.Delete uid id db).2 =
            ⟨db.committed, db.log ++ [repository.auditContextStmt r.conv uid]⟩) ∧
      (r.eng.begin db.committed = none → ∀ n s1 e s2,
        r.eng.exec (repository.auditContextStmt r.conv uid) db.committed = (.ok n, s1) →
        (r.eng.exec (repository.deleteStmt id) s1 = (.error e, s2) ∨
          r.eng.exec (repository.deleteStmt id) s1 = (.ok 0, s2)) →
        (r.Delete uid id db).1 ≠ none) ∧
      ((r.Delete uid id db).2.log = db.log ∨
        (r.Delete uid id db).2.log = db.log ++ [repository.auditContextStmt r.conv uid] ∨
        (r.Delete uid id db).2.log = db.log ++ [repository.auditContextStmt r.conv uid,
              repository.deleteStmt id])) ∧
    ((((repository.ItemRepository.mk (changecapture.engine cs)
        r.conv).Create uid cin tdb).1.2 ≠ none ∧
        ((repository.ItemRepository.mk (changecapture.engine cs)
            r.conv).Create uid cin tdb).2.committed = tdb.committed) ∨
      (((repository.ItemRepository.mk (changecapture.engine cs)
          r.conv).Create uid cin tdb).1.2 = none ∧
        ∃ item, ((repository.ItemRepository.mk (changecapture.engine cs)
            r.conv).Create uid cin tdb).1.1 = some item ∧
          ((repository.ItemRepository.mk (changecapture.engine cs)
              r.conv).Create uid cin tdb).2.committed.items = tdb.committed.items ++ [item] ∧
          ((repository.ItemRepository.mk (changecapture.engine cs)
              r.conv).Create uid cin tdb).2.committed.audit =
            tdb.committed.audit ++ [⟨item.ID, domain.AuditInsert, r.conv.uuidString uid⟩])) ∧
    ((((repository.ItemRepository.mk (changecapture.engine cs)
        r.conv).Update uid id uin tdb).1.2 ≠ none ∧
        ((repository.ItemRepository.mk (changecapture.engine cs)
            r.conv).Update uid id uin tdb).2.committed = tdb.committed) ∨
      (((repository.ItemRepository.mk (changecapture.engine cs)
          r.conv).Update uid id uin tdb).1.2 = none ∧
        ∃ old more, (tdb.committed.items.filter fun i => i.ID = id) = old :: more ∧
          ((repository.ItemRepository.mk (changecapture.engine cs)
              r.conv).Update uid id uin tdb).1.1 = some (cs.updated st old) ∧
          ((repository.ItemRepository.mk (changecapture.engine cs)
              r.conv).Update uid id uin tdb).2.committed.items =
            (tdb.committed.items.map fun i => if i.ID = id then cs.updated st i else i) ∧
          ((repository.ItemRepository.mk (changecapture.engine cs)
              r.conv).Update uid id uin tdb).2.committed.audit =
            tdb.committed.audit ++
              (old :: more).map fun i => ⟨i.ID, domain.AuditUpdate, r.conv.uuidString uid⟩)) ∧
    ((((repository.ItemRepository.mk (changecapture.engine cs) r.conv).Delete uid id tdb).1 ≠ none ∧
        ((repository.ItemRepository.mk (changecapture.engine cs)
            r.conv).Delete uid id tdb).2.committed = tdb.committed) ∨
      (((repository.ItemRepository.mk (changecapture.engine cs)
          r.conv).Delete uid id tdb).1 = none ∧
        ∃ old more, (tdb.committed.items.filter fun i => i.ID = id) = old :: more ∧
          ((repository.ItemRepository.mk (changecapture.engine cs)
              r.conv).Delete uid id tdb).2.committed.items =
            (tdb.committed.items.filter fun i => i.ID ≠ id) ∧
          ((repository.ItemRepository.mk (changecapture.engine cs)
              r.conv).Delete uid id tdb).2.committed.audit =
            tdb.committed.audit ++
              (old :: more).map fun i => ⟨i.ID, domain.AuditDelete, r.conv.uuidString uid⟩)) := by
  obtain ⟨h1, h2, h3⟩ := unit_of_each_mutation r uid id cin uin st db hst
  exact ⟨h1, h2, h3, create_paired cs r.conv uid cin tdb,
    update_paired cs r.conv uid id uin st tdb hst, delete_paired cs r.conv uid id tdb⟩

end atomic

set_option maxRecDepth 20000 in
/-- The sample runs on the store: a Create on the calm store reports no error;
a Create on the store that cannot tag the transaction and one on the store
that cannot commit report an error. -/
theorem sample_store_runs :
    ((repository.ItemRepository.mk (changecapture.engine testdata.calmStore)
        testdata.conv).Create ⟨1⟩ testdata.itemInput testdata.tablesDB).1.2 = none ∧
    ((repository.ItemRepository.mk (changecapture.engine testdata.untaggedStore)
        testdata.conv).Create ⟨1⟩ testdata.itemInput testdata.tablesDB).1.2 ≠ none ∧
    ((repository.ItemRepository.mk (changecapture.engine testdata.noCommitStore)
        testdata.conv).Create ⟨1⟩ testdata.itemInput testdata.tablesDB).1.2 ≠ none := by
  refine ⟨by decide, by decide, by decide⟩

set_option maxRecDepth 20000 in
/-- C24 on sample engines and stores: a Create that succeeds commits the state
after both statements and has sent the recording statement, then the insert;
on the calm store it commits the new row together with its INSERT record by
user 1; on the store that cannot commit it reports an error and the tables
stay as they were. -/
theorem C24_atomic_unit_witness :
    ((repository.ItemRepository.mk testdata.okEngine testdata.conv).Create ⟨1⟩
        testdata.itemInput testdata.db0).2 =
      ⟨2, [repository.auditContextStmt testdata.conv ⟨1⟩,
        repository.createStmt testdata.conv testdata.itemInput]⟩ ∧
    (((repository.ItemRepository.mk (changecapture.engine testdata.calmStore)
        testdata.conv).Create ⟨1⟩ testdata.itemInput testdata.tablesDB).1.2 = none ∧
      ∃ item,
        ((repository.ItemRepository.mk (changecapture.engine testdata.calmStore)
          testdata.conv).Create ⟨1⟩ testdata.itemInput testdata.tablesDB).1.1 = some item ∧
        ((repository.ItemRepository.mk (changecapture.engine testdata.calmStore)
          testdata.conv).Create ⟨1⟩ testdata.itemInput testdata.tablesDB).2.committed.items =
          testdata.tablesDB.committed.items ++ [item] ∧
        ((repository.ItemRepository.mk (changecapture.engine testdata.calmStore)
          testdata.conv).Create ⟨1⟩ testdata.itemInput testdata.tablesDB).2.committed.audit =
          testdata.tablesDB.committed.audit ++
            [⟨item.ID, domain.AuditInsert, testdata.conv.uuidString ⟨1⟩⟩]) ∧
    (((repository.ItemRepository.mk (changecapture.engine testdata.noCommitStore)
        testdata.conv).Create ⟨1⟩ testdata.itemInput testdata.tablesDB).1.2 ≠ none ∧
      ((repository.ItemRepository.mk (changecapture.engine testdata.noCommitStore)
        testdata.conv).Create ⟨1⟩ testdata.itemInput testdata.tablesDB).2.committed =
        testdata.tablesDB.committed) :=
  ⟨(C24_atomic_unit (repository.ItemRepository.mk testdata.okEngine testdata.conv) ⟨1⟩ ⟨10⟩
      testdata.itemInput testdata.rename testdata.renameStmt testdata.db0 testdata.calmStore
      testdata.tablesDB renameStmt_eq).1.2.1 rfl,
   ((C24_atomic_unit (repository.ItemRepository.mk testdata.okEngine testdata.conv) ⟨1⟩ ⟨10⟩
      testdata.itemInput testdata.rename testdata.renameStmt testdata.db0 testdata.calmStore
      testdata.tablesDB renameStmt_eq).2.2.2.1).resolve_left
      (fun h => h.1 sample_store_runs.1),
   ((C24_atomic_unit (repository.ItemRepository.mk testdata.okEngine testdata.conv) ⟨1⟩ ⟨10⟩
      testdata.itemInput testdata.rename testdata.renameStmt testdata.db0
      testdata.noCommitStore testdata.tablesDB renameStmt_eq).2.2.2.1).resolve_right
      (fun h => sample_store_runs.2.2 h.1)⟩
